import Mathlib

/-!
# Tarredfs: the tar header encoder (`tar.cc`) and the index entry (`index.h`)

A shallow embedding of the header-building code of `tar.cc` and of
`IndexEntry::contentSize` of `index.h`, followed by theorems about them.

Conventions of the embedding.

* A byte is a `Fin 256`; a C array of `char` is a `List Byte`.
* `size_t` is 64 bits wide and `unsigned int` 32 bits wide.  Conversions of the
  signed `off_t` and `time_t` to `size_t` reduce modulo `2 ^ 64`.
* The lengths of the strings handled here are lengths of objects in memory, so
  the block arithmetic on them (`2 + len / 512`, `blocks * 512`) stays far
  below `2 ^ 64` and is written without reduction.
* The libc routines `memset`, `memcpy`, `strncpy` and `snprintf` are modelled
  on the destination array they write to.
* `assert(0)` aborts the program: a function that reaches it returns `none`.
-/

namespace Tarredfs

set_option autoImplicit false

/-! ## Bytes and the libc routines -/

/-- One `char` of storage, read as an unsigned byte. -/
abbrev Byte := Fin 256

/-- The byte of an ASCII character. -/
def ch (c : Char) : Byte := ⟨c.toNat % 256, Nat.mod_lt _ (by decide)⟩

/-- The bytes of a string literal, without the terminating NUL. -/
def cstr (s : String) : List Byte := s.toList.map ch

/-- The bytes of a string literal with its terminating NUL, as it lies in memory. -/
def cstrz (s : String) : List Byte := cstr s ++ [0]

/-- Overwrite the beginning of the array `dst` with `src`. -/
def poke (dst src : List Byte) : List Byte := src ++ dst.drop src.length

/-- The libc call `memset(dst, c, n)`. -/
def memset (dst : List Byte) (c : Byte) (n : Nat) : List Byte :=
  poke dst (List.replicate n c)

/-- The libc call `memcpy(dst, src, n)`; `src` holds at least `n` bytes. -/
def memcpy (dst src : List Byte) (n : Nat) : List Byte :=
  poke dst (src.take n)

/-- The libc call `strncpy(dst, src, n)`: the characters of `src` up to its first NUL,
at most `n` of them, then NUL padding up to `n` bytes. -/
def strncpy (dst src : List Byte) (n : Nat) : List Byte :=
  let s := src.takeWhile (fun b => b ≠ 0)
  poke dst (s.take n ++ List.replicate (n - s.length) 0)

/-- The ASCII digit of `d % 8`. -/
def octDigit (d : Nat) : Byte := ⟨48 + d % 8, by omega⟩

/-- The `w` least significant octal digits of `n`, most significant first. -/
def octDigits : Nat → Nat → List Byte
  | 0, _ => []
  | w + 1, n => octDigits w (n / 8) ++ [octDigit n]

/-- Number of octal digits of `n` (at least one), for `n < 8 ^ (fuel + 1)`. -/
def octLen : Nat → Nat → Nat
  | 0, _ => 1
  | f + 1, n => if n < 8 then 1 else octLen f (n / 8) + 1

/-- The text printf produces for the conversion `%0<width>o` applied to `v`, an unsigned
integer of `bits` bits: all the octal digits of `v`, zero padded on the left to
`width` characters. -/
def fmtOctal (bits width v : Nat) : List Byte :=
  let u := v % 2 ^ bits
  octDigits (max width (octLen (bits / 3) u)) u

/-- The libc call `snprintf(dst, size, ...)` where the conversion produces the text `s`:
at most `size - 1` characters are stored, followed by a NUL. -/
def snprintf (dst : List Byte) (size : Nat) (s : List Byte) : List Byte :=
  poke dst (s.take (size - 1) ++ [0])

/-- The number an octal digit string denotes. -/
def octVal (ds : List Byte) : Nat :=
  ds.foldl (fun acc d => 8 * acc + (d.val - 48)) 0

/-- Conversion of a signed 64-bit integer (`off_t`, `time_t`) to `size_t`. -/
def toSizeT (x : Int) : Nat := (x % 2 ^ 64).toNat

/-! ## Paths and file status -/

/-- A `Path` is handled through `c_str()` and `c_str_len()` only: its bytes. -/
abbrev Path := List Byte

/-- The bytes of the path. -/
def Path.c_str (p : Path) : List Byte := p

/-- The length of the path in bytes. -/
def Path.c_str_len (p : Path) : Nat := p.length

/-- Modelled from the spec: `Path::unRoot`, defined in the absent util.cc; the spec has
"`unRoot()` (strip leading separator)".  The separator is the byte `/`. -/
def Path.unRoot (p : Path) : Path :=
  match p with
  | [] => []
  | b :: rest => if b = ch '/' then rest else b :: rest

/-- The type `struct timespec`. -/
structure Timespec where
  tv_sec : Int
  tv_nsec : Int
deriving DecidableEq, Repr

/-- The type `struct stat` of the C library. -/
structure Stat where
  st_dev : Nat
  st_ino : Nat
  st_nlink : Nat
  st_mode : Nat
  st_uid : Nat
  st_gid : Nat
  st_rdev : Nat
  st_size : Int
  st_blksize : Int
  st_blocks : Int
  st_atim : Timespec
  st_mtim : Timespec
  st_ctim : Timespec
deriving DecidableEq, Repr

/-! The file type and permission constants of `sys/stat.h`. -/

def S_IFMT : Nat := 0o170000
def S_IFSOCK : Nat := 0o140000
def S_IFLNK : Nat := 0o120000
def S_IFREG : Nat := 0o100000
def S_IFBLK : Nat := 0o060000
def S_IFDIR : Nat := 0o040000
def S_IFCHR : Nat := 0o020000
def S_IFIFO : Nat := 0o010000

def S_ISLNK (m : Nat) : Bool := m &&& S_IFMT == S_IFLNK
def S_ISREG (m : Nat) : Bool := m &&& S_IFMT == S_IFREG
def S_ISCHR (m : Nat) : Bool := m &&& S_IFMT == S_IFCHR
def S_ISBLK (m : Nat) : Bool := m &&& S_IFMT == S_IFBLK
def S_ISDIR (m : Nat) : Bool := m &&& S_IFMT == S_IFDIR
def S_ISFIFO (m : Nat) : Bool := m &&& S_IFMT == S_IFIFO

def S_ISUID : Nat := 0o4000
def S_ISGID : Nat := 0o2000
def S_ISVTX : Nat := 0o1000
def S_IRUSR : Nat := 0o400
def S_IWUSR : Nat := 0o200
def S_IXUSR : Nat := 0o100
def S_IRGRP : Nat := 0o040
def S_IWGRP : Nat := 0o020
def S_IXGRP : Nat := 0o010
def S_IROTH : Nat := 0o004
def S_IWOTH : Nat := 0o002
def S_IXOTH : Nat := 0o001

/-! ## The constants of `tar.cc` -/

def T_NAMELEN : Nat := 100
def T_LINKLEN : Nat := 100

/-- Modelled from the spec: `T_BLOCKSIZE` of the absent tar.h; "Blocks are 512 bytes",
and `tar.cc` asserts `sizeof(TarHeaderContents) == T_BLOCKSIZE`. -/
def T_BLOCKSIZE : Nat := 512

def REGTYPE : Byte := ch '0'
def LNKTYPE : Byte := ch '1'
def SYMTYPE : Byte := ch '2'
def CHRTYPE : Byte := ch '3'
def BLKTYPE : Byte := ch '4'
def DIRTYPE : Byte := ch '5'
def FIFOTYPE : Byte := ch '6'

def GNU_LONGNAME_TYPE : Byte := ch 'L'
def GNU_LONGLINK_TYPE : Byte := ch 'K'

def TSUID : Nat := 0o4000
def TSGID : Nat := 0o2000
def TSVTX : Nat := 0o1000
def TUREAD : Nat := 0o400
def TUWRITE : Nat := 0o200
def TUEXEC : Nat := 0o100
def TGREAD : Nat := 0o040
def TGWRITE : Nat := 0o020
def TGEXEC : Nat := 0o010
def TOREAD : Nat := 0o004
def TOWRITE : Nat := 0o002
def TOEXEC : Nat := 0o001

/-! ## The header block -/

/-- Modelled from the spec: the member layout of `TarHeaderContents`, declared in the
absent tar.h.  It is the ustar header of the spec ("ustar with GNU long-name/link
extensions"), 512 bytes in all; `tar.cc` names the members `name_`, `mode_`, `uid_`,
`gid_`, `size_`, `mtime_`, `checksum_`, `typeflag_`, `linkname_`, `magic_`,
`version_`, `uname_` and `gname_`, and the sizes it passes for them are the ustar
ones.  The union member `buf` is read as unsigned bytes, as the spec has it. -/
structure TarHeaderContents where
  name_ : List Byte
  mode_ : List Byte
  uid_ : List Byte
  gid_ : List Byte
  size_ : List Byte
  mtime_ : List Byte
  checksum_ : List Byte
  typeflag_ : Byte
  linkname_ : List Byte
  magic_ : List Byte
  version_ : List Byte
  uname_ : List Byte
  gname_ : List Byte
  devmajor_ : List Byte
  devminor_ : List Byte
  prefix_ : List Byte
  padding_ : List Byte
deriving DecidableEq, Repr

/-- The union member `buf`: the members as one array of bytes. -/
def TarHeaderContents.buf (c : TarHeaderContents) : List Byte :=
  c.name_ ++ c.mode_ ++ c.uid_ ++ c.gid_ ++ c.size_ ++ c.mtime_ ++ c.checksum_ ++
    [c.typeflag_] ++ c.linkname_ ++ c.magic_ ++ c.version_ ++ c.uname_ ++ c.gname_ ++
    c.devmajor_ ++ c.devminor_ ++ c.prefix_ ++ c.padding_

/-- The effect of `memset(&content.members, 0, sizeof(content.members))`. -/
def TarHeaderContents.zero : TarHeaderContents where
  name_ := List.replicate 100 0
  mode_ := List.replicate 8 0
  uid_ := List.replicate 8 0
  gid_ := List.replicate 8 0
  size_ := List.replicate 12 0
  mtime_ := List.replicate 12 0
  checksum_ := List.replicate 8 0
  typeflag_ := 0
  linkname_ := List.replicate 100 0
  magic_ := List.replicate 6 0
  version_ := List.replicate 2 0
  uname_ := List.replicate 32 0
  gname_ := List.replicate 32 0
  devmajor_ := List.replicate 8 0
  devminor_ := List.replicate 8 0
  prefix_ := List.replicate 155 0
  padding_ := List.replicate 12 0

/-- The class `TarHeader`: the header block and the three block counts. -/
structure TarHeader where
  content : TarHeaderContents
  num_long_path_blocks_ : Nat
  num_long_link_blocks_ : Nat
  num_header_blocks_ : Nat
deriving DecidableEq, Repr

/-! ## The functions of `tar.cc` -/

/-- The function `store_path_`: the flag it returns and the array `name_str` after the
call (`none` for a NULL `name_str`). -/
def store_path_ (path : Path) (name_str : Option (List Byte)) (nlen : Nat) :
    Bool × Option (List Byte) :=
  if path.c_str_len ≤ nlen then
    (true, name_str.map (fun dst => strncpy dst path.c_str nlen))
  else
    (false, name_str)

/-- What `calculate_header_size_` returns and leaves behind its pointer arguments. -/
structure HeaderSize where
  size : Nat
  name_str : Option (List Byte)
  link_str : Option (List Byte)
  num_long_path_blocks : Nat
  num_long_link_blocks : Nat
  num_header_blocks : Nat
deriving DecidableEq, Repr

/-- The function `calculate_header_size_`. -/
def calculate_header_size_ (_sb : Stat) (tarpath : Path) (link : Option Path)
    (name_str link_str : Option (List Byte)) : HeaderSize :=
  let num_long_path_blocks := 0
  let num_long_link_blocks := 0
  let num_header_blocks := 1
  let (name_fits, name_str) := store_path_ tarpath name_str T_NAMELEN
  let num_long_path_blocks :=
    if !name_fits then 2 + tarpath.c_str_len / T_BLOCKSIZE else num_long_path_blocks
  let num_header_blocks :=
    if !name_fits then num_header_blocks + num_long_path_blocks else num_header_blocks
  match link with
  | some l =>
    let (link_fits, link_str) := store_path_ l link_str T_LINKLEN
    let num_long_link_blocks :=
      if !link_fits then 2 + l.c_str_len / T_BLOCKSIZE else num_long_link_blocks
    let num_header_blocks :=
      if !link_fits then num_header_blocks + num_long_link_blocks else num_header_blocks
    { size := num_header_blocks * T_BLOCKSIZE, name_str := name_str, link_str := link_str,
      num_long_path_blocks := num_long_path_blocks,
      num_long_link_blocks := num_long_link_blocks,
      num_header_blocks := num_header_blocks }
  | none =>
    { size := num_header_blocks * T_BLOCKSIZE, name_str := name_str, link_str := link_str,
      num_long_path_blocks := num_long_path_blocks,
      num_long_link_blocks := num_long_link_blocks,
      num_header_blocks := num_header_blocks }

/-- The link the header is built from: un-rooted when a link is given and it is a hard
link (`if (link && is_hard_link) link = link->unRoot();`). -/
def effectiveLink (link : Option Path) (is_hard_link : Bool) : Option Path :=
  match link with
  | some l => if is_hard_link then some l.unRoot else some l
  | none => none

/-- The function `TarHeader::calculateSize`. -/
def calculateSize (sb : Stat) (tarpath : Path) (link : Option Path) (is_hard_link : Bool) :
    Nat :=
  (calculate_header_size_ sb tarpath (effectiveLink link is_hard_link) none none).size

/-- The function `getTypeFlagFrom`; `none` when it reaches `assert(0)`. -/
def getTypeFlagFrom (sb : Stat) (is_hard_link : Bool) : Option Byte :=
  if is_hard_link then some LNKTYPE
  else if S_ISLNK sb.st_mode then some SYMTYPE
  else if S_ISREG sb.st_mode then some REGTYPE
  else if S_ISCHR sb.st_mode then some CHRTYPE
  else if S_ISBLK sb.st_mode then some BLKTYPE
  else if S_ISDIR sb.st_mode then some DIRTYPE
  else if S_ISFIFO sb.st_mode then some FIFOTYPE
  else none

/-- The local `bits` of `writeModeFlagFrom` after the twelve tests. -/
def modeBits (st_mode : Nat) : Nat :=
  let bits := 0
  let bits := if st_mode &&& S_ISUID ≠ 0 then bits ||| TSUID else bits
  let bits := if st_mode &&& S_ISGID ≠ 0 then bits ||| TSGID else bits
  let bits := if st_mode &&& S_ISVTX ≠ 0 then bits ||| TSVTX else bits
  let bits := if st_mode &&& S_IRUSR ≠ 0 then bits ||| TUREAD else bits
  let bits := if st_mode &&& S_IWUSR ≠ 0 then bits ||| TUWRITE else bits
  let bits := if st_mode &&& S_IXUSR ≠ 0 then bits ||| TUEXEC else bits
  let bits := if st_mode &&& S_IRGRP ≠ 0 then bits ||| TGREAD else bits
  let bits := if st_mode &&& S_IWGRP ≠ 0 then bits ||| TGWRITE else bits
  let bits := if st_mode &&& S_IXGRP ≠ 0 then bits ||| TGEXEC else bits
  let bits := if st_mode &&& S_IROTH ≠ 0 then bits ||| TOREAD else bits
  let bits := if st_mode &&& S_IWOTH ≠ 0 then bits ||| TOWRITE else bits
  let bits := if st_mode &&& S_IXOTH ≠ 0 then bits ||| TOEXEC else bits
  bits

/-- The function `writeModeFlagFrom`: the array `mode` after the call. -/
def writeModeFlagFrom (sb : Stat) (mode : List Byte) : List Byte :=
  snprintf mode 8 (fmtOctal 32 7 (modeBits sb.st_mode))

/-- The function `TarHeader::calculateChecksum`, on the header block. -/
def calculateChecksum (c : TarHeaderContents) : TarHeaderContents :=
  let c1 := { c with checksum_ := memset c.checksum_ 32 8 }
  let checksum := c1.buf.foldl (fun acc b => (acc + b.val) % 2 ^ 32) 0
  { c1 with checksum_ := snprintf c1.checksum_ 8 (fmtOctal 32 7 checksum) }

/-- The constructor `TarHeader::TarHeader(sb, tarpath, link, is_hard_link)`; `none`
when `getTypeFlagFrom` aborts. -/
def TarHeader.new (sb : Stat) (tarpath : Path) (link : Option Path) (is_hard_link : Bool) :
    Option TarHeader :=
  let c := TarHeaderContents.zero
  let link := effectiveLink link is_hard_link
  let r := calculate_header_size_ sb tarpath link (some c.name_) (some c.linkname_)
  let c := { c with name_ := r.name_str.getD c.name_, linkname_ := r.link_str.getD c.linkname_ }
  let c := { c with mode_ := writeModeFlagFrom sb c.mode_ }
  let c := { c with uid_ := memcpy c.uid_ (cstrz "0000000") 8 }
  let c := { c with gid_ := memcpy c.gid_ (cstrz "0000000") 8 }
  let s : Nat := if S_ISREG sb.st_mode then toSizeT sb.st_size else 0
  let c := { c with size_ := snprintf c.size_ 12 (fmtOctal 64 11 s) }
  let c := { c with mtime_ := snprintf c.mtime_ 12 (fmtOctal 64 11 (toSizeT sb.st_mtim.tv_sec)) }
  let c := { c with checksum_ := memset c.checksum_ (ch ' ') 8 }
  match getTypeFlagFrom sb is_hard_link with
  | none => none
  | some t =>
    let c := { c with typeflag_ := t }
    let c := { c with magic_ := memcpy c.magic_ (cstrz "ustar ") 6 }
    let c := { c with version_ := memcpy c.version_ (cstrz " ") 2 }
    let c := { c with uname_ := memcpy c.uname_ (cstrz "beak") 5 }
    let c := { c with gname_ := memcpy c.gname_ (cstrz "beak") 5 }
    some { content := calculateChecksum c,
           num_long_path_blocks_ := r.num_long_path_blocks,
           num_long_link_blocks_ := r.num_long_link_blocks,
           num_header_blocks_ := r.num_header_blocks }

/-- The function `TarHeader::setSize`. -/
def TarHeader.setSize (h : TarHeader) (s : Nat) : TarHeader :=
  { h with content := { h.content with size_ := snprintf h.content.size_ 12 (fmtOctal 64 11 s) } }

/-! ## `index.h` -/

/-- The numeric members of `struct IndexEntry` that `contentSize` and `diskSize` read;
`num_parts` is a `uint` (32 bits), the sizes are `size_t`. -/
structure IndexEntry where
  num_parts : Nat
  part_offset : Nat
  part_size : Nat
  last_part_size : Nat
  ondisk_part_size : Nat
  ondisk_last_part_size : Nat
deriving DecidableEq, Repr

/-- The method `IndexEntry::contentSize`.  `num_parts - 1` is computed in `uint`, so it
wraps to `2 ^ 32 - 1` for `num_parts = 0`. -/
def IndexEntry.contentSize (e : IndexEntry) (partnr : Nat) : Nat :=
  if partnr = (e.num_parts + 2 ^ 32 - 1) % 2 ^ 32 then e.last_part_size else e.part_size

/-- The libc call `strcpy(dst, src)`: the characters of `src` up to its first NUL, and
a NUL. -/
def strcpy (dst src : List Byte) : List Byte :=
  poke dst (src.takeWhile (fun b => b ≠ 0) ++ [0])

/-- The function `TarHeader::setLongLinkType`: `self` is the header it is called on. -/
def TarHeader.setLongLinkType (self file : TarHeader) : TarHeader :=
  let content := file.content
  let content := { content with mtime_ := snprintf content.mtime_ 12 (fmtOctal 64 11 0) }
  let content := { content with typeflag_ := GNU_LONGLINK_TYPE }
  let content := { content with name_ := strcpy content.name_ (cstrz "././@LongLink") }
  { self with content := content }

/-- The function `TarHeader::setLongPathType`: `self` is the header it is called on. -/
def TarHeader.setLongPathType (self file : TarHeader) : TarHeader :=
  let content := file.content
  let content := { content with mtime_ := snprintf content.mtime_ 12 (fmtOctal 64 11 0) }
  let content := { content with typeflag_ := GNU_LONGNAME_TYPE }
  let content := { content with name_ := strcpy content.name_ (cstrz "././@LongLink") }
  { self with content := content }

/-! ## `main.cc` -/

/-- The two values of the class `RC` that the sources use: `RC::OK` and `RC::ERR`. -/
inductive RC where
  | OK
  | ERR
deriving DecidableEq, Repr

/-- The test `rc.isErr()`. -/
def RC.isErr (rc : RC) : Bool := rc = RC.ERR

/-- The test `rc.isOk()`. -/
def RC.isOk (rc : RC) : Bool := rc = RC.OK

/-- Modelled from the spec: `RC::toInteger` of the absent always.h; the spec has
"Exit codes: `0` success; non-zero on any subprocess failure, mount failure, or parse
failure". -/
def RC.toInteger (rc : RC) : Int :=
  match rc with
  | RC.OK => 0
  | RC.ERR => 1

/-- The commands `main` switches on. -/
inductive Command where
  | check_cmd
  | config_cmd
  | diff_cmd
  | genautocomplete_cmd
  | genmounttrigger_cmd
  | history_cmd
  | mount_cmd
  | prune_cmd
  | push_cmd
  | pull_cmd
  | remount_cmd
  | restore_cmd
  | status_cmd
  | store_cmd
  | umount_cmd
  | version_cmd
  | help_cmd
  | nosuch_cmd
deriving DecidableEq, Repr

/-- What the methods of the `Beak` object return when `main` calls them on the parsed
settings; the object itself is not among the sources. -/
structure Beak where
  check : RC
  configure : RC
  mountForwardDaemon : RC
  prune : RC
  push : RC
  remountReverseDaemon : RC
  restoreReverse : RC
  status : RC
  storeForward : RC
  umountDaemon : RC
deriving DecidableEq, Repr

/-- The function `main`, from the command that `parseCommandLine` returned on: the
value of `rc` after the switch, turned into the exit code. -/
def main (beak : Beak) (cmd : Command) : Int :=
  let rc := RC.OK
  let rc :=
    match cmd with
    | Command.check_cmd => beak.check
    | Command.config_cmd => beak.configure
    | Command.diff_cmd => rc
    | Command.genautocomplete_cmd => rc
    | Command.genmounttrigger_cmd => rc
    | Command.history_cmd => rc
    | Command.mount_cmd => beak.mountForwardDaemon
    | Command.prune_cmd => beak.prune
    | Command.push_cmd => beak.push
    | Command.pull_cmd => rc
    | Command.remount_cmd => beak.remountReverseDaemon
    | Command.restore_cmd => beak.restoreReverse
    | Command.status_cmd => beak.status
    | Command.store_cmd => beak.storeForward
    | Command.umount_cmd => beak.umountDaemon
    | Command.version_cmd => rc
    | Command.help_cmd => rc
    | Command.nosuch_cmd => rc
  rc.toInteger

/-! ## `system_posix.cc` -/

/-- The macro `WIFEXITED` of `sys/wait.h`. -/
def WIFEXITED (status : Nat) : Bool := status &&& 0x7f == 0

/-- The macro `WEXITSTATUS` of `sys/wait.h`. -/
def WEXITSTATUS (status : Nat) : Nat := (status &&& 0xff00) >>> 8

/-- The macro `WIFSIGNALED` of `sys/wait.h`. -/
def WIFSIGNALED (status : Nat) : Bool :=
  decide (0 < status &&& 0x7f ∧ status &&& 0x7f < 0x7f)

/-- The function `SystemImplementation::invoke` in the parent process, from the wait
status that `waitpid` stored for the child: the value it returns. -/
def invoke (status : Nat) : RC :=
  if WIFEXITED status then
    let rc := WEXITSTATUS status
    if rc ≠ 0 then RC.ERR else RC.OK
  else RC.OK

/-! ## `storagetool.cc` -/

/-- A `std::map<Path*, T>`, as the function from a key to its value. -/
abbrev PathMap (α : Type) := Path → Option α

/-- The empty map. -/
def PathMap.empty {α : Type} : PathMap α := fun _ => none

/-- The assignment `m[k] = v`. -/
def PathMap.assign {α : Type} (m : PathMap α) (k : Path) (v : α) : PathMap α :=
  fun x => if x = k then some v else m x

/-- The value of `m.count(k)`. -/
def PathMap.count {α : Type} (m : PathMap α) (k : Path) : Nat :=
  if (m k).isSome then 1 else 0

/-- Modelled from the spec: the type `FileStat` of the absent util.h, with the members
the sources under `src/` read or write; the spec has "FileStat. Mode bits (Unix
permission + set-uid/gid/sticky), owner/group, size, mtime as (seconds, nanoseconds)". -/
structure FileStat where
  st_mode : Nat
  st_size : Int
  st_mtim : Timespec
deriving DecidableEq, Repr

/-- Modelled from the spec: a default-constructed `FileStat` (absent util.h): every
member is zero. -/
def FileStat.zero : FileStat := ⟨0, 0, ⟨0, 0⟩⟩

/-- Modelled from the spec: `FileStat::isDirectory` of the absent util.h: the mode bits
say directory. -/
def FileStat.isDirectory (fs : FileStat) : Bool := S_ISDIR fs.st_mode

/-- Modelled from the spec: `FileStat::setAsDirectory` of the absent util.h; the spec
has "directories inferred from parent segments": the stat becomes that of a
directory. -/
def FileStat.setAsDirectory (fs : FileStat) : FileStat :=
  { fs with st_mode := fs.st_mode ||| S_IFDIR }

/-- Modelled from the spec: the enumeration `TarContents` of the absent tarfile.h.  The
sources name `REG_FILE` only; it is the type of the `z…gz` index file, whose name
carries the size 0 (the example line in `listBeakFiles`); the other values are the
kinds of payload tar files. -/
inductive TarContents where
  | REG_FILE
  | DIR_TAR
  | SMALL_FILES_TAR
  | MEDIUM_FILES_TAR
  | SINGLE_LARGE_FILE_TAR
deriving DecidableEq, Repr

/-- Modelled from the spec: the type `TarFileName` of the absent tarfile.h, with the
members `storagetool.cc` reads; the spec has "SegmentName: type, timestamp (s,ns),
logical size, fingerprint, part index". -/
structure TarFileName where
  type : TarContents
  secs : Int
  nsecs : Int
  size : Nat
  path : Path
deriving DecidableEq, Repr

/-- The kinds of storage. -/
inductive StorageType where
  | NoSuchStorage
  | FileSystemStorage
  | RSyncStorage
  | RCloneStorage
deriving DecidableEq, Repr

/-- The members of `Storage` that `storagetool.cc` reads. -/
structure Storage where
  type : StorageType
  storage_location : Path
deriving DecidableEq, Repr

/-- The functions of the absent util.cc and tarfile.cc that `storagetool.cc` calls,
taken as parameters: `TarFile::parseFileName` (`none` when it returns false),
`p->prepend(root)`, `p->parent()` (`none` for NULL) and `Path::lookup`. -/
structure Absent where
  parseFileName : List Byte → Option TarFileName
  prepend : Path → Path → Path
  parent : Path → Option Path
  lookup : List Byte → Path

/-- The libc predicate `isspace`. -/
def isspace (b : Byte) : Bool := b.val == 32 || (9 ≤ b.val && b.val ≤ 13)

/-- The libc predicate `isdigit`. -/
def isdigit (b : Byte) : Bool := 48 ≤ b.val && b.val ≤ 57

/-- The number the leading decimal digits of `s` denote. -/
def decimalValue (s : List Byte) : Nat :=
  (s.takeWhile isdigit).foldl (fun acc d => 10 * acc + (d.val - 48)) 0

/-- The libc function `atol`: white space, an optional sign, decimal digits; the value
is kept within the range of `long`. -/
def atol (s : List Byte) : Int :=
  match s.dropWhile isspace with
  | [] => 0
  | c :: r =>
    if c = ch '-' then max (-(decimalValue r : Int)) (-(2 ^ 63))
    else if c = ch '+' then min (decimalValue r : Int) (2 ^ 63 - 1)
    else min (decimalValue (c :: r) : Int) (2 ^ 63 - 1)

/-- Conversion of a `size_t` to the signed `off_t`. -/
def toOffT (n : Nat) : Int := if n % 2 ^ 64 < 2 ^ 63 then n % 2 ^ 64 else n % 2 ^ 64 - 2 ^ 64

/-- Modelled from the spec: what the tokenizer of the absent util.cc (`eatWhitespace`,
`eatTo`) makes of the output of `rclone ls`; the spec has "Parses the remote listing
line-by-line".  `lines` are the size text and the file name of the lines read before
the loop ends; `err` tells whether it ended on an error rather than at the end of the
output. -/
structure Listing where
  lines : List (List Byte × List Byte)
  err : Bool
deriving DecidableEq, Repr

/-- The four containers `listBeakFiles` fills. -/
structure ListResult where
  files : List TarFileName
  bad_files : List TarFileName
  other_files : List (List Byte)
  contents : PathMap FileStat

/-- The body of the loop of `listBeakFiles` after the two `eatTo` calls gave `size` and
`file_name`. -/
def listLine (A : Absent) (storage : Storage) (r : ListResult) (size file_name : List Byte) :
    ListResult :=
  match A.parseFileName file_name with
  | some tfn =>
    let siz := toSizeT (atol size)
    if (tfn.type ≠ TarContents.REG_FILE ∧ tfn.size = siz) ∨
        (tfn.type = TarContents.REG_FILE ∧ tfn.size = 0) then
      let p := A.prepend tfn.path storage.storage_location
      let fs := FileStat.zero
      let fs := { fs with st_size := toOffT siz }
      let fs := { fs with st_mtim := ⟨tfn.secs, fs.st_mtim.tv_nsec⟩ }
      let fs := { fs with st_mtim := ⟨fs.st_mtim.tv_sec, tfn.nsecs⟩ }
      { r with files := r.files ++ [tfn], contents := r.contents.assign p fs }
    else
      { r with bad_files := r.bad_files ++ [tfn] }
  | none => { r with other_files := r.other_files ++ [file_name] }

/-- The loop of `listBeakFiles` over the lines the tokenizer yields. -/
def listLoop (A : Absent) (storage : Storage) (lines : List (List Byte × List Byte))
    (r : ListResult) : ListResult :=
  lines.foldl (fun r l => listLine A storage r l.1 l.2) r

/-- The function `StorageToolImplementation::listBeakFiles`: `rc` is what the invocation
of `rclone ls` returned, `listing` what the tokenizer makes of its output, `r` the
containers as the caller passes them.  `none` when the assertion on the storage type
fails. -/
def listBeakFiles (A : Absent) (storage : Storage) (rc : RC) (listing : Listing)
    (r : ListResult) : Option (RC × ListResult) :=
  if storage.type ≠ StorageType.RCloneStorage then none
  else if rc.isErr then some (RC.ERR, r)
  else
    let r := listLoop A storage listing.lines r
    if listing.err then some (RC.ERR, r) else some (RC.OK, r)

/-- One call of `sys_->invoke`: the program and its arguments. -/
structure InvokeCall where
  program : List Byte
  args : List (List Byte)
deriving DecidableEq, Repr

/-- What `sendBeakFilesToStorage` does: the contents it hands to `mkTempFile`, the call
of `invoke`, and the value it returns. -/
structure SendOutcome where
  tmp_content : List Byte
  call : InvokeCall
  rc : RC
deriving DecidableEq, Repr

/-- The function `StorageToolImplementation::sendBeakFilesToStorage`.  `mkTempFile`
gives the path of the temporary file for a prefix and its contents, `sys_invoke` the
value `sys_->invoke` returns for a call; `files` is `none` for a NULL pointer.  `none`
when the assertion on the storage type fails. -/
def sendBeakFilesToStorage (mkTempFile : List Byte → List Byte → Path)
    (sys_invoke : InvokeCall → RC) (dir : Path) (storage : Storage)
    (files : Option (List TarFileName)) : Option SendOutcome :=
  if storage.type ≠ StorageType.RCloneStorage then none
  else
    let files_to_fetch : List Byte :=
      match files with
      | some fl => fl.foldl (fun acc tfn => acc ++ tfn.path ++ cstr "\n") []
      | none => []
    let tmp := mkTempFile (cstr "beak_fetching") files_to_fetch
    let args := [cstr "copy"]
    let args := if files.isSome then args ++ [cstr "--include-from"] ++ [tmp] else args
    let args := args ++ [dir]
    let args := args ++ [storage.storage_location]
    let call : InvokeCall := ⟨cstr "rclone", args⟩
    some ⟨files_to_fetch, call, sys_invoke call⟩

/-- The members of `st->stats` that `storagetool.cc` updates; the counters are
`size_t`. -/
structure Stats where
  num_files : Nat
  size_files : Nat
  num_dirs : Nat
  num_files_to_store : Nat
  size_files_to_store : Nat
  num_files_stored : Nat
  size_files_stored : Nat
  file_sizes : PathMap Nat

/-- The byte `buf[i]` of the read buffer of `invoke`: the buffer is zeroed before each
read, so the bytes after the data are NUL. -/
def bufAt (buf : List Byte) (i : Nat) : Byte := buf.getD i 0

/-- The first loop of the output callback, `for (from=1; from<len-1; ++from)`, with
`lim` the value of `len-1`: the value of `from` after the loop.  The loop leaves at
`from = lim` at the latest, so `fuel = lim` never runs out. -/
def scanFromLoop (buf : List Byte) (lim : Nat) : Nat → Nat → Nat
  | 0, from_ => from_
  | fuel + 1, from_ =>
    if from_ < lim then
      if bufAt buf (from_ - 1) = ch ' ' ∧ bufAt buf from_ = ch ':' ∧
          bufAt buf (from_ + 1) = ch ' ' then from_ + 2
      else scanFromLoop buf lim fuel (from_ + 1)
    else from_

/-- The value of `from` after the first loop; `len-1` is computed in `size_t`. -/
def scanFrom (buf : List Byte) (len : Nat) : Nat :=
  scanFromLoop buf ((len + 2 ^ 64 - 1) % 2 ^ 64) ((len + 2 ^ 64 - 1) % 2 ^ 64) 1

/-- The second loop of the output callback, `for (to=len-2; to>from; --to)`, from the
current value of `to`: the value of `to` after the loop. -/
def scanToLoop (buf : List Byte) (from_ : Nat) : Nat → Nat
  | 0 => 0
  | t + 1 =>
    if t + 1 > from_ then
      if bufAt buf (t + 1) = ch ':' ∧ bufAt buf (t + 1 + 1) = ch ' ' then t + 1
      else scanToLoop buf from_ t
    else t + 1

/-- The value of `to` after the second loop; `len-2` is computed in `size_t`. -/
def scanTo (buf : List Byte) (len from_ : Nat) : Nat :=
  scanToLoop buf from_ ((len + 2 ^ 64 - 2) % 2 ^ 64)

/-- The local `file` of the output callback:
`storage_location->str() + "/" + string(buf+from, to-from)`. -/
def copiedFile (storage : Storage) (buf : List Byte) (len : Nat) : List Byte :=
  let from_ := scanFrom buf len
  let to_ := scanTo buf len from_
  storage.storage_location ++ cstr "/"
    ++ (buf.drop from_).take ((to_ + 2 ^ 64 - from_) % 2 ^ 64)

/-- The output callback that `storeBackupIntoStorage` hands to `invoke`, on the
statistics. -/
def outputCallback (A : Absent) (storage : Storage) (stats : Stats) (buf : List Byte)
    (len : Nat) : Stats :=
  let file := copiedFile storage buf len
  let path := A.lookup file
  if stats.file_sizes.count path ≠ 0 then
    let size := (stats.file_sizes path).getD 0
    let stats := { stats with size_files_stored := (stats.size_files_stored + size) % 2 ^ 64 }
    { stats with num_files_stored := (stats.num_files_stored + 1) % 2 ^ 64 }
  else stats

/-- Modelled from the spec: the type `CacheEntry` of the absent filesystem_helpers.h,
as `CacheEntry(stat, path, cached)` builds it; the spec has "directories inferred from
parent segments, files stat-only until a read occurs".  The member `direntries`, a
vector of pointers to entries of the map, is the list of the keys of these entries. -/
structure CacheEntry where
  fs : FileStat
  path : Path
  cached : Bool
  direntries : List Path
deriving DecidableEq, Repr

/-- The variables of the loop of `loadDirectoryStructure`: the map `entries` and
`prev_dir_cache_entry`, a pointer to an entry of the map (its key; `none` for NULL).
The variable `prev_dir` is never assigned in the loop: it is NULL throughout. -/
structure LoadState where
  entries : PathMap CacheEntry
  prev_dir_cache_entry : Option Path

/-- The body of the loop of `loadDirectoryStructure` for one pair `p` of the contents
map; `none` when it dereferences a NULL `dir_entry`.  As `prev_dir` is NULL, the test
`dir == prev_dir` holds exactly when `parent()` returns NULL. -/
def loadStep (A : Absent) (dir_stat : FileStat) (s : LoadState) (p : Path × FileStat) :
    Option LoadState :=
  let s1 : LoadState :=
    match A.parent p.1 with
    | none => s
    | some dir =>
      let entries :=
        if s.entries.count dir = 0 then s.entries.assign dir ⟨dir_stat, dir, true, []⟩
        else s.entries
      ⟨entries, some dir⟩
  let entries := s1.entries.assign p.1 ⟨p.2, p.1, false, []⟩
  match s1.prev_dir_cache_entry with
  | none => none
  | some d =>
    match entries d with
    | none => none
    | some dir_entry =>
      some ⟨entries.assign d { dir_entry with direntries := dir_entry.direntries ++ [p.1] },
        s1.prev_dir_cache_entry⟩

/-- The loop `for (auto&p:contents)` of `loadDirectoryStructure`, over the pairs of the
contents map in the order the loop visits them. -/
def loadLoop (A : Absent) (dir_stat : FileStat) :
    List (Path × FileStat) → LoadState → Option LoadState
  | [], s => some s
  | p :: ps, s =>
    match loadStep A dir_stat s p with
    | some s' => loadLoop A dir_stat ps s'
    | none => none

/-- The function `CacheFS::loadDirectoryStructure`: `listing` is what
`rcloneListBeakFiles` (not among the sources) returns and the pairs it leaves in the
contents map, in the order the loop visits them; the result is the value returned and
the map `entries` after the call, `none` when the loop dereferences NULL. -/
def loadDirectoryStructure (A : Absent) (storage : Storage)
    (listing : RC × List (Path × FileStat)) (entries : PathMap CacheEntry) :
    Option (RC × PathMap CacheEntry) :=
  let dir_stat := FileStat.zero.setAsDirectory
  match storage.type with
  | StorageType.NoSuchStorage =>
    (loadLoop A dir_stat [] ⟨entries, none⟩).map (fun s => (RC.ERR, s.entries))
  | StorageType.FileSystemStorage =>
    (loadLoop A dir_stat [] ⟨entries, none⟩).map (fun s => (RC.ERR, s.entries))
  | StorageType.RSyncStorage =>
    if listing.1.isErr then some (RC.ERR, entries)
    else (loadLoop A dir_stat listing.2 ⟨entries, none⟩).map (fun s => (RC.ERR, s.entries))
  | StorageType.RCloneStorage =>
    if listing.1.isErr then some (RC.ERR, entries)
    else (loadLoop A dir_stat listing.2 ⟨entries, none⟩).map (fun s => (RC.ERR, s.entries))

/-- Modelled from the spec: the values of the flag `disk_update` of a `FileStat`
(absent util.h); the spec has "a derived flag `disk_update ∈ {Unchanged, Store}`". -/
inductive UpdateDisk where
  | Unchanged
  | Store
deriving DecidableEq, Repr

/-- Modelled from the spec: `FileStat::isRegularFile` of the absent util.h: the mode bits
say regular file. -/
def FileStat.isRegularFile (fs : FileStat) : Bool := S_ISREG fs.st_mode

/-- The function `add_backup_work`, on the statistics.  `checkStat` gives the value of
`stat->disk_update` after the call `stat->checkStat(to_fs, file_to_extract)` (absent
util.cc); `storage` is `settings->to.storage`.  `none` when the assertion that the file
has no recorded size yet fails. -/
def add_backup_work (A : Absent) (checkStat : FileStat → Path → UpdateDisk) (stats : Stats)
    (path : Path) (stat : FileStat) (storage : Storage) : Option Stats :=
  let file_to_extract := A.prepend path storage.storage_location
  if stat.isRegularFile then
    if stats.file_sizes.count file_to_extract ≠ 0 then none
    else
      let stats :=
        { stats with
          file_sizes := stats.file_sizes.assign file_to_extract (toSizeT stat.st_size) }
      let disk_update := checkStat stat file_to_extract
      let stats :=
        if disk_update = UpdateDisk.Store then
          let stats :=
            { stats with num_files_to_store := (stats.num_files_to_store + 1) % 2 ^ 64 }
          { stats with
            size_files_to_store :=
              (stats.size_files_to_store + toSizeT stat.st_size) % 2 ^ 64 }
        else stats
      let stats := { stats with num_files := (stats.num_files + 1) % 2 ^ 64 }
      let stats :=
        { stats with size_files := (stats.size_files + toSizeT stat.st_size) % 2 ^ 64 }
      some stats
  else if stat.isDirectory then
    some { stats with num_dirs := (stats.num_dirs + 1) % 2 ^ 64 }
  else some stats

/-- The comparisons `samePermissions`, `sameSize` and `sameMTime` of `FileStat` (absent
util.cc), taken as parameters. -/
structure StatCompare where
  samePermissions : FileStat → FileStat → Bool
  sameSize : FileStat → FileStat → Bool
  sameMTime : FileStat → FileStat → Bool

/-- The calls `store_local_backup_file` makes on the storage file system that change
it. -/
inductive FsOp where
  | mkDirpWriteable (dir : Option Path)
  | deleteFile (file : Path)
  | createFile (file : Path)
  | utime (file : Path)
deriving DecidableEq, Repr

/-- The function `store_local_backup_file`: the calls it makes on the storage file
system, in order, and the statistics after it.  `tar_found` tells whether
`backup->findTarFromPath(path)` is non-NULL, `storage_stat` is what
`storage_fs->stat(file_name, &old_stat)` returns and stores, `written` the byte counts
that `tar->createFile` reports to its callback.  `none` when the assertion on `tar`
fails. -/
def store_local_backup_file (A : Absent) (C : StatCompare) (tar_found : Bool)
    (storage_stat : RC × FileStat) (written : List Nat) (storage : Storage) (stats : Stats)
    (path : Path) (stat : FileStat) : Option (List FsOp × Stats) :=
  if !stat.isRegularFile then some ([], stats)
  else if !tar_found then none
  else
    let file_name := A.prepend path storage.storage_location
    let ops := [FsOp.mkDirpWriteable (A.parent file_name)]
    let rc := storage_stat.1
    let old_stat := storage_stat.2
    if rc.isOk && C.samePermissions stat old_stat && C.sameSize stat old_stat &&
        C.sameMTime stat old_stat then
      some (ops, stats)
    else
      let ops := if rc.isOk then ops ++ [FsOp.deleteFile file_name] else ops
      let stats :=
        written.foldl
          (fun st n => { st with size_files_stored := (st.size_files_stored + n) % 2 ^ 64 })
          stats
      let ops := ops ++ [FsOp.createFile file_name]
      let ops := ops ++ [FsOp.utime file_name]
      let stats := { stats with num_files_stored := (stats.num_files_stored + 1) % 2 ^ 64 }
      some (ops, stats)

/-! ## Definitions that follow the words of the specification -/

/-- The budget of the spec for one field: `2 + len / 512` blocks when the field is
longer than 100 bytes, none otherwise. -/
def extraBlocks (len : Nat) : Nat := if len > 100 then 2 + len / 512 else 0

/-- The budget of the spec for an optional link. -/
def extraLinkBlocks (link : Option Path) : Nat :=
  match link with
  | some l => extraBlocks l.length
  | none => 0

/-- The checksum as the spec words it: "treat the checksum field as spaces, sum all 512
bytes as unsigned bytes". -/
def specChecksum (c : TarHeaderContents) : Nat :=
  (({ c with checksum_ := List.replicate 8 (ch ' ') }).buf.map Fin.val).sum

/-- The quotient `a / b` rounded up. -/
def ceilDiv (a b : Nat) : Nat := (a + b - 1) / b

/-- Modelled from the spec: the splitting policy of the forward packer, which is not
among the sources: "`num_parts = ⌈size/T⌉`; `part_size = T`;
`last_part_size = size − (num_parts−1)·T`".  The other members are those of `base`. -/
def splitEntry (base : IndexEntry) (size T : Nat) : IndexEntry :=
  { base with
    num_parts := ceilDiv size T
    part_size := T
    last_part_size := size - (ceilDiv size T - 1) * T }

/-- The sum of `contentSize(i)` over the parts `i = 0 .. num_parts - 1`. -/
def totalContentSize (e : IndexEntry) : Nat :=
  ((List.range e.num_parts).map e.contentSize).sum

/-- An index segment: the `z…gz` file, of type `REG_FILE`; every other segment is a
payload segment. -/
def isIndexSegment (tfn : TarFileName) : Bool := tfn.type == TarContents.REG_FILE

/-- The size a line of the listing gives, as `listBeakFiles` reads it:
`(size_t)atol(size)`. -/
def listedSize (size : List Byte) : Nat := toSizeT (atol size)

/-- The size check as the spec words it: "for a payload segment the recorded size, for
an index segment zero". -/
def specSizeCheck (tfn : TarFileName) (listed : Nat) : Bool :=
  if isIndexSegment tfn then tfn.size == 0 else tfn.size == listed

/-- The segment name of a line that is good: it decodes and passes the size check. -/
def goodFile (A : Absent) (l : List Byte × List Byte) : Option TarFileName :=
  (A.parseFileName l.2).filter (fun t => specSizeCheck t (listedSize l.1))

/-- The segment name of a line that is bad: it decodes and fails the size check. -/
def badFile (A : Absent) (l : List Byte × List Byte) : Option TarFileName :=
  (A.parseFileName l.2).filter (fun t => !specSizeCheck t (listedSize l.1))

/-- The stat `listBeakFiles` records for a good line. -/
def listedStat (tfn : TarFileName) (size : List Byte) : FileStat :=
  { st_mode := 0, st_size := atol size, st_mtim := ⟨tfn.secs, tfn.nsecs⟩ }

/-- The key of the contents entry of a segment: its path under the storage location. -/
def contentsKey (A : Absent) (storage : Storage) (tfn : TarFileName) : Path :=
  A.prepend tfn.path storage.storage_location

/-- What one line of the listing does to the contents map: a good line assigns the
stat of its file to its key, any other line does nothing. -/
def contentsStep (A : Absent) (storage : Storage) (c : PathMap FileStat)
    (l : List Byte × List Byte) : PathMap FileStat :=
  match goodFile A l with
  | some t => c.assign (contentsKey A storage t) (listedStat t l.1)
  | none => c

/-- The text of the include-from file: the path of each file followed by a newline, in
the order of the list. -/
def includeList : List TarFileName → List Byte
  | [] => []
  | t :: ts => t.path ++ cstr "\n" ++ includeList ts

/-- How many times the key `k` stands in a list of directory entries. -/
def occurrences (k : Path) (l : List Path) : Nat :=
  (l.filter (fun y => decide (y = k))).length

/-- A verbose line of rclone in the form of the spec,
`<timestamp> <level> : <path>: <status>`; `pre` is the timestamp and the level. -/
def rcloneLine (pre path status : List Byte) : List Byte :=
  pre ++ cstr " : " ++ path ++ cstr ": " ++ status

/-- No colon in the text stands right after a space. -/
def noSpaceColon : List Byte → Bool
  | a :: b :: r => !(a == ch ' ' && b == ch ':') && noSpaceColon (b :: r)
  | _ => true

/-- No space in the text stands right after a colon. -/
def noColonSpace : List Byte → Bool
  | a :: b :: r => !(a == ch ':' && b == ch ' ') && noColonSpace (b :: r)
  | _ => true

/-- The property P3 of the spec: the checksum member holds the seven octal digits, and a
NUL, of the sum of the bytes of the header with the checksum member counted as
spaces. -/
def P3 (c : TarHeaderContents) : Prop :=
  c.checksum_ = octDigits 7 (specChecksum c) ++ [0]

/-- Whether the text `pat` stands somewhere in `buf`. -/
def hasInfix (pat buf : List Byte) : Bool :=
  buf.tails.any (fun t => pat.isPrefixOf t)

/-- Whether the call `storage_fs->stat` succeeded and the three comparisons with the
old stat hold. -/
def alreadyStored (C : StatCompare) (storage_stat : RC × FileStat) (stat : FileStat) : Bool :=
  storage_stat.1.isOk && C.samePermissions stat storage_stat.2 &&
    C.sameSize stat storage_stat.2 && C.sameMTime stat storage_stat.2

/-- The sum of the byte counts that `createFile` reports. -/
def totalWritten (written : List Nat) : Nat := written.sum

/-- Every member of the header block has its declared size. -/
def WellSized (c : TarHeaderContents) : Prop :=
  c.name_.length = 100 ∧ c.mode_.length = 8 ∧ c.uid_.length = 8 ∧ c.gid_.length = 8 ∧
  c.size_.length = 12 ∧ c.mtime_.length = 12 ∧ c.checksum_.length = 8 ∧
  c.linkname_.length = 100 ∧ c.magic_.length = 6 ∧ c.version_.length = 2 ∧
  c.uname_.length = 32 ∧ c.gname_.length = 32 ∧ c.devmajor_.length = 8 ∧
  c.devminor_.length = 8 ∧ c.prefix_.length = 155 ∧ c.padding_.length = 12

/-- A stat of a regular file, mode 0644, two bytes long, modified at 1000.5 s. -/
def exampleStat : Stat where
  st_dev := 0
  st_ino := 0
  st_nlink := 1
  st_mode := 0o100644
  st_uid := 1000
  st_gid := 1000
  st_rdev := 0
  st_size := 2
  st_blksize := 4096
  st_blocks := 8
  st_atim := ⟨0, 0⟩
  st_mtim := ⟨1000, 500000000⟩
  st_ctim := ⟨0, 0⟩

/-! ## Auxiliary definitions for the proofs -/

/-- Statistics with nothing stored yet and one known file, `/r/s.tar` of 2048 bytes. -/
def exampleStats : Stats :=
  ⟨1, 2048, 0, 1, 2048, 0, 0, PathMap.empty.assign (cstr "/r/s.tar") 2048⟩

/-- Statistics with nothing stored yet and two known files, `/r/s.tar` of 2048 bytes and
`/r/t.tar` of 4096 bytes. -/
def twoFileStats : Stats :=
  ⟨2, 6144, 0, 2, 6144, 0, 0,
    (PathMap.empty.assign (cstr "/r/s.tar") 2048).assign (cstr "/r/t.tar") 4096⟩

/-- A stat that differs from `exampleStat` in the device, inode, link count, owner,
group, block counts, the access and change times and the nanoseconds of the mtime. -/
def otherStat : Stat where
  st_dev := 7
  st_ino := 99
  st_nlink := 3
  st_mode := 0o100644
  st_uid := 0
  st_gid := 5
  st_rdev := 1
  st_size := 2
  st_blksize := 512
  st_blocks := 1
  st_atim := ⟨17, 3⟩
  st_mtim := ⟨1000, 1⟩
  st_ctim := ⟨19, 4⟩

/-- Comparisons of two stats by permission bits, size and mtime. -/
def exampleCompare : StatCompare where
  samePermissions := fun a b => a.st_mode &&& 0o7777 == b.st_mode &&& 0o7777
  sameSize := fun a b => a.st_size == b.st_size
  sameMTime := fun a b => a.st_mtim == b.st_mtim

/-- The stat of a regular file of 2048 bytes, mode 0444. -/
def exampleFileStat : FileStat := ⟨0o100444, 2048, ⟨2000, 7⟩⟩

/-- The keys of the pairs of `contents` whose parent is `d`, in the order of the list. -/
def childrenOf (A : Absent) (contents : List (Path × FileStat)) (d : Path) : List Path :=
  (contents.filter (fun x => decide (A.parent x.1 = some d))).map Prod.fst

/-- The two-level tree of a contents map: a file entry for every key, a directory entry
with its children for every parent of a key. -/
def treeOf (A : Absent) (dir_stat : FileStat) (contents : List (Path × FileStat)) :
    PathMap CacheEntry := fun k =>
  match contents.find? (fun x => decide (x.1 = k)) with
  | some x => some ⟨x.2, k, false, []⟩
  | none =>
    if childrenOf A contents k ≠ [] then some ⟨dir_stat, k, true, childrenOf A contents k⟩
    else none

/-- A stand-in for the absent helpers: the name `z` decodes to an index segment with
size 0 in its name, the name `s` to a payload segment with size 2048 in its name, no
other name decodes; `prepend` joins with a `/`, `parent` strips the last component. -/
def exampleAbsent : Absent where
  parseFileName := fun n =>
    if n = cstr "z" then some ⟨TarContents.REG_FILE, 1000, 5, 0, cstr "z"⟩
    else if n = cstr "s" then some ⟨TarContents.SMALL_FILES_TAR, 2000, 7, 2048, cstr "s"⟩
    else none
  prepend := fun p root => root ++ cstr "/" ++ p
  parent := fun p =>
    match (p.reverse.dropWhile (fun b => b ≠ ch '/')) with
    | [] => none
    | _ :: r => some r.reverse
  lookup := fun n => n

/-- An rclone storage at `/r`. -/
def exampleStorage : Storage := ⟨StorageType.RCloneStorage, cstr "/r"⟩

/-- A listing of four lines: a good index segment, a good payload segment, a payload
segment with the wrong size, and a file that is no segment. -/
def exampleListing : Listing :=
  ⟨[(cstr "12288", cstr "z"), (cstr "2048", cstr "s"), (cstr "5", cstr "s"),
    (cstr "7", cstr "other")], false⟩

/-- Four empty containers. -/
def emptyResult : ListResult := ⟨[], [], [], PathMap.empty⟩

/-- A `Beak` object all of whose methods fail. -/
def failingBeak : Beak := ⟨RC.ERR, RC.ERR, RC.ERR, RC.ERR, RC.ERR, RC.ERR, RC.ERR, RC.ERR,
  RC.ERR, RC.ERR⟩

/-- The header block as the constructor has filled it in when it calls
`calculateChecksum`, given the type flag `t` that `getTypeFlagFrom` returned. -/
def filledContents (sb : Stat) (tarpath : Path) (link : Option Path) (is_hard_link : Bool)
    (t : Byte) : TarHeaderContents where
  name_ := ((calculate_header_size_ sb tarpath (effectiveLink link is_hard_link)
    (some (List.replicate 100 0)) (some (List.replicate 100 0))).name_str).getD
      (List.replicate 100 0)
  mode_ := writeModeFlagFrom sb (List.replicate 8 0)
  uid_ := memcpy (List.replicate 8 0) (cstrz "0000000") 8
  gid_ := memcpy (List.replicate 8 0) (cstrz "0000000") 8
  size_ := snprintf (List.replicate 12 0) 12
    (fmtOctal 64 11 (if S_ISREG sb.st_mode then toSizeT sb.st_size else 0))
  mtime_ := snprintf (List.replicate 12 0) 12 (fmtOctal 64 11 (toSizeT sb.st_mtim.tv_sec))
  checksum_ := memset (List.replicate 8 0) (ch ' ') 8
  typeflag_ := t
  linkname_ := ((calculate_header_size_ sb tarpath (effectiveLink link is_hard_link)
    (some (List.replicate 100 0)) (some (List.replicate 100 0))).link_str).getD
      (List.replicate 100 0)
  magic_ := memcpy (List.replicate 6 0) (cstrz "ustar ") 6
  version_ := memcpy (List.replicate 2 0) (cstrz " ") 2
  uname_ := memcpy (List.replicate 32 0) (cstrz "beak") 5
  gname_ := memcpy (List.replicate 32 0) (cstrz "beak") 5
  devmajor_ := List.replicate 8 0
  devminor_ := List.replicate 8 0
  prefix_ := List.replicate 155 0
  padding_ := List.replicate 12 0

/-- A path is a C string: none of its bytes is NUL. -/
def NulFree (p : Path) : Prop := ∀ b ∈ p, b ≠ 0

/-- The file-type bits a type flag other than `'1'` stands for. -/
def typeOfFlag (t : Byte) : Nat :=
  if t = SYMTYPE then S_IFLNK
  else if t = REGTYPE then S_IFREG
  else if t = CHRTYPE then S_IFCHR
  else if t = BLKTYPE then S_IFBLK
  else if t = DIRTYPE then S_IFDIR
  else S_IFIFO

/-! ## Lemmas on the libc model -/

theorem poke_length (dst src : List Byte) (h : src.length ≤ dst.length) :
    (poke dst src).length = dst.length := by
  simp only [poke, List.length_append, List.length_drop]
  omega

theorem poke_full (dst src : List Byte) (h : dst.length = src.length) :
    poke dst src = src := by
  simp [poke, h]

theorem octDigits_length (w n : Nat) : (octDigits w n).length = w := by
  induction w generalizing n with
  | zero => rfl
  | succ w ih => simp [octDigits, ih]

theorem octVal_append_digit (ds : List Byte) (n : Nat) :
    octVal (ds ++ [octDigit n]) = 8 * octVal ds + n % 8 := by
  simp [octVal, octDigit]

theorem octVal_octDigits (w n : Nat) : octVal (octDigits w n) = n % 8 ^ w := by
  induction w generalizing n with
  | zero => simp [octDigits, octVal, Nat.mod_one]
  | succ w ih =>
    rw [octDigits, octVal_append_digit, ih, pow_succ, Nat.mul_comm (8 ^ w) 8, Nat.mod_mul,
      Nat.add_comm]

theorem octVal_octDigits_of_lt (w n : Nat) (h : n < 8 ^ w) : octVal (octDigits w n) = n := by
  rw [octVal_octDigits, Nat.mod_eq_of_lt h]

theorem octLen_pos (f n : Nat) : 1 ≤ octLen f n := by
  cases f with
  | zero => simp [octLen]
  | succ f => simp only [octLen]; split <;> omega

theorem octLen_le (f n k : Nat) (h : n < 8 ^ (k + 1)) : octLen f n ≤ k + 1 := by
  induction f generalizing n k with
  | zero => simp [octLen]
  | succ f ih =>
    simp only [octLen]
    split
    · omega
    · rename_i h8
      cases k with
      | zero => simp at h; omega
      | succ k =>
        have : n / 8 < 8 ^ (k + 1) := by
          rw [Nat.div_lt_iff_lt_mul (by decide)]
          rw [pow_succ] at h
          exact h
        have := ih (n / 8) k this
        omega

/-- A value below `8 ^ width` is printed by `%0<width>o` as exactly `width` digits. -/
theorem fmtOctal_of_lt (bits width v : Nat) (hw : 1 ≤ width) (hv : v < 8 ^ width)
    (hb : v < 2 ^ bits) : fmtOctal bits width v = octDigits width v := by
  obtain ⟨k, rfl⟩ : ∃ k, width = k + 1 := ⟨width - 1, by omega⟩
  simp only [fmtOctal, Nat.mod_eq_of_lt hb]
  rw [Nat.max_eq_left (octLen_le _ _ _ hv)]

theorem foldl_add_mod (l : List Byte) (a : Nat) :
    l.foldl (fun acc b => (acc + b.val) % 2 ^ 32) a % 2 ^ 32 =
      (a + (l.map Fin.val).sum) % 2 ^ 32 := by
  induction l generalizing a with
  | nil => simp
  | cons b l ih =>
    simp only [List.foldl_cons, List.map_cons, List.sum_cons]
    rw [ih, Nat.mod_add_mod, Nat.add_assoc]

theorem foldl_add_mod_eq (l : List Byte) :
    l.foldl (fun acc b => (acc + b.val) % 2 ^ 32) 0 = (l.map Fin.val).sum % 2 ^ 32 := by
  have h := foldl_add_mod l 0
  rw [Nat.zero_add] at h
  rw [← h]
  induction l using List.reverseRecOn with
  | nil => rfl
  | append_singleton l b _ => simp [List.foldl_append]

theorem sum_bytes_le (l : List Byte) : (l.map Fin.val).sum ≤ 255 * l.length := by
  induction l with
  | nil => simp
  | cons b l ih =>
    simp only [List.map_cons, List.sum_cons, List.length_cons]
    have := b.isLt
    omega

theorem snprintf_exact (dst s : List Byte) (size : Nat) (hs : s.length + 1 = size)
    (hd : dst.length = size) : snprintf dst size s = s ++ [0] := by
  unfold snprintf
  rw [List.take_of_length_le (by omega), poke_full]
  simp only [List.length_append, List.length_singleton]
  omega

theorem snprintf_length (dst s : List Byte) (size : Nat) (hs : 1 ≤ size)
    (hd : size ≤ dst.length) : (snprintf dst size s).length = dst.length := by
  unfold snprintf
  apply poke_length
  simp only [List.length_append, List.length_take, List.length_singleton]
  omega

theorem memset_full (dst : List Byte) (c : Byte) (n : Nat) (h : dst.length = n) :
    memset dst c n = List.replicate n c := by
  unfold memset
  rw [poke_full]
  simpa using h

theorem memcpy_length (dst src : List Byte) (n : Nat) (h : n ≤ dst.length) :
    (memcpy dst src n).length = dst.length := by
  unfold memcpy
  apply poke_length
  simp only [List.length_take]
  omega

theorem strncpy_length (dst src : List Byte) (n : Nat) (h : n ≤ dst.length) :
    (strncpy dst src n).length = dst.length := by
  unfold strncpy
  apply poke_length
  simp only [List.length_append, List.length_take, List.length_replicate]
  omega

/-! ## Lemmas on the checksum -/

theorem buf_length (c : TarHeaderContents) (hw : WellSized c) : c.buf.length = 512 := by
  obtain ⟨h1, h2, h3, h4, h5, h6, h7, h8, h9, h10, h11, h12, h13, h14, h15, h16⟩ := hw
  simp only [TarHeaderContents.buf, List.length_append, List.length_singleton, h1, h2, h3,
    h4, h5, h6, h7, h8, h9, h10, h11, h12, h13, h14, h15, h16]

theorem specChecksum_lt (c : TarHeaderContents) (hw : WellSized c) :
    specChecksum c < 8 ^ 7 := by
  have hw2 : WellSized { c with checksum_ := List.replicate 8 (ch ' ') } := by
    obtain ⟨h1, h2, h3, h4, h5, h6, _, h8⟩ := hw
    exact ⟨h1, h2, h3, h4, h5, h6, by simp, h8⟩
  have h := sum_bytes_le ({ c with checksum_ := List.replicate 8 (ch ' ') }).buf
  rw [buf_length _ hw2] at h
  unfold specChecksum
  norm_num
  omega

theorem calculateChecksum_field (c : TarHeaderContents) :
    (calculateChecksum c).checksum_ = snprintf (memset c.checksum_ 32 8) 8
      (fmtOctal 32 7 (List.foldl (fun (acc : Nat) (b : Byte) => (acc + b.val) % 2 ^ 32) 0
        (TarHeaderContents.buf { c with checksum_ := memset c.checksum_ 32 8 }))) := by
  simp only [calculateChecksum]

theorem specChecksum_calculateChecksum (c : TarHeaderContents) :
    specChecksum (calculateChecksum c) = specChecksum c := by
  simp only [specChecksum, calculateChecksum]

/-- After `calculateChecksum` the checksum member is the seven octal digits of the
sum the spec describes, and a NUL. -/
theorem calculateChecksum_spec (c : TarHeaderContents) (hw : WellSized c) :
    (calculateChecksum c).checksum_
        = octDigits 7 (specChecksum (calculateChecksum c)) ++ [0] ∧
      WellSized (calculateChecksum c) := by
  have h7 : c.checksum_.length = 8 := hw.2.2.2.2.2.2.1
  have hsp : (32 : Byte) = ch ' ' := by decide
  have hms : memset c.checksum_ 32 8 = List.replicate 8 (ch ' ') := by
    rw [memset_full _ _ _ h7, hsp]
  have hlt := specChecksum_lt c hw
  have hlt2 : specChecksum c < 2 ^ 32 := by
    norm_num at hlt ⊢
    omega
  have hfold : List.foldl (fun (acc : Nat) (b : Byte) => (acc + b.val) % 2 ^ 32) 0
      (TarHeaderContents.buf { c with checksum_ := memset c.checksum_ 32 8 })
        = specChecksum c := by
    rw [foldl_add_mod_eq, hms]
    exact Nat.mod_eq_of_lt hlt2
  have hck : (calculateChecksum c).checksum_ = octDigits 7 (specChecksum c) ++ [0] := by
    rw [calculateChecksum_field, hfold, fmtOctal_of_lt _ _ _ (by decide) hlt hlt2,
      snprintf_exact]
    · simp [octDigits_length]
    · rw [hms]; simp
  refine ⟨by rw [hck, specChecksum_calculateChecksum], ?_⟩
  have hfr : ∀ x : TarHeaderContents, WellSized x → ∀ y : List Byte, y.length = 8 →
      WellSized { x with checksum_ := y } := by
    intro x hx y hy
    obtain ⟨h1, h2, h3, h4, h5, h6, _, h8⟩ := hx
    exact ⟨h1, h2, h3, h4, h5, h6, hy, h8⟩
  have hcc : calculateChecksum c
      = { c with checksum_ := octDigits 7 (specChecksum c) ++ [0] } := by
    rw [← hck]
    simp only [calculateChecksum]
  rw [hcc]
  exact hfr c hw _ (by simp [octDigits_length])

/-! ## The constructor, member by member -/

theorem new_eq (sb : Stat) (tarpath : Path) (link : Option Path) (is_hard_link : Bool) :
    TarHeader.new sb tarpath link is_hard_link =
      (getTypeFlagFrom sb is_hard_link).map (fun t =>
        { content := calculateChecksum (filledContents sb tarpath link is_hard_link t),
          num_long_path_blocks_ := (calculate_header_size_ sb tarpath
            (effectiveLink link is_hard_link) (some (List.replicate 100 0))
            (some (List.replicate 100 0))).num_long_path_blocks,
          num_long_link_blocks_ := (calculate_header_size_ sb tarpath
            (effectiveLink link is_hard_link) (some (List.replicate 100 0))
            (some (List.replicate 100 0))).num_long_link_blocks,
          num_header_blocks_ := (calculate_header_size_ sb tarpath
            (effectiveLink link is_hard_link) (some (List.replicate 100 0))
            (some (List.replicate 100 0))).num_header_blocks }) := by
  simp only [TarHeader.new, filledContents, TarHeaderContents.zero]
  cases getTypeFlagFrom sb is_hard_link <;> simp only [Option.map_none', Option.map_some']

/-! ## Lemmas on `calculate_header_size_` -/

theorem chs_num_long_path_blocks (sb : Stat) (p : Path) (l : Option Path)
    (ns ls : Option (List Byte)) :
    (calculate_header_size_ sb p l ns ls).num_long_path_blocks = extraBlocks p.length := by
  unfold calculate_header_size_ store_path_ extraBlocks Path.c_str_len T_NAMELEN T_BLOCKSIZE
  cases l <;> by_cases hp : p.length ≤ 100 <;> simp [hp] <;> split_ifs <;> omega

theorem chs_num_long_link_blocks (sb : Stat) (p : Path) (l : Option Path)
    (ns ls : Option (List Byte)) :
    (calculate_header_size_ sb p l ns ls).num_long_link_blocks = extraLinkBlocks l := by
  unfold calculate_header_size_ store_path_ extraLinkBlocks extraBlocks Path.c_str_len
    T_LINKLEN T_BLOCKSIZE
  cases l with
  | none => simp
  | some l => by_cases hl : l.length ≤ 100 <;> simp [hl] <;> split_ifs <;> omega

theorem chs_num_header_blocks (sb : Stat) (p : Path) (l : Option Path)
    (ns ls : Option (List Byte)) :
    (calculate_header_size_ sb p l ns ls).num_header_blocks
      = 1 + extraBlocks p.length + extraLinkBlocks l := by
  unfold calculate_header_size_ store_path_ extraLinkBlocks extraBlocks Path.c_str_len
    T_NAMELEN T_LINKLEN T_BLOCKSIZE
  cases l with
  | none =>
    simp only [extraBlocks]
    by_cases hp : p.length ≤ 100
    · simp [hp, Nat.not_lt.mpr hp]
    · simp [hp, Nat.lt_of_not_le hp]
  | some l =>
    by_cases hp : p.length ≤ 100 <;> by_cases hl : l.length ≤ 100 <;> simp [hp, hl] <;> split_ifs <;> omega

theorem chs_size (sb : Stat) (p : Path) (l : Option Path) (ns ls : Option (List Byte)) :
    (calculate_header_size_ sb p l ns ls).size
      = (calculate_header_size_ sb p l ns ls).num_header_blocks * 512 := by
  unfold calculate_header_size_ T_BLOCKSIZE
  cases l <;> rfl

theorem calculateSize_eq (sb : Stat) (p : Path) (l : Option Path) (hl : Bool) :
    calculateSize sb p l hl
      = 512 * (1 + extraBlocks p.length + extraLinkBlocks (effectiveLink l hl)) := by
  unfold calculateSize
  rw [chs_size, chs_num_header_blocks, Nat.mul_comm]

theorem effectiveLink_false (l : Option Path) : effectiveLink l false = l := by
  cases l <;> rfl

theorem chs_name_str (sb : Stat) (p : Path) (l : Option Path) (ns ls : Option (List Byte)) :
    (calculate_header_size_ sb p l ns ls).name_str
      = if p.length ≤ 100 then ns.map (fun dst => strncpy dst p 100) else ns := by
  unfold calculate_header_size_ store_path_ Path.c_str_len Path.c_str T_NAMELEN
  cases l <;> by_cases hp : p.length ≤ 100 <;> simp [hp]

theorem chs_link_str (sb : Stat) (p : Path) (l : Option Path) (ns ls : Option (List Byte)) :
    (calculate_header_size_ sb p l ns ls).link_str
      = match l with
        | some l => if l.length ≤ 100 then ls.map (fun dst => strncpy dst l 100) else ls
        | none => ls := by
  unfold calculate_header_size_ store_path_ Path.c_str_len Path.c_str T_LINKLEN
  cases l with
  | none => simp
  | some l => by_cases hl : l.length ≤ 100 <;> simp [hl]

theorem filledContents_name (sb : Stat) (p : Path) (l : Option Path) (hl : Bool) (t : Byte) :
    (filledContents sb p l hl t).name_
      = if p.length ≤ 100 then strncpy (List.replicate 100 0) p 100
        else List.replicate 100 0 := by
  simp only [filledContents, chs_name_str]
  split <;> simp

theorem filledContents_linkname (sb : Stat) (p : Path) (l : Option Path) (hl : Bool)
    (t : Byte) :
    (filledContents sb p l hl t).linkname_
      = match effectiveLink l hl with
        | some l => if l.length ≤ 100 then strncpy (List.replicate 100 0) l 100
                    else List.replicate 100 0
        | none => List.replicate 100 0 := by
  simp only [filledContents, chs_link_str]
  cases effectiveLink l hl with
  | none => simp
  | some l => simp only []; split <;> simp

theorem filledContents_wellSized (sb : Stat) (p : Path) (l : Option Path) (hl : Bool)
    (t : Byte) : WellSized (filledContents sb p l hl t) := by
  refine ⟨?_, ?_, ?_, ?_, ?_, ?_, ?_, ?_, ?_, ?_, ?_, ?_, ?_, ?_, ?_, ?_⟩
  · rw [filledContents_name]
    split
    · rw [strncpy_length] <;> simp
    · simp
  · simp only [filledContents, writeModeFlagFrom]
    rw [snprintf_length] <;> simp
  · simp only [filledContents]
    rw [memcpy_length] <;> simp
  · simp only [filledContents]
    rw [memcpy_length] <;> simp
  · simp only [filledContents]
    rw [snprintf_length] <;> simp
  · simp only [filledContents]
    rw [snprintf_length] <;> simp
  · simp only [filledContents]
    rw [memset_full] <;> simp
  · rw [filledContents_linkname]
    cases effectiveLink l hl with
    | none => simp
    | some l =>
      simp only []
      split
      · rw [strncpy_length] <;> simp
      · simp
  · simp only [filledContents]
    rw [memcpy_length] <;> simp
  · simp only [filledContents]
    rw [memcpy_length] <;> simp
  · simp only [filledContents]
    rw [memcpy_length] <;> simp
  · simp only [filledContents]
    rw [memcpy_length] <;> simp
  · simp [filledContents]
  · simp [filledContents]
  · simp [filledContents]
  · simp [filledContents]

/-! ## The checksum of a constructed header -/

/-- C1: every header the constructor `TarHeader(stat, path, link, is_hard_link)` builds
is 512 bytes long, and its checksum member holds seven zero-padded octal digits followed
by NUL; the digits denote the sum of the 512 header bytes, taken as unsigned bytes, with
the 8 checksum bytes counted as spaces. -/
theorem checksum_of_constructed_header (sb : Stat) (tarpath : Path) (link : Option Path)
    (is_hard_link : Bool) (h : TarHeader)
    (hnew : TarHeader.new sb tarpath link is_hard_link = some h) :
    h.content.buf.length = 512 ∧
      h.content.checksum_ = octDigits 7 (specChecksum h.content) ++ [0] ∧
      octVal (octDigits 7 (specChecksum h.content)) = specChecksum h.content := by
  rw [new_eq] at hnew
  cases ht : getTypeFlagFrom sb is_hard_link with
  | none => rw [ht] at hnew; simp at hnew
  | some t =>
    rw [ht] at hnew
    simp only [Option.map_some', Option.some.injEq] at hnew
    subst hnew
    have hw := filledContents_wellSized sb tarpath link is_hard_link t
    obtain ⟨hck, hw2⟩ := calculateChecksum_spec _ hw
    exact ⟨buf_length _ hw2, hck, octVal_octDigits_of_lt _ _ (specChecksum_lt _ hw2)⟩

set_option maxRecDepth 100000 in
/-- Witness for C1: the header of a regular file `hello.txt`; its checksum is 011224. -/
theorem checksum_of_constructed_header_witness :
    ∃ h, TarHeader.new exampleStat (cstr "hello.txt") none false = some h ∧
      h.content.checksum_ = cstrz "0011224" ∧
      h.content.checksum_ = octDigits 7 (specChecksum h.content) ++ [0] ∧
      specChecksum h.content = 0o11224 :=
  match hq : TarHeader.new exampleStat (cstr "hello.txt") none false with
  | some h =>
    have hc := checksum_of_constructed_header exampleStat (cstr "hello.txt") none false h hq
    have hv : h.content.checksum_ = cstrz "0011224" := by
      have : (TarHeader.new exampleStat (cstr "hello.txt") none false).map
          (fun x => x.content.checksum_) = some (cstrz "0011224") := by decide
      rw [hq] at this
      simpa using this
    have hs : specChecksum h.content = 0o11224 := by
      have : (TarHeader.new exampleStat (cstr "hello.txt") none false).map
          (fun x => specChecksum x.content) = some 0o11224 := by decide
      rw [hq] at this
      simpa using this
    ⟨h, rfl, hv, hc.2.1, hs⟩
  | none => absurd hq (by decide)

/-! ## The size budget -/

/-- C2: for a stat, a path and an optional link that is not a hard link,
`calculateSize` returns `512 * (1 + P + L)` with `P = 2 + len(path) / 512` when the path
is longer than 100 bytes and 0 otherwise, and `L` likewise for a given link; the result
is 512 exactly when the path is at most 100 bytes and the link is absent or at most
100 bytes. -/
theorem calculateSize_formula (sb : Stat) (tarpath : Path) (link : Option Path) :
    calculateSize sb tarpath link false
        = 512 * (1 + extraBlocks tarpath.length + extraLinkBlocks link) ∧
      (calculateSize sb tarpath link false = 512 ↔
        tarpath.length ≤ 100 ∧ ∀ l, link = some l → l.length ≤ 100) := by
  rw [calculateSize_eq, effectiveLink_false]
  refine ⟨rfl, ?_⟩
  cases link with
  | none =>
    simp only [extraLinkBlocks, extraBlocks]
    split_ifs <;> simp <;> omega
  | some l =>
    simp only [extraLinkBlocks, extraBlocks, Option.some.injEq, forall_eq']
    split_ifs <;> omega

/-- C3: `calculateSize` equals 512 times the `num_header_blocks_` of the header the
constructor builds from the same arguments, and that count is
`1 + num_long_path_blocks_ + num_long_link_blocks_`. -/
theorem calculateSize_agrees_with_constructor (sb : Stat) (tarpath : Path)
    (link : Option Path) (is_hard_link : Bool) (h : TarHeader)
    (hnew : TarHeader.new sb tarpath link is_hard_link = some h) :
    calculateSize sb tarpath link is_hard_link = 512 * h.num_header_blocks_ ∧
      h.num_header_blocks_ = 1 + h.num_long_path_blocks_ + h.num_long_link_blocks_ := by
  rw [new_eq] at hnew
  cases ht : getTypeFlagFrom sb is_hard_link with
  | none => rw [ht] at hnew; simp at hnew
  | some t =>
    rw [ht] at hnew
    simp only [Option.map_some', Option.some.injEq] at hnew
    subst hnew
    simp only [chs_num_header_blocks, chs_num_long_path_blocks, chs_num_long_link_blocks,
      calculateSize_eq, and_self]

set_option maxRecDepth 100000 in
/-- Witness for C3: a 150 byte path with a rooted hard-link target. -/
theorem calculateSize_agrees_with_constructor_witness :
    ∃ h, TarHeader.new exampleStat (List.replicate 150 (ch 'a')) (some (cstr "/b")) true
        = some h ∧
      calculateSize exampleStat (List.replicate 150 (ch 'a')) (some (cstr "/b")) true
        = 512 * h.num_header_blocks_ ∧
      h.num_header_blocks_ = 1 + h.num_long_path_blocks_ + h.num_long_link_blocks_ ∧
      h.num_header_blocks_ = 3 :=
  match hq : TarHeader.new exampleStat (List.replicate 150 (ch 'a')) (some (cstr "/b")) true
  with
  | some h =>
    have hc := calculateSize_agrees_with_constructor exampleStat (List.replicate 150 (ch 'a'))
      (some (cstr "/b")) true h hq
    have hs : h.num_header_blocks_ = 3 := by
      have : (TarHeader.new exampleStat (List.replicate 150 (ch 'a')) (some (cstr "/b"))
          true).map (fun x => x.num_header_blocks_) = some 3 := by decide
      rw [hq] at this
      simpa using this
    ⟨h, rfl, hc.1, hc.2, hs⟩
  | none => absurd hq (by decide)

/-- C4 as stated fails: a path of 512 bytes gets 2048 bytes (one GNU-long header block,
two payload blocks and the real header), not 512 * (1 + ceil(512 / 512) + 1) = 1536. -/
theorem long_path_budget_counterexample :
    (List.replicate 512 (ch 'a')).length > 100 ∧
      calculateSize exampleStat (List.replicate 512 (ch 'a')) none false = 2048 ∧
      512 * (1 + ceilDiv (List.replicate 512 (ch 'a')).length 512 + 1) = 1536 := by
  refine ⟨by rw [List.length_replicate]; decide, ?_,
    by rw [List.length_replicate]; decide⟩
  rw [calculateSize_eq, List.length_replicate]
  decide

/-- C4, amended: for a field `long` of more than 100 bytes, as the path with no link or
a link of at most 100 bytes, or as the link of a path of at most 100 bytes, the budget is
one GNU-long header block, `ceil((len + 1) / 512) = 1 + len / 512` payload blocks and the
real header block.  That count of payload blocks is `ceil(len / 512)` when `len` is not
a multiple of 512 and one more when it is. -/
theorem long_field_budget (sb : Stat) (long short : Path) (hlong : long.length > 100)
    (hshort : short.length ≤ 100) :
    calculateSize sb long none false = 512 * (1 + ceilDiv (long.length + 1) 512 + 1) ∧
      calculateSize sb long (some short) false
        = 512 * (1 + ceilDiv (long.length + 1) 512 + 1) ∧
      calculateSize sb short (some long) false
        = 512 * (1 + ceilDiv (long.length + 1) 512 + 1) ∧
      ceilDiv (long.length + 1) 512 = 1 + long.length / 512 ∧
      (long.length % 512 ≠ 0 → ceilDiv (long.length + 1) 512 = ceilDiv long.length 512) ∧
      (long.length % 512 = 0 →
        ceilDiv (long.length + 1) 512 = ceilDiv long.length 512 + 1) := by
  have hc : ceilDiv (long.length + 1) 512 = 1 + long.length / 512 := by
    unfold ceilDiv
    omega
  have hs : extraBlocks short.length = 0 := by
    unfold extraBlocks
    rw [if_neg (by omega)]
  have hl : extraBlocks long.length = 2 + long.length / 512 := by
    unfold extraBlocks
    rw [if_pos hlong]
  refine ⟨?_, ?_, ?_, hc, ?_, ?_⟩
  · rw [calculateSize_eq, effectiveLink_false, hc]
    simp only [extraLinkBlocks, hl]
    omega
  · rw [calculateSize_eq, effectiveLink_false, hc]
    simp only [extraLinkBlocks, hl, hs]
    omega
  · rw [calculateSize_eq, effectiveLink_false, hc]
    simp only [extraLinkBlocks, hl, hs]
    omega
  · intro hm
    unfold ceilDiv
    omega
  · intro hm
    unfold ceilDiv
    omega

/-- Witness for the amended C4: a field of 600 bytes takes four blocks. -/
theorem long_field_budget_witness :
    calculateSize exampleStat (List.replicate 600 (ch 'a')) none false
        = 512 * (1 + ceilDiv ((List.replicate 600 (ch 'a')).length + 1) 512 + 1) ∧
      calculateSize exampleStat (cstr "a") (some (List.replicate 600 (ch 'a'))) false
        = 512 * (1 + ceilDiv ((List.replicate 600 (ch 'a')).length + 1) 512 + 1) :=
  have h := long_field_budget exampleStat (List.replicate 600 (ch 'a')) (cstr "a")
    (by rw [List.length_replicate]; decide) (by decide)
  ⟨h.1, h.2.2.1⟩

/-! ## The type flag and the mode, size and mtime members -/

theorem and_two_pow_cases (m i : Nat) : m &&& 2 ^ i = 0 ∨ m &&& 2 ^ i = 2 ^ i := by
  cases hb : m.testBit i with
  | false =>
    left
    apply Nat.eq_of_testBit_eq
    intro j
    simp only [Nat.testBit_and, Nat.testBit_two_pow, Nat.zero_testBit]
    by_cases hij : i = j
    · subst hij; simp [hb]
    · simp [hij]
  | true =>
    right
    apply Nat.eq_of_testBit_eq
    intro j
    simp only [Nat.testBit_and, Nat.testBit_two_pow]
    by_cases hij : i = j
    · subst hij; simp [hb]
    · simp [hij]

theorem ite_bit (m b k i : Nat) (hk : k = 2 ^ i) :
    (if m &&& k ≠ 0 then b ||| k else b) = b ||| (m &&& k) := by
  subst hk
  rcases and_two_pow_cases m i with h | h
  · simp [h]
  · rw [h]
    have : (2:Nat) ^ i ≠ 0 := by positivity
    simp [this]

theorem modeBits_eq (m : Nat) : modeBits m = m &&& 0o7777 := by
  unfold modeBits S_ISUID S_ISGID S_ISVTX S_IRUSR S_IWUSR S_IXUSR S_IRGRP S_IWGRP S_IXGRP
    S_IROTH S_IWOTH S_IXOTH TSUID TSGID TSVTX TUREAD TUWRITE TUEXEC TGREAD TGWRITE TGEXEC
    TOREAD TOWRITE TOEXEC
  simp only []
  rw [ite_bit m _ _ 0 (by decide), ite_bit m _ _ 1 (by decide), ite_bit m _ _ 2 (by decide), ite_bit m _ _ 3 (by decide), ite_bit m _ _ 4 (by decide), ite_bit m _ _ 5 (by decide), ite_bit m _ _ 6 (by decide), ite_bit m _ _ 7 (by decide), ite_bit m _ _ 8 (by decide), ite_bit m _ _ 9 (by decide), ite_bit m _ _ 10 (by decide), ite_bit m _ _ 11 (by decide)]
  simp only [Nat.zero_or, ← Nat.and_or_distrib_left]
  rfl

theorem calculateChecksum_frame (c : TarHeaderContents) :
    (calculateChecksum c).name_ = c.name_ ∧ (calculateChecksum c).mode_ = c.mode_ ∧
      (calculateChecksum c).size_ = c.size_ ∧ (calculateChecksum c).mtime_ = c.mtime_ ∧
      (calculateChecksum c).typeflag_ = c.typeflag_ ∧
      (calculateChecksum c).linkname_ = c.linkname_ := by
  simp only [calculateChecksum, and_self]

/-- What a successful construction says about the header, member by member. -/
theorem new_some (sb : Stat) (p : Path) (l : Option Path) (hl : Bool) (h : TarHeader)
    (hnew : TarHeader.new sb p l hl = some h) :
    ∃ t, getTypeFlagFrom sb hl = some t ∧
      h.content = calculateChecksum (filledContents sb p l hl t) ∧
      h.num_long_path_blocks_ = extraBlocks p.length ∧
      h.num_long_link_blocks_ = extraLinkBlocks (effectiveLink l hl) ∧
      h.num_header_blocks_
        = 1 + extraBlocks p.length + extraLinkBlocks (effectiveLink l hl) := by
  rw [new_eq] at hnew
  cases ht : getTypeFlagFrom sb hl with
  | none => rw [ht] at hnew; simp at hnew
  | some t =>
    rw [ht] at hnew
    simp only [Option.map_some', Option.some.injEq] at hnew
    subst hnew
    exact ⟨t, rfl, rfl, chs_num_long_path_blocks _ _ _ _ _, chs_num_long_link_blocks _ _ _ _ _,
      chs_num_header_blocks _ _ _ _ _⟩

theorem new_of_typeflag (sb : Stat) (p : Path) (l : Option Path) (hl : Bool) (t : Byte)
    (ht : getTypeFlagFrom sb hl = some t) :
    ∃ h, TarHeader.new sb p l hl = some h ∧
      h.content = calculateChecksum (filledContents sb p l hl t) := by
  rw [new_eq, ht]
  exact ⟨_, rfl, rfl⟩

theorem snprintf_digits (dst : List Byte) (w n : Nat) :
    snprintf dst (w + 1) (octDigits w n) = octDigits w n ++ [0] ++ dst.drop (w + 1) := by
  unfold snprintf poke
  rw [Nat.add_sub_cancel, List.take_of_length_le (by rw [octDigits_length])]
  simp [octDigits_length]

theorem and_7777_lt (m : Nat) : m &&& 0o7777 < 8 ^ 7 ∧ m &&& 0o7777 < 2 ^ 32 := by
  have h : m &&& 0o7777 < 2 ^ 12 := Nat.and_lt_two_pow m (by decide)
  norm_num at h ⊢
  omega

theorem writeModeFlagFrom_eq (sb : Stat) (mode : List Byte) :
    writeModeFlagFrom sb mode
      = octDigits 7 (sb.st_mode &&& 0o7777) ++ [0] ++ mode.drop 8 := by
  unfold writeModeFlagFrom
  rw [modeBits_eq, fmtOctal_of_lt _ _ _ (by decide) (and_7777_lt _).1 (and_7777_lt _).2]
  exact snprintf_digits mode 7 _

/-- C5: `getTypeFlagFrom` returns `'1'` for a hard link whatever the mode, and otherwise
`'2'` for a symlink, `'0'` for a regular file, `'3'` for a char device, `'4'` for a
block device, `'5'` for a directory and `'6'` for a fifo; whenever it returns a flag, the
constructor builds a header and that header's `typeflag_` is the flag. -/
theorem typeflag_table (sb : Stat) (tarpath : Path) (link : Option Path) :
    getTypeFlagFrom sb true = some (ch '1') ∧
      (S_ISLNK sb.st_mode = true → getTypeFlagFrom sb false = some (ch '2')) ∧
      (S_ISREG sb.st_mode = true → getTypeFlagFrom sb false = some (ch '0')) ∧
      (S_ISCHR sb.st_mode = true → getTypeFlagFrom sb false = some (ch '3')) ∧
      (S_ISBLK sb.st_mode = true → getTypeFlagFrom sb false = some (ch '4')) ∧
      (S_ISDIR sb.st_mode = true → getTypeFlagFrom sb false = some (ch '5')) ∧
      (S_ISFIFO sb.st_mode = true → getTypeFlagFrom sb false = some (ch '6')) ∧
      (∀ is_hard_link t, getTypeFlagFrom sb is_hard_link = some t →
        ∃ h, TarHeader.new sb tarpath link is_hard_link = some h ∧
          h.content.typeflag_ = t) := by
  refine ⟨rfl, ?_, ?_, ?_, ?_, ?_, ?_, ?_⟩
  · intro h
    simp [getTypeFlagFrom, h, SYMTYPE]
  · intro h
    have h' := h
    simp only [S_ISREG, beq_iff_eq] at h'
    simp [getTypeFlagFrom, h, S_ISLNK, h', S_IFREG, S_IFLNK, REGTYPE]
  · intro h
    have h' := h
    simp only [S_ISCHR, beq_iff_eq] at h'
    simp [getTypeFlagFrom, h, S_ISLNK, S_ISREG, h', S_IFCHR, S_IFREG, S_IFLNK, CHRTYPE]
  · intro h
    have h' := h
    simp only [S_ISBLK, beq_iff_eq] at h'
    simp [getTypeFlagFrom, h, S_ISLNK, S_ISREG, S_ISCHR, h', S_IFBLK, S_IFCHR, S_IFREG,
      S_IFLNK, BLKTYPE]
  · intro h
    have h' := h
    simp only [S_ISDIR, beq_iff_eq] at h'
    simp [getTypeFlagFrom, h, S_ISLNK, S_ISREG, S_ISCHR, S_ISBLK, h', S_IFDIR, S_IFBLK,
      S_IFCHR, S_IFREG, S_IFLNK, DIRTYPE]
  · intro h
    have h' := h
    simp only [S_ISFIFO, beq_iff_eq] at h'
    simp [getTypeFlagFrom, h, S_ISLNK, S_ISREG, S_ISCHR, S_ISBLK, S_ISDIR, h', S_IFIFO,
      S_IFDIR, S_IFBLK, S_IFCHR, S_IFREG, S_IFLNK, FIFOTYPE]
  · intro hl t ht
    obtain ⟨h, hnew, hc⟩ := new_of_typeflag sb tarpath link hl t ht
    refine ⟨h, hnew, ?_⟩
    rw [hc, (calculateChecksum_frame _).2.2.2.2.1]
    rfl

set_option maxRecDepth 100000 in
/-- Witness for C5: a directory that is recorded as a hard link gets `'1'`, as a
plain directory `'5'`. -/
theorem typeflag_table_witness :
    getTypeFlagFrom { exampleStat with st_mode := 0o040755 } true = some (ch '1') ∧
      getTypeFlagFrom { exampleStat with st_mode := 0o040755 } false = some (ch '5') ∧
      ∃ h, TarHeader.new { exampleStat with st_mode := 0o040755 } (cstr "d") none false
          = some h ∧ h.content.typeflag_ = ch '5' :=
  have h := typeflag_table { exampleStat with st_mode := 0o040755 } (cstr "d") none
  ⟨h.1, h.2.2.2.2.2.1 (by decide), h.2.2.2.2.2.2.2 false (ch '5') (by decide)⟩

/-- C6: `writeModeFlagFrom` stores in the first eight bytes of the mode member seven
zero-padded octal digits and a NUL; the digits denote `st_mode & 07777`, so two stats
that agree on these twelve bits get the same member, whatever their file-type bits. -/
theorem mode_field (sb : Stat) (mode : List Byte) :
    writeModeFlagFrom sb mode
        = octDigits 7 (sb.st_mode &&& 0o7777) ++ [0] ++ mode.drop 8 ∧
      octVal (octDigits 7 (sb.st_mode &&& 0o7777)) = sb.st_mode &&& 0o7777 ∧
      ∀ sb' : Stat, sb'.st_mode &&& 0o7777 = sb.st_mode &&& 0o7777 →
        writeModeFlagFrom sb' mode = writeModeFlagFrom sb mode := by
  refine ⟨writeModeFlagFrom_eq sb mode, octVal_octDigits_of_lt _ _ (and_7777_lt _).1, ?_⟩
  intro sb' h
  rw [writeModeFlagFrom_eq, writeModeFlagFrom_eq, h]

/-- Witness for C6: a regular file and a directory, both with mode bits 04755. -/
theorem mode_field_witness :
    writeModeFlagFrom { exampleStat with st_mode := 0o104755 } (List.replicate 8 0)
        = cstrz "0004755" ∧
      writeModeFlagFrom { exampleStat with st_mode := 0o044755 } (List.replicate 8 0)
        = writeModeFlagFrom { exampleStat with st_mode := 0o104755 } (List.replicate 8 0) :=
  ⟨by decide,
   (mode_field { exampleStat with st_mode := 0o104755 } (List.replicate 8 0)).2.2
     { exampleStat with st_mode := 0o044755 } (by decide)⟩

theorem toSizeT_of_lt (x : Int) (h0 : 0 ≤ x) (h1 : x < 2 ^ 64) : toSizeT x = x.toNat := by
  unfold toSizeT
  rw [Int.emod_eq_of_lt h0 h1]

theorem snprintf_octal11 (v : Nat) (hv : v < 8 ^ 11) :
    snprintf (List.replicate 12 0) 12 (fmtOctal 64 11 v) = octDigits 11 v ++ [0] := by
  have hv2 : v < 2 ^ 64 := by
    norm_num at hv ⊢
    omega
  rw [fmtOctal_of_lt _ _ _ (by decide) hv hv2, snprintf_digits]
  simp

theorem new_size_field (sb : Stat) (p : Path) (l : Option Path) (hl : Bool) (h : TarHeader)
    (hnew : TarHeader.new sb p l hl = some h) :
    h.content.size_ = snprintf (List.replicate 12 0) 12
      (fmtOctal 64 11 (if S_ISREG sb.st_mode then toSizeT sb.st_size else 0)) := by
  obtain ⟨t, _, hc, _⟩ := new_some sb p l hl h hnew
  rw [hc, (calculateChecksum_frame _).2.2.1]
  rfl

set_option maxRecDepth 100000 in
/-- C7 as stated fails: for a regular file of `8 ^ 11` bytes the size member holds the
digits `10000000000`, which denote `8 ^ 10`. -/
theorem size_field_counterexample :
    ∃ h, TarHeader.new { exampleStat with st_size := 8 ^ 11 } (cstr "big") none false
        = some h ∧
      S_ISREG ({ exampleStat with st_size := 8 ^ 11 }).st_mode = true ∧
      h.content.size_ = cstrz "10000000000" ∧
      octVal (h.content.size_.take 11) = 8 ^ 10 ∧
      (octVal (h.content.size_.take 11) : Int)
        ≠ ({ exampleStat with st_size := 8 ^ 11 }).st_size :=
  match hq : TarHeader.new { exampleStat with st_size := 8 ^ 11 } (cstr "big") none false
  with
  | some h =>
    have hv : h.content.size_ = cstrz "10000000000" := by
      have : (TarHeader.new { exampleStat with st_size := 8 ^ 11 } (cstr "big") none
          false).map (fun x => x.content.size_) = some (cstrz "10000000000") := by decide
      rw [hq] at this
      simpa using this
    ⟨h, rfl, by decide, hv, by rw [hv]; decide, by rw [hv]; decide⟩
  | none => absurd hq (by decide)

/-- C7, amended: the size member of a constructed header is eleven zero-padded octal
digits and a NUL; the digits denote `st_size` when the file is regular and
`0 ≤ st_size < 8 ^ 11`, and 0 when the file is not regular. -/
theorem size_field (sb : Stat) (tarpath : Path) (link : Option Path) (is_hard_link : Bool)
    (h : TarHeader) (hnew : TarHeader.new sb tarpath link is_hard_link = some h)
    (hsz : S_ISREG sb.st_mode = true → 0 ≤ sb.st_size ∧ sb.st_size < 8 ^ 11) :
    ∃ n : Nat, h.content.size_ = octDigits 11 n ++ [0] ∧ octVal (octDigits 11 n) = n ∧
      (n : Int) = if S_ISREG sb.st_mode = true then sb.st_size else 0 := by
  rw [new_size_field sb tarpath link is_hard_link h hnew]
  by_cases hreg : S_ISREG sb.st_mode = true
  · obtain ⟨h0, h1⟩ := hsz hreg
    have hn : sb.st_size.toNat < 8 ^ 11 := by
      have : ((sb.st_size.toNat : Nat) : Int) < ((8 ^ 11 : Nat) : Int) := by
        rw [Int.toNat_of_nonneg h0]
        exact_mod_cast h1
      exact_mod_cast this
    refine ⟨sb.st_size.toNat, ?_, octVal_octDigits_of_lt _ _ hn, ?_⟩
    · rw [if_pos hreg, toSizeT_of_lt _ h0 (lt_trans h1 (by norm_num)), snprintf_octal11 _ hn]
    · rw [if_pos hreg, Int.toNat_of_nonneg h0]
  · refine ⟨0, ?_, by decide, ?_⟩
    · rw [if_neg hreg, snprintf_octal11 _ (by decide)]
    · rw [if_neg hreg]
      rfl

set_option maxRecDepth 100000 in
/-- Witness for the amended C7: a regular file of two bytes. -/
theorem size_field_witness :
    ∃ h, TarHeader.new exampleStat (cstr "hello.txt") none false = some h ∧
      ∃ n : Nat, h.content.size_ = octDigits 11 n ++ [0] ∧ octVal (octDigits 11 n) = n ∧
        (n : Int) = if S_ISREG exampleStat.st_mode = true then exampleStat.st_size else 0 :=
  match hq : TarHeader.new exampleStat (cstr "hello.txt") none false with
  | some h =>
    ⟨h, rfl, size_field exampleStat (cstr "hello.txt") none false h hq
      (fun _ => ⟨by decide, by decide⟩)⟩
  | none => absurd hq (by decide)

/-! ## Paths and links in the header -/

theorem takeWhile_nulFree (p : Path) (hp : NulFree p) (k : Nat) :
    (p ++ List.replicate k (0 : Byte)).takeWhile (fun b => b ≠ 0) = p := by
  induction p with
  | nil =>
    cases k with
    | zero => rfl
    | succ k => simp [List.replicate_succ, List.takeWhile_cons]
  | cons b p ih =>
    have hb : b ≠ 0 := hp b (List.mem_cons_self _ _)
    have hp2 : NulFree p := fun x hx => hp x (List.mem_cons_of_mem _ hx)
    simp only [List.cons_append, List.takeWhile_cons, ne_eq, hb, not_false_eq_true,
      decide_True, ite_true]
    exact congrArg (List.cons b) (ih hp2)

theorem strncpy_nulFree (dst : List Byte) (p : Path) (n : Nat) (hp : NulFree p)
    (hlen : p.length ≤ n) (hd : dst.length = n) :
    strncpy dst p n = p ++ List.replicate (n - p.length) 0 := by
  have htw : p.takeWhile (fun b => b ≠ 0) = p := by
    have := takeWhile_nulFree p hp 0
    simpa using this
  unfold strncpy
  simp only [htw]
  rw [List.take_of_length_le hlen, poke_full]
  simp only [List.length_append, List.length_replicate]
  omega

theorem strncpy_inj (dst : List Byte) (p q : Path) (n : Nat) (hp : NulFree p)
    (hq : NulFree q) (hpl : p.length ≤ n) (hql : q.length ≤ n) (hd : dst.length = n)
    (heq : strncpy dst p n = strncpy dst q n) : p = q := by
  rw [strncpy_nulFree dst p n hp hpl hd, strncpy_nulFree dst q n hq hql hd] at heq
  have h := congrArg (List.takeWhile (fun b => b ≠ 0)) heq
  rwa [takeWhile_nulFree p hp, takeWhile_nulFree q hq] at h

theorem unRoot_nulFree (p : Path) (hp : NulFree p) : NulFree p.unRoot := by
  cases p with
  | nil => exact hp
  | cons b rest =>
    simp only [Path.unRoot]
    split_ifs
    · exact fun x hx => hp x (List.mem_cons_of_mem _ hx)
    · exact hp

theorem new_linkname_field (sb : Stat) (p : Path) (l : Option Path) (hl : Bool)
    (h : TarHeader) (hnew : TarHeader.new sb p l hl = some h) :
    h.content.linkname_
      = match effectiveLink l hl with
        | some l => if l.length ≤ 100 then strncpy (List.replicate 100 0) l 100
                    else List.replicate 100 0
        | none => List.replicate 100 0 := by
  obtain ⟨t, _, hc, _⟩ := new_some sb p l hl h hnew
  rw [hc, (calculateChecksum_frame _).2.2.2.2.2, filledContents_linkname]

theorem new_name_field (sb : Stat) (p : Path) (l : Option Path) (hl : Bool)
    (h : TarHeader) (hnew : TarHeader.new sb p l hl = some h) :
    h.content.name_
      = if p.length ≤ 100 then strncpy (List.replicate 100 0) p 100
        else List.replicate 100 0 := by
  obtain ⟨t, _, hc, _⟩ := new_some sb p l hl h hnew
  rw [hc, (calculateChecksum_frame _).1, filledContents_name]

set_option maxRecDepth 100000 in
/-- C9 as stated fails: for the hard-link target `/` and 101 times `a` the un-rooted
target has 101 bytes, and the `linkname_` of the header is all NUL: it is not the
un-rooted target, nor its first 100 bytes. -/
theorem hard_link_unrooted_counterexample :
    ∃ h, TarHeader.new exampleStat (cstr "f")
        (some (ch '/' :: List.replicate 101 (ch 'a'))) true = some h ∧
      h.content.linkname_ = List.replicate 100 0 ∧
      h.content.linkname_ ≠ (Path.unRoot (ch '/' :: List.replicate 101 (ch 'a'))).take 100 ∧
      h.num_long_link_blocks_ = 2 := by
  have hsome : (TarHeader.new exampleStat (cstr "f")
      (some (ch '/' :: List.replicate 101 (ch 'a'))) true).isSome = true := by decide
  obtain ⟨h, hq⟩ := Option.isSome_iff_exists.mp hsome
  have hn : h.content.linkname_ = List.replicate 100 0 := by
    rw [new_linkname_field _ _ _ _ h hq]
    simp only [effectiveLink, if_true]
    rw [if_neg]
    decide
  refine ⟨h, hq, hn, ?_, ?_⟩
  · rw [hn]
    decide
  · obtain ⟨t, _, _, _, hll, _⟩ := new_some _ _ _ _ h hq
    rw [hll]
    decide

/-- C9, amended: with `is_hard_link = true` both `calculateSize` and the constructor work
on the un-rooted link: the size is that of the un-rooted link taken as a plain link, the
constructor does build a header, its long-link block count is that of the un-rooted
link, and its `linkname_` holds the un-rooted target (NUL padded) when that is at most
100 bytes and 100 NUL bytes when it is longer; so a rooted target of 101 bytes needs no
GNU long-link blocks.  With `is_hard_link = false` the link is used as it is, under the
same limit.  The link is a C string: it holds no NUL byte. -/
theorem hard_link_unrooted (sb : Stat) (tarpath link : Path) (hnul : NulFree link) :
    calculateSize sb tarpath (some link) true
        = calculateSize sb tarpath (some link.unRoot) false ∧
      (∃ h, TarHeader.new sb tarpath (some link) true = some h) ∧
      (∀ h, TarHeader.new sb tarpath (some link) true = some h →
        h.num_long_link_blocks_ = extraBlocks link.unRoot.length ∧
        (link.unRoot.length ≤ 100 → h.content.linkname_
          = link.unRoot ++ List.replicate (100 - link.unRoot.length) 0) ∧
        (100 < link.unRoot.length → h.content.linkname_ = List.replicate 100 0)) ∧
      (link.length = 101 → link.head? = some (ch '/') →
        calculateSize sb tarpath (some link) true = calculateSize sb tarpath none true ∧
        ∀ h, TarHeader.new sb tarpath (some link) true = some h →
          h.num_long_link_blocks_ = 0) ∧
      calculateSize sb tarpath (some link) false
        = 512 * (1 + extraBlocks tarpath.length + extraBlocks link.length) ∧
      (∀ h, TarHeader.new sb tarpath (some link) false = some h →
        h.num_long_link_blocks_ = extraBlocks link.length ∧
        (link.length ≤ 100 → h.content.linkname_
          = link ++ List.replicate (100 - link.length) 0) ∧
        (100 < link.length → h.content.linkname_ = List.replicate 100 0)) := by
  have hblocks : ∀ h, TarHeader.new sb tarpath (some link) true = some h →
      h.num_long_link_blocks_ = extraBlocks link.unRoot.length := by
    intro h hnew
    obtain ⟨t, _, _, _, hll, _⟩ := new_some _ _ _ _ h hnew
    rw [hll]
    rfl
  refine ⟨?_, ?_, ?_, ?_, ?_, ?_⟩
  · rw [calculateSize_eq, calculateSize_eq]
    rfl
  · obtain ⟨h, hnew, _⟩ := new_of_typeflag sb tarpath (some link) true LNKTYPE rfl
    exact ⟨h, hnew⟩
  · intro h hnew
    refine ⟨hblocks h hnew, ?_, ?_⟩
    · intro hlen
      rw [new_linkname_field _ _ _ _ h hnew]
      simp only [effectiveLink, if_true, if_pos hlen]
      exact strncpy_nulFree _ _ _ (unRoot_nulFree _ hnul) hlen (by simp)
    · intro hlen
      rw [new_linkname_field _ _ _ _ h hnew]
      simp only [effectiveLink, if_true]
      rw [if_neg (by omega)]
  · intro hlen hhead
    have hun : link.unRoot.length = 100 := by
      cases link with
      | nil => simp at hlen
      | cons b rest =>
        simp only [List.head?_cons, Option.some.injEq] at hhead
        simp only [Path.unRoot, hhead, if_true]
        simpa using hlen
    have hz : extraBlocks link.unRoot.length = 0 := by
      rw [hun]
      rfl
    refine ⟨?_, ?_⟩
    · rw [calculateSize_eq, calculateSize_eq]
      simp only [effectiveLink, if_true, extraLinkBlocks, hz]
    · intro h hnew
      rw [hblocks h hnew, hz]
  · rw [calculateSize_eq]
    rfl
  · intro h hnew
    obtain ⟨t, _, _, _, hll, _⟩ := new_some _ _ _ _ h hnew
    refine ⟨by rw [hll]; rfl, ?_, ?_⟩
    · intro hlen
      rw [new_linkname_field _ _ _ _ h hnew]
      simp only [effectiveLink, Bool.false_eq_true, if_false, if_pos hlen]
      exact strncpy_nulFree _ _ _ hnul hlen (by simp)
    · intro hlen
      rw [new_linkname_field _ _ _ _ h hnew]
      simp only [effectiveLink, Bool.false_eq_true, if_false]
      rw [if_neg (by omega)]

/-- Witness for C9: a hard-link target of `/` and one hundred `a`, 101 bytes. -/
theorem hard_link_unrooted_witness :
    calculateSize exampleStat (cstr "f") (some (ch '/' :: List.replicate 100 (ch 'a'))) true
        = calculateSize exampleStat (cstr "f")
            (some (Path.unRoot (ch '/' :: List.replicate 100 (ch 'a')))) false ∧
      calculateSize exampleStat (cstr "f") (some (ch '/' :: List.replicate 100 (ch 'a')))
        true = calculateSize exampleStat (cstr "f") none true ∧
      calculateSize exampleStat (cstr "f") (some (ch '/' :: List.replicate 100 (ch 'a')))
        false = 512 * (1 + extraBlocks (cstr "f").length
          + extraBlocks (ch '/' :: List.replicate 100 (ch 'a')).length) :=
  have hnul : NulFree (ch '/' :: List.replicate 100 (ch 'a')) := by
    intro b hb
    rcases List.mem_cons.mp hb with rfl | hb
    · decide
    · rw [List.eq_of_mem_replicate hb]
      decide
  have h := hard_link_unrooted exampleStat (cstr "f")
    (ch '/' :: List.replicate 100 (ch 'a')) hnul
  ⟨h.1, (h.2.2.2.1 (by simp) rfl).1, h.2.2.2.2.1⟩

/-! ## What the header keeps of its input -/

theorem typeOfFlag_getTypeFlagFrom (sb : Stat) (t : Byte)
    (h : getTypeFlagFrom sb false = some t) : sb.st_mode &&& S_IFMT = typeOfFlag t := by
  unfold getTypeFlagFrom at h
  simp only [Bool.false_eq_true, if_false] at h
  split_ifs at h with h1 h2 h3 h4 h5 h6 <;> simp only [Option.some.injEq] at h <;> subst h
  · simpa [S_ISLNK] using h1
  · simpa [S_ISREG] using h2
  · simpa [S_ISCHR] using h3
  · simpa [S_ISBLK] using h4
  · simpa [S_ISDIR] using h5
  · simpa [S_ISFIFO] using h6

theorem octDigits_inj (w a b : Nat) (ha : a < 8 ^ w) (hb : b < 8 ^ w)
    (h : octDigits w a = octDigits w b) : a = b := by
  rw [← octVal_octDigits_of_lt w a ha, ← octVal_octDigits_of_lt w b hb, h]

theorem octDigits_nul_inj (w a b : Nat) (ha : a < 8 ^ w) (hb : b < 8 ^ w)
    (h : octDigits w a ++ [(0 : Byte)] = octDigits w b ++ [0]) : a = b :=
  octDigits_inj w a b ha hb (List.append_cancel_right h)

theorem new_mode_field (sb : Stat) (p : Path) (l : Option Path) (hl : Bool) (h : TarHeader)
    (hnew : TarHeader.new sb p l hl = some h) :
    h.content.mode_ = octDigits 7 (sb.st_mode &&& 0o7777) ++ [0] := by
  obtain ⟨t, _, hc, _⟩ := new_some sb p l hl h hnew
  rw [hc, (calculateChecksum_frame _).2.1]
  show writeModeFlagFrom sb (List.replicate 8 0) = _
  rw [writeModeFlagFrom_eq]
  simp

theorem new_mtime_field (sb : Stat) (p : Path) (l : Option Path) (hl : Bool) (h : TarHeader)
    (hnew : TarHeader.new sb p l hl = some h) :
    h.content.mtime_ = snprintf (List.replicate 12 0) 12
      (fmtOctal 64 11 (toSizeT sb.st_mtim.tv_sec)) := by
  obtain ⟨t, _, hc, _⟩ := new_some sb p l hl h hnew
  rw [hc, (calculateChecksum_frame _).2.2.2.1]
  rfl

theorem new_typeflag_field (sb : Stat) (p : Path) (l : Option Path) (hl : Bool)
    (h : TarHeader) (hnew : TarHeader.new sb p l hl = some h) :
    getTypeFlagFrom sb hl = some h.content.typeflag_ := by
  obtain ⟨t, ht, hc, _⟩ := new_some sb p l hl h hnew
  rw [hc, (calculateChecksum_frame _).2.2.2.2.1, ht]
  rfl

theorem toNat_lt_of_lt (x : Int) (h0 : 0 ≤ x) (h1 : x < 8 ^ 11) : x.toNat < 8 ^ 11 := by
  have : ((x.toNat : Nat) : Int) < ((8 ^ 11 : Nat) : Int) := by
    rw [Int.toNat_of_nonneg h0]
    exact_mod_cast h1
  exact_mod_cast this

theorem octal11_inj (x y : Int) (hx0 : 0 ≤ x) (hx1 : x < 8 ^ 11) (hy0 : 0 ≤ y)
    (hy1 : y < 8 ^ 11)
    (h : snprintf (List.replicate 12 0) 12 (fmtOctal 64 11 (toSizeT x))
      = snprintf (List.replicate 12 0) 12 (fmtOctal 64 11 (toSizeT y))) : x = y := by
  rw [toSizeT_of_lt x hx0 (lt_trans hx1 (by norm_num)),
    toSizeT_of_lt y hy0 (lt_trans hy1 (by norm_num)),
    snprintf_octal11 _ (toNat_lt_of_lt x hx0 hx1),
    snprintf_octal11 _ (toNat_lt_of_lt y hy0 hy1)] at h
  have := octDigits_nul_inj 11 _ _ (toNat_lt_of_lt x hx0 hx1) (toNat_lt_of_lt y hy0 hy1) h
  rw [← Int.toNat_of_nonneg hx0, ← Int.toNat_of_nonneg hy0, this]

set_option maxRecDepth 100000 in
/-- C8 as stated fails: two stats that differ in `st_uid` give the same header, and so
do two different paths of 150 bytes. -/
theorem encoding_not_injective :
    ({ exampleStat with st_uid := 0 } : Stat) ≠ exampleStat ∧
      (TarHeader.new exampleStat (cstr "hello.txt") none false).isSome = true ∧
      TarHeader.new { exampleStat with st_uid := 0 } (cstr "hello.txt") none false
        = TarHeader.new exampleStat (cstr "hello.txt") none false ∧
      List.replicate 150 (ch 'a') ≠ List.replicate 150 (ch 'b') ∧
      (TarHeader.new exampleStat (List.replicate 150 (ch 'a')) none false).isSome = true ∧
      TarHeader.new exampleStat (List.replicate 150 (ch 'a')) none false
        = TarHeader.new exampleStat (List.replicate 150 (ch 'b')) none false := by
  refine ⟨by decide, by decide, by decide, by decide, by decide, by decide⟩

/-- C8, amended: two inputs with the same hard-link flag for which the constructor
builds the same header agree on the permission bits `st_mode & 07777`; on the file
type when they are not hard links; on the size when both are regular files with
`0 ≤ st_size < 8 ^ 11`; on the mtime seconds when both are in `[0, 8 ^ 11)`; on the
path when both paths are at most 100 bytes; and on the link the header is built from
(un-rooted for a hard link) when both are given and at most 100 bytes.  Paths and links
are C strings: they hold no NUL byte. -/
theorem header_keeps (sb sb' : Stat) (p p' : Path) (l l' : Option Path) (hl : Bool)
    (h : TarHeader) (hnew : TarHeader.new sb p l hl = some h)
    (hnew' : TarHeader.new sb' p' l' hl = some h) :
    sb.st_mode &&& 0o7777 = sb'.st_mode &&& 0o7777 ∧
      (hl = false → sb.st_mode &&& S_IFMT = sb'.st_mode &&& S_IFMT) ∧
      (S_ISREG sb.st_mode = true → S_ISREG sb'.st_mode = true →
        0 ≤ sb.st_size → sb.st_size < 8 ^ 11 → 0 ≤ sb'.st_size → sb'.st_size < 8 ^ 11 →
        sb.st_size = sb'.st_size) ∧
      (0 ≤ sb.st_mtim.tv_sec → sb.st_mtim.tv_sec < 8 ^ 11 →
        0 ≤ sb'.st_mtim.tv_sec → sb'.st_mtim.tv_sec < 8 ^ 11 →
        sb.st_mtim.tv_sec = sb'.st_mtim.tv_sec) ∧
      (p.length ≤ 100 → p'.length ≤ 100 → NulFree p → NulFree p' → p = p') ∧
      (∀ k k', effectiveLink l hl = some k → effectiveLink l' hl = some k' →
        k.length ≤ 100 → k'.length ≤ 100 → NulFree k → NulFree k' → k = k') := by
  refine ⟨?_, ?_, ?_, ?_, ?_, ?_⟩
  · have h1 := new_mode_field sb p l hl h hnew
    have h2 := new_mode_field sb' p' l' hl h hnew'
    exact octDigits_nul_inj 7 _ _ (and_7777_lt _).1 (and_7777_lt _).1 (h1.symm.trans h2)
  · intro hf
    subst hf
    have h1 := new_typeflag_field sb p l false h hnew
    have h2 := new_typeflag_field sb' p' l' false h hnew'
    rw [typeOfFlag_getTypeFlagFrom sb _ h1, typeOfFlag_getTypeFlagFrom sb' _ h2]
  · intro hr hr' a0 a1 b0 b1
    have h1 := new_size_field sb p l hl h hnew
    have h2 := new_size_field sb' p' l' hl h hnew'
    rw [if_pos hr] at h1
    rw [if_pos hr'] at h2
    exact octal11_inj _ _ a0 a1 b0 b1 (h1.symm.trans h2)
  · intro a0 a1 b0 b1
    have h1 := new_mtime_field sb p l hl h hnew
    have h2 := new_mtime_field sb' p' l' hl h hnew'
    exact octal11_inj _ _ a0 a1 b0 b1 (h1.symm.trans h2)
  · intro hp hp' hn hn'
    have h1 := new_name_field sb p l hl h hnew
    have h2 := new_name_field sb' p' l' hl h hnew'
    rw [if_pos hp] at h1
    rw [if_pos hp'] at h2
    exact strncpy_inj _ _ _ 100 hn hn' hp hp' (by simp) (h1.symm.trans h2)
  · intro k k' hk hk' hlen hlen' hn hn'
    have h1 := new_linkname_field sb p l hl h hnew
    have h2 := new_linkname_field sb' p' l' hl h hnew'
    rw [hk] at h1
    rw [hk'] at h2
    simp only [if_pos hlen] at h1
    simp only [if_pos hlen'] at h2
    exact strncpy_inj _ _ _ 100 hn hn' hlen hlen' (by simp) (h1.symm.trans h2)

set_option maxRecDepth 100000 in
/-- Witness for the amended C8: the two stats of the counterexample, which differ in
`st_uid` only, agree on everything the header keeps. -/
theorem header_keeps_witness :
    ∃ h, TarHeader.new { exampleStat with st_uid := 0 } (cstr "hello.txt") none false
        = some h ∧
      TarHeader.new exampleStat (cstr "hello.txt") none false = some h ∧
      ({ exampleStat with st_uid := 0 } : Stat).st_mode &&& 0o7777
        = exampleStat.st_mode &&& 0o7777 := by
  have hsome : (TarHeader.new { exampleStat with st_uid := 0 } (cstr "hello.txt") none
      false).isSome = true := by decide
  obtain ⟨h, hq⟩ := Option.isSome_iff_exists.mp hsome
  have hq' : TarHeader.new exampleStat (cstr "hello.txt") none false = some h := by
    rw [← hq]
    decide
  exact ⟨h, hq, hq', (header_keeps _ _ _ _ _ _ false h hq hq').1⟩

/-! ## Content conservation of a split file -/

theorem sum_map_range_const (f : Nat → Nat) (n c : Nat) (h : ∀ i, i < n → f i = c) :
    ((List.range n).map f).sum = n * c := by
  induction n with
  | zero => simp
  | succ n ih =>
    rw [List.range_succ, List.map_append, List.sum_append, ih (fun i hi => h i (by omega)),
      List.map_singleton, List.sum_singleton, h n (by omega), Nat.succ_mul]

theorem contentSize_last (e : IndexEntry) (h1 : 1 ≤ e.num_parts) (h2 : e.num_parts < 2 ^ 32) :
    e.contentSize (e.num_parts - 1) = e.last_part_size := by
  unfold IndexEntry.contentSize
  rw [if_pos]
  norm_num at h2 ⊢
  omega

theorem contentSize_before_last (e : IndexEntry) (i : Nat) (h2 : e.num_parts < 2 ^ 32)
    (hi : i < e.num_parts - 1) : e.contentSize i = e.part_size := by
  unfold IndexEntry.contentSize
  rw [if_neg]
  norm_num at h2 ⊢
  omega

theorem totalContentSize_eq (e : IndexEntry) (h1 : 1 ≤ e.num_parts)
    (h2 : e.num_parts < 2 ^ 32) :
    totalContentSize e = (e.num_parts - 1) * e.part_size + e.last_part_size := by
  unfold totalContentSize
  obtain ⟨k, hk⟩ : ∃ k, e.num_parts = k + 1 := ⟨e.num_parts - 1, by omega⟩
  rw [hk, List.range_succ, List.map_append, List.sum_append, List.map_singleton,
    List.sum_singleton, Nat.add_sub_cancel]
  have hlast := contentSize_last e h1 h2
  rw [hk, Nat.add_sub_cancel] at hlast
  rw [hlast, sum_map_range_const e.contentSize k e.part_size]
  intro i hi
  exact contentSize_before_last e i h2 (by omega)

theorem ceilDiv_pred_mul_le (size T : Nat) (hT : 0 < T) (hs : 0 < size) :
    (ceilDiv size T - 1) * T ≤ size := by
  have h1 : ceilDiv size T * T ≤ size + T - 1 := Nat.div_mul_le_self _ _
  rw [Nat.sub_mul, Nat.one_mul]
  omega

/-- C10: for the entry the splitting policy produces for a file of `size > T`, `T > 0`,
whose part count fits the `uint` member `num_parts`, the `contentSize(i)` of the parts
`i = 0 .. num_parts - 1` add up to the file size. -/
theorem content_conservation (base : IndexEntry) (size T : Nat) (hT : 0 < T)
    (hsize : T < size) (hfit : ceilDiv size T < 2 ^ 32) :
    totalContentSize (splitEntry base size T) = size := by
  have hn : 1 ≤ ceilDiv size T := by
    unfold ceilDiv
    exact (Nat.one_le_div_iff hT).mpr (by omega)
  have h := totalContentSize_eq (splitEntry base size T) hn hfit
  rw [h]
  show (ceilDiv size T - 1) * T + (size - (ceilDiv size T - 1) * T) = size
  have := ceilDiv_pred_mul_le size T hT (by omega)
  omega

/-- Witness for C10: a file of 10 bytes in parts of 4 has parts of 4, 4 and 2 bytes. -/
theorem content_conservation_witness :
    totalContentSize (splitEntry ⟨1, 0, 0, 0, 0, 0⟩ 10 4) = 10 ∧
      (splitEntry ⟨1, 0, 0, 0, 0, 0⟩ 10 4).num_parts = 3 ∧
      (splitEntry ⟨1, 0, 0, 0, 0, 0⟩ 10 4).last_part_size = 2 :=
  ⟨content_conservation ⟨1, 0, 0, 0, 0, 0⟩ 10 4 (by decide) (by decide) (by decide),
    by decide, by decide⟩

/-! ## The split of the spec's scenario -/

/-- C11 as stated fails: for 13 bytes and `T = 2` the policy gives seven parts with a
last part of one byte, not four parts with a last part of seven bytes; and an entry
with `part_size = 2` and `last_part_size = 7` breaks `last_part_size ≤ part_size`. -/
theorem split_scenario_counterexample :
    (splitEntry ⟨1, 0, 0, 0, 0, 0⟩ (3 * 2 + 7) 2).num_parts = 7 ∧
      (splitEntry ⟨1, 0, 0, 0, 0, 0⟩ (3 * 2 + 7) 2).num_parts ≠ 4 ∧
      (splitEntry ⟨1, 0, 0, 0, 0, 0⟩ (3 * 2 + 7) 2).last_part_size = 1 ∧
      (splitEntry ⟨1, 0, 0, 0, 0, 0⟩ (3 * 2 + 7) 2).last_part_size ≠ 7 ∧
      ¬ (7 ≤ (splitEntry ⟨1, 0, 0, 0, 0, 0⟩ (3 * 2 + 7) 2).part_size) := by
  decide

/-- C11, amended: for a file of 13 bytes and `T = 2` the splitting policy yields
`num_parts = 7`, `part_size = 2` and `last_part_size = 1`; the `contentSize` of the
parts 0..6 add up to 13 and `last_part_size ≤ part_size`.  The figures of four parts
and a last part of 7 bytes belong to a file of `3 * T + 7` bytes with `T ≥ 7`. -/
theorem split_scenario (base : IndexEntry) :
    ((splitEntry base 13 2).num_parts = 7 ∧ (splitEntry base 13 2).part_size = 2 ∧
        (splitEntry base 13 2).last_part_size = 1 ∧
        totalContentSize (splitEntry base 13 2) = 13 ∧
        (splitEntry base 13 2).last_part_size ≤ (splitEntry base 13 2).part_size) ∧
      ∀ T, 7 ≤ T →
        (splitEntry base (3 * T + 7) T).num_parts = 4 ∧
        (splitEntry base (3 * T + 7) T).part_size = T ∧
        (splitEntry base (3 * T + 7) T).last_part_size = 7 ∧
        totalContentSize (splitEntry base (3 * T + 7) T) = 3 * T + 7 ∧
        (splitEntry base (3 * T + 7) T).last_part_size
          ≤ (splitEntry base (3 * T + 7) T).part_size := by
  have h7 : (splitEntry base 13 2).num_parts = 7 := rfl
  have hl : (splitEntry base 13 2).last_part_size = 1 := rfl
  have hp : (splitEntry base 13 2).part_size = 2 := rfl
  refine ⟨⟨h7, hp, hl, ?_, by rw [hl, hp]; decide⟩, ?_⟩
  · rw [totalContentSize_eq _ (by rw [h7]; decide) (by rw [h7]; decide), h7, hl, hp]
  · intro T hT
    have hn : ceilDiv (3 * T + 7) T = 4 := by
      unfold ceilDiv
      apply Nat.div_eq_of_lt_le
      · rw [Nat.mul_comm]; omega
      · rw [Nat.mul_comm]; omega
    have h1 : (splitEntry base (3 * T + 7) T).num_parts = 4 := hn
    have h3 : (splitEntry base (3 * T + 7) T).last_part_size = 7 := by
      show 3 * T + 7 - (ceilDiv (3 * T + 7) T - 1) * T = 7
      rw [hn]
      omega
    refine ⟨h1, rfl, h3, ?_, ?_⟩
    · rw [totalContentSize_eq _ (by rw [h1]; decide) (by rw [h1]; decide), h1, h3]
      show (4 - 1) * T + 7 = 3 * T + 7
      omega
    · rw [h3]
      exact hT

/-- Witness for the amended C11: with `T = 7` a file of 28 bytes has four parts, the
last of 7 bytes. -/
theorem split_scenario_witness :
    (splitEntry ⟨1, 0, 0, 0, 0, 0⟩ (3 * 7 + 7) 7).num_parts = 4 ∧
      (splitEntry ⟨1, 0, 0, 0, 0, 0⟩ (3 * 7 + 7) 7).last_part_size = 7 :=
  have h := (split_scenario ⟨1, 0, 0, 0, 0, 0⟩).2 7 (by decide)
  ⟨h.1, h.2.2.1⟩

/-! ## Exit codes -/

/-- C15 as stated fails: for `diff`, `history`, `pull` and `genmounttrigger`, `main`
returns 0, the code of success, even next to a `Beak` object whose methods all fail. -/
theorem unimplemented_commands_counterexample :
    main failingBeak Command.diff_cmd = 0 ∧ main failingBeak Command.history_cmd = 0 ∧
      main failingBeak Command.pull_cmd = 0 ∧
      main failingBeak Command.genmounttrigger_cmd = 0 ∧
      main failingBeak Command.check_cmd ≠ 0 := by
  decide

/-- C15, amended: for each of the unimplemented subcommands `diff`, `history`, `pull` and
`genmounttrigger`, `main` does nothing and returns the exit code of `RC::OK`, which is
the success code 0 and the code the `version` command returns. -/
theorem unimplemented_commands_succeed (beak : Beak) :
    main beak Command.diff_cmd = RC.OK.toInteger ∧
      main beak Command.history_cmd = RC.OK.toInteger ∧
      main beak Command.pull_cmd = RC.OK.toInteger ∧
      main beak Command.genmounttrigger_cmd = RC.OK.toInteger ∧
      RC.OK.toInteger = 0 ∧ main beak Command.version_cmd = RC.OK.toInteger :=
  ⟨rfl, rfl, rfl, rfl, rfl, rfl⟩

/-- C16 fails on the code: a child that `SIGKILL` ended has the wait status 9, which is
not a normal exit, and `invoke` returns `RC::OK` for it.  `invoke` returns `RC::ERR`
exactly for a normal exit with a code other than 0. -/
theorem invoke_signalled_child :
    WIFEXITED 9 = false ∧ WIFSIGNALED 9 = true ∧ invoke 9 = RC.OK ∧
      ∀ status, invoke status = RC.ERR ↔
        (WIFEXITED status = true ∧ WEXITSTATUS status ≠ 0) := by
  refine ⟨by decide, by decide, by decide, ?_⟩
  intro status
  unfold invoke
  by_cases h : WIFEXITED status = true
  · by_cases h2 : WEXITSTATUS status = 0 <;> simp [h, h2]
  · simp [h]

/-! ## The GNU long-name headers -/

theorem take_poke (dst src : List Byte) : (poke dst src).take src.length = src := by
  unfold poke
  exact List.take_left' rfl

/-- C17: `setLongPathType(f)` gives a header with type flag `'L'`, a name member that
starts with the NUL-terminated string `././@LongLink`, an mtime member of eleven octal
zeros and a NUL, and the mode, uid, gid, size, linkname, magic, version, uname and gname
members of `f`; `setLongLinkType(f)` gives the same with type flag `'K'`. -/
theorem long_type_headers (self f : TarHeader) :
    ((self.setLongPathType f).content.typeflag_ = ch 'L' ∧
        (self.setLongPathType f).content.name_.take 14 = cstrz "././@LongLink" ∧
        (self.setLongPathType f).content.mtime_.take 12 = cstrz "00000000000" ∧
        (self.setLongPathType f).content.mode_ = f.content.mode_ ∧
        (self.setLongPathType f).content.uid_ = f.content.uid_ ∧
        (self.setLongPathType f).content.gid_ = f.content.gid_ ∧
        (self.setLongPathType f).content.size_ = f.content.size_ ∧
        (self.setLongPathType f).content.linkname_ = f.content.linkname_ ∧
        (self.setLongPathType f).content.magic_ = f.content.magic_ ∧
        (self.setLongPathType f).content.version_ = f.content.version_ ∧
        (self.setLongPathType f).content.uname_ = f.content.uname_ ∧
        (self.setLongPathType f).content.gname_ = f.content.gname_) ∧
      ((self.setLongLinkType f).content.typeflag_ = ch 'K' ∧
        (self.setLongLinkType f).content.name_ = (self.setLongPathType f).content.name_ ∧
        (self.setLongLinkType f).content.mtime_ = (self.setLongPathType f).content.mtime_ ∧
        (self.setLongLinkType f).content.mode_ = f.content.mode_ ∧
        (self.setLongLinkType f).content.uid_ = f.content.uid_ ∧
        (self.setLongLinkType f).content.gid_ = f.content.gid_ ∧
        (self.setLongLinkType f).content.size_ = f.content.size_ ∧
        (self.setLongLinkType f).content.linkname_ = f.content.linkname_ ∧
        (self.setLongLinkType f).content.magic_ = f.content.magic_ ∧
        (self.setLongLinkType f).content.version_ = f.content.version_ ∧
        (self.setLongLinkType f).content.uname_ = f.content.uname_ ∧
        (self.setLongLinkType f).content.gname_ = f.content.gname_) := by
  have hname : (cstrz "././@LongLink").takeWhile (fun b => b ≠ 0) ++ [0]
      = cstrz "././@LongLink" := by decide
  have hfmt : (fmtOctal 64 11 0).take (12 - 1) ++ [0] = cstrz "00000000000" := by decide
  refine ⟨⟨rfl, ?_, ?_, rfl, rfl, rfl, rfl, rfl, rfl, rfl, rfl, rfl⟩,
    ⟨rfl, rfl, rfl, rfl, rfl, rfl, rfl, rfl, rfl, rfl, rfl, rfl⟩⟩
  · show (strcpy f.content.name_ (cstrz "././@LongLink")).take 14 = _
    unfold strcpy
    rw [hname]
    exact take_poke f.content.name_ (cstrz "././@LongLink")
  · show (snprintf f.content.mtime_ 12 (fmtOctal 64 11 0)).take 12 = _
    unfold snprintf
    rw [hfmt]
    exact take_poke f.content.mtime_ (cstrz "00000000000")

/-! ## The name member of a long path -/

set_option maxRecDepth 100000 in
/-- C18 as stated fails: for a path of 150 bytes the name member is all NUL, not the
first 100 bytes of the path. -/
theorem long_path_name_counterexample :
    ∃ h, TarHeader.new exampleStat (List.replicate 150 (ch 'a')) none false = some h ∧
      h.content.name_ = List.replicate 100 0 ∧
      h.content.name_ ≠ (List.replicate 150 (ch 'a')).take 100 := by
  have hsome : (TarHeader.new exampleStat (List.replicate 150 (ch 'a')) none
      false).isSome = true := by decide
  obtain ⟨h, hq⟩ := Option.isSome_iff_exists.mp hsome
  have hn : h.content.name_ = List.replicate 100 0 := by
    rw [new_name_field _ _ _ _ h hq, if_neg]
    rw [List.length_replicate]
    decide
  refine ⟨h, hq, hn, ?_⟩
  rw [hn]
  decide

/-- C18, amended: for a path longer than 100 bytes the constructor copies nothing of the
path: the name member of the real header is 100 NUL bytes; its size and typeflag members
are those of the header built for any other path with the same stat, link and
hard-link flag. -/
theorem long_path_name (sb : Stat) (tarpath : Path) (link : Option Path)
    (is_hard_link : Bool) (h : TarHeader) (hlong : tarpath.length > 100)
    (hnew : TarHeader.new sb tarpath link is_hard_link = some h) :
    h.content.name_ = List.replicate 100 0 ∧
      ∀ (short : Path) (h' : TarHeader),
        TarHeader.new sb short link is_hard_link = some h' →
        h.content.size_ = h'.content.size_ ∧ h.content.typeflag_ = h'.content.typeflag_ := by
  refine ⟨?_, ?_⟩
  · rw [new_name_field _ _ _ _ h hnew, if_neg (by omega)]
  · intro short h' hnew'
    refine ⟨?_, ?_⟩
    · rw [new_size_field _ _ _ _ h hnew, new_size_field _ _ _ _ h' hnew']
    · have h1 := new_typeflag_field _ _ _ _ h hnew
      have h2 := new_typeflag_field _ _ _ _ h' hnew'
      rw [h1] at h2
      exact Option.some.inj h2

set_option maxRecDepth 100000 in
/-- Witness for the amended C18: a path of 150 bytes. -/
theorem long_path_name_witness :
    ∃ h, TarHeader.new exampleStat (List.replicate 150 (ch 'a')) none false = some h ∧
      h.content.name_ = List.replicate 100 0 := by
  have hsome : (TarHeader.new exampleStat (List.replicate 150 (ch 'a')) none
      false).isSome = true := by decide
  obtain ⟨h, hq⟩ := Option.isSome_iff_exists.mp hsome
  exact ⟨h, hq, (long_path_name exampleStat (List.replicate 150 (ch 'a')) none false h
    (by rw [List.length_replicate]; decide) hq).1⟩

/-! ## The classification of a remote listing -/

theorem atol_range (s : List Byte) : -(2 ^ 63) ≤ atol s ∧ atol s < 2 ^ 63 := by
  unfold atol
  split
  · norm_num
  · split_ifs <;> omega

theorem toOffT_toSizeT (x : Int) (h0 : -(2 ^ 63) ≤ x) (h1 : x < 2 ^ 63) :
    toOffT (toSizeT x) = x := by
  unfold toOffT toSizeT
  have hm : ((x % 2 ^ 64).toNat : Int) = x % 2 ^ 64 :=
    Int.toNat_of_nonneg (Int.emod_nonneg _ (by norm_num))
  have hlt : (x % 2 ^ 64).toNat < 2 ^ 64 := by
    have : ((x % 2 ^ 64).toNat : Int) < ((2 ^ 64 : Nat) : Int) := by
      rw [hm]
      exact_mod_cast Int.emod_lt_of_pos x (by norm_num)
    exact_mod_cast this
  rw [Nat.mod_eq_of_lt hlt]
  by_cases hx : 0 ≤ x
  · have he : x % 2 ^ 64 = x := Int.emod_eq_of_lt hx (by omega)
    have hn : (x % 2 ^ 64).toNat < 2 ^ 63 := by
      have : ((x % 2 ^ 64).toNat : Int) < ((2 ^ 63 : Nat) : Int) := by
        rw [hm, he]
        exact_mod_cast h1
      exact_mod_cast this
    rw [if_pos hn, hm]
    simp only [he]
  · have he : x % 2 ^ 64 = x + 2 ^ 64 := by
      rw [← Int.add_emod_self, Int.emod_eq_of_lt (by omega) (by omega)]
    have hn : ¬ (x % 2 ^ 64).toNat < 2 ^ 63 := by
      intro hc
      have : ((x % 2 ^ 64).toNat : Int) < ((2 ^ 63 : Nat) : Int) := by exact_mod_cast hc
      rw [hm, he] at this
      norm_num at this
      omega
    rw [if_neg hn, hm]
    simp only [he]
    omega

theorem code_sizeCheck_iff (tfn : TarFileName) (siz : Nat) :
    ((tfn.type ≠ TarContents.REG_FILE ∧ tfn.size = siz) ∨
        (tfn.type = TarContents.REG_FILE ∧ tfn.size = 0)) ↔
      specSizeCheck tfn siz = true := by
  unfold specSizeCheck isIndexSegment
  by_cases h : tfn.type = TarContents.REG_FILE <;> simp [h]

/-- The body of the loop, case by case. -/
theorem listLine_eq (A : Absent) (storage : Storage) (r : ListResult)
    (size file_name : List Byte) :
    listLine A storage r size file_name =
      match A.parseFileName file_name with
      | some tfn =>
        if specSizeCheck tfn (listedSize size) = true then
          { r with
            files := r.files ++ [tfn]
            contents := r.contents.assign (A.prepend tfn.path storage.storage_location)
              (listedStat tfn size) }
        else { r with bad_files := r.bad_files ++ [tfn] }
      | none => { r with other_files := r.other_files ++ [file_name] } := by
  unfold listLine
  cases hp : A.parseFileName file_name with
  | none => rfl
  | some tfn =>
    simp only []
    by_cases hc : specSizeCheck tfn (listedSize size) = true
    · have hc' : (tfn.type ≠ TarContents.REG_FILE ∧ tfn.size = toSizeT (atol size)) ∨
          (tfn.type = TarContents.REG_FILE ∧ tfn.size = 0) :=
        (code_sizeCheck_iff tfn _).mpr hc
      rw [if_pos hc, if_pos hc']
      simp only [listedStat, FileStat.zero, toOffT_toSizeT _ (atol_range size).1
        (atol_range size).2]
    · have hc' : ¬ ((tfn.type ≠ TarContents.REG_FILE ∧ tfn.size = toSizeT (atol size)) ∨
          (tfn.type = TarContents.REG_FILE ∧ tfn.size = 0)) :=
        fun h => hc ((code_sizeCheck_iff tfn _).mp h)
      rw [if_neg hc, if_neg hc']

theorem listLoop_nil (A : Absent) (storage : Storage) (r : ListResult) :
    listLoop A storage [] r = r := rfl

theorem listLoop_cons (A : Absent) (storage : Storage) (l : List Byte × List Byte)
    (ls : List (List Byte × List Byte)) (r : ListResult) :
    listLoop A storage (l :: ls) r = listLoop A storage ls (listLine A storage r l.1 l.2) :=
  rfl

theorem listLoop_append (A : Absent) (storage : Storage)
    (l1 l2 : List (List Byte × List Byte)) (r : ListResult) :
    listLoop A storage (l1 ++ l2) r = listLoop A storage l2 (listLoop A storage l1 r) := by
  unfold listLoop
  rw [List.foldl_append]

theorem listLoop_files (A : Absent) (storage : Storage)
    (lines : List (List Byte × List Byte)) (r : ListResult) :
    (listLoop A storage lines r).files = r.files ++ lines.filterMap (goodFile A) ∧
      (listLoop A storage lines r).bad_files = r.bad_files ++ lines.filterMap (badFile A) ∧
      (listLoop A storage lines r).other_files = r.other_files ++
        (lines.filter (fun l => (A.parseFileName l.2).isNone)).map Prod.snd := by
  induction lines generalizing r with
  | nil => simp [listLoop_nil]
  | cons l ls ih =>
    rw [listLoop_cons]
    obtain ⟨h1, h2, h3⟩ := ih (listLine A storage r l.1 l.2)
    rw [h1, h2, h3, listLine_eq]
    cases hp : A.parseFileName l.2 with
    | none =>
      simp [goodFile, badFile, hp, List.filterMap_cons, List.filter_cons]
    | some tfn =>
      by_cases hc : specSizeCheck tfn (listedSize l.1) = true
      · simp [goodFile, badFile, hp, hc, List.filterMap_cons, List.filter_cons,
          Option.filter]
      · simp [goodFile, badFile, hp, hc, List.filterMap_cons, List.filter_cons,
          Option.filter]

/-- C12: `listBeakFiles` on an rclone storage, after a successful `rclone ls`, adds to
the good list exactly the names of the lines that decode and pass the size check (the
size in the name equals the listed size for a payload segment, is zero for an index
segment), to `bad_files` the names that decode and fail the check, and to
`other_files` the file names that do not decode, each in the order of the lines. -/
theorem listing_classification (A : Absent) (storage : Storage) (listing : Listing)
    (init : ListResult) (hs : storage.type = StorageType.RCloneStorage) :
    ∃ r, listBeakFiles A storage RC.OK listing init
        = some (if listing.err = true then RC.ERR else RC.OK, r) ∧
      r.files = init.files ++ listing.lines.filterMap (goodFile A) ∧
      r.bad_files = init.bad_files ++ listing.lines.filterMap (badFile A) ∧
      r.other_files = init.other_files ++
        (listing.lines.filter (fun l => (A.parseFileName l.2).isNone)).map Prod.snd := by
  refine ⟨listLoop A storage listing.lines init, ?_, listLoop_files A storage _ init⟩
  unfold listBeakFiles
  rw [if_neg (by simp [hs])]
  simp only [RC.isErr]
  split_ifs <;> simp_all

/-- Witness for C12: of the four lines of the example listing two are good, one is bad
and one is no segment. -/
theorem listing_classification_witness :
    ∃ r, listBeakFiles exampleAbsent exampleStorage RC.OK exampleListing emptyResult
        = some (RC.OK, r) ∧
      r.files = [⟨TarContents.REG_FILE, 1000, 5, 0, cstr "z"⟩,
        ⟨TarContents.SMALL_FILES_TAR, 2000, 7, 2048, cstr "s"⟩] ∧
      r.bad_files = [⟨TarContents.SMALL_FILES_TAR, 2000, 7, 2048, cstr "s"⟩] ∧
      r.other_files = [cstr "other"] := by
  obtain ⟨r, h0, h1, h2, h3⟩ := listing_classification exampleAbsent exampleStorage
    exampleListing emptyResult rfl
  refine ⟨r, h0, ?_, ?_, ?_⟩
  · rw [h1]; decide
  · rw [h2]; decide
  · rw [h3]; decide

theorem listLoop_contents (A : Absent) (storage : Storage)
    (lines : List (List Byte × List Byte)) (r : ListResult) :
    (listLoop A storage lines r).contents
      = lines.foldl (contentsStep A storage) r.contents := by
  induction lines generalizing r with
  | nil => rfl
  | cons l ls ih =>
    rw [listLoop_cons, ih, List.foldl_cons, listLine_eq]
    congr 1
    unfold contentsStep goodFile contentsKey
    cases hp : A.parseFileName l.2 with
    | none => simp [Option.filter]
    | some tfn =>
      by_cases hc : specSizeCheck tfn (listedSize l.1) = true
      · simp [hc, Option.filter]
      · simp [hc, Option.filter]

theorem foldl_contentsStep_other (A : Absent) (storage : Storage)
    (lines : List (List Byte × List Byte)) (c : PathMap FileStat) (k : Path)
    (h : ∀ l ∈ lines, ∀ t, goodFile A l = some t → contentsKey A storage t ≠ k) :
    (lines.foldl (contentsStep A storage) c) k = c k := by
  induction lines generalizing c with
  | nil => rfl
  | cons l ls ih =>
    rw [List.foldl_cons, ih _ (fun l' hl' => h l' (List.mem_cons_of_mem _ hl'))]
    unfold contentsStep
    cases hg : goodFile A l with
    | none => rfl
    | some t =>
      have hne := h l (List.mem_cons_self _ _) t hg
      simp only [PathMap.assign]
      rw [if_neg (fun e => hne e.symm)]

theorem goodFile_of (A : Absent) (size name : List Byte) (tfn : TarFileName)
    (hp : A.parseFileName name = some tfn) (hc : specSizeCheck tfn (listedSize size) = true) :
    goodFile A (size, name) = some tfn := by
  simp [goodFile, hp, Option.filter, hc]

theorem goodFile_bad (A : Absent) (size name : List Byte) (tfn : TarFileName)
    (hp : A.parseFileName name = some tfn)
    (hc : specSizeCheck tfn (listedSize size) = false) :
    goodFile A (size, name) = none ∧ badFile A (size, name) = some tfn := by
  simp [goodFile, badFile, hp, Option.filter, hc]

theorem listBeakFiles_ok (A : Absent) (storage : Storage)
    (lines : List (List Byte × List Byte)) (init : ListResult)
    (hs : storage.type = StorageType.RCloneStorage) :
    listBeakFiles A storage RC.OK ⟨lines, false⟩ init
      = some (RC.OK, listLoop A storage lines init) := by
  unfold listBeakFiles
  rw [if_neg (by simp [hs])]
  simp [RC.isErr]

/-- C13: on an rclone storage, after a successful `rclone ls` and for a listing that
tokenizes without error, a line whose name decodes but whose size check fails is put in
`bad_files`, leaves the contents map as it was, and changes nothing else: the run
returns `RC::OK`, and its good list, other list and contents map are those of the run
without the line.  A good line assigns to its path under the storage location a stat
with `st_size` the listed size and mtime the seconds and nanoseconds of its name, and
the entry is still there at the end unless a later good line has the same key. -/
theorem bad_line_is_skipped (A : Absent) (storage : Storage) (init : ListResult)
    (pre post : List (List Byte × List Byte)) (size name : List Byte) (tfn : TarFileName)
    (hs : storage.type = StorageType.RCloneStorage)
    (hparse : A.parseFileName name = some tfn)
    (hbad : specSizeCheck tfn (listedSize size) = false) :
    (∃ r r', listBeakFiles A storage RC.OK ⟨pre ++ [(size, name)] ++ post, false⟩ init
          = some (RC.OK, r) ∧
        listBeakFiles A storage RC.OK ⟨pre ++ post, false⟩ init = some (RC.OK, r') ∧
        r.files = r'.files ∧ r.other_files = r'.other_files ∧ r.contents = r'.contents ∧
        ∃ b1 b2, r.bad_files = b1 ++ [tfn] ++ b2 ∧ r'.bad_files = b1 ++ b2) ∧
      (∀ r0 : ListResult, (listLine A storage r0 size name).contents = r0.contents ∧
        (listLine A storage r0 size name).bad_files = r0.bad_files ++ [tfn]) ∧
      (∀ (lines1 lines2 : List (List Byte × List Byte)) (size2 name2 : List Byte)
          (tfn2 : TarFileName),
        A.parseFileName name2 = some tfn2 →
        specSizeCheck tfn2 (listedSize size2) = true →
        (∀ l ∈ lines2, ∀ t, goodFile A l = some t →
          contentsKey A storage t ≠ contentsKey A storage tfn2) →
        ∃ r, listBeakFiles A storage RC.OK ⟨lines1 ++ [(size2, name2)] ++ lines2, false⟩
            init = some (RC.OK, r) ∧
          r.contents (contentsKey A storage tfn2)
            = some ⟨0, atol size2, ⟨tfn2.secs, tfn2.nsecs⟩⟩) := by
  obtain ⟨hg, hb⟩ := goodFile_bad A size name tfn hparse hbad
  refine ⟨?_, ?_, ?_⟩
  · refine ⟨_, _, listBeakFiles_ok A storage _ init hs, listBeakFiles_ok A storage _ init hs,
      ?_, ?_, ?_, ?_⟩
    · rw [(listLoop_files A storage _ init).1, (listLoop_files A storage _ init).1]
      simp [List.filterMap_append, hg]
    · rw [(listLoop_files A storage _ init).2.2, (listLoop_files A storage _ init).2.2]
      simp [List.filter_append, List.filter_cons, hparse]
    · rw [listLoop_contents, listLoop_contents]
      simp only [List.foldl_append, List.foldl_cons, List.foldl_nil]
      congr 1
      simp only [contentsStep, hg]
    · refine ⟨init.bad_files ++ pre.filterMap (badFile A), post.filterMap (badFile A), ?_, ?_⟩
      · rw [(listLoop_files A storage _ init).2.1]
        simp [List.filterMap_append, hb]
      · rw [(listLoop_files A storage _ init).2.1]
        simp [List.filterMap_append]
  · intro r0
    rw [listLine_eq, hparse]
    simp [hbad]
  · intro lines1 lines2 size2 name2 tfn2 hp2 hc2 hlater
    refine ⟨_, listBeakFiles_ok A storage _ init hs, ?_⟩
    rw [listLoop_contents]
    simp only [List.foldl_append, List.foldl_cons, List.foldl_nil]
    rw [foldl_contentsStep_other A storage lines2 _ _ hlater]
    simp only [contentsStep, goodFile_of A size2 name2 tfn2 hp2 hc2, PathMap.assign,
      if_true, listedStat]

/-- Witness for C13: the example listing, whose third line is a payload segment with
the wrong size. -/
theorem bad_line_is_skipped_witness :
    ∃ r r', listBeakFiles exampleAbsent exampleStorage RC.OK
          ⟨[(cstr "12288", cstr "z"), (cstr "2048", cstr "s")] ++ [(cstr "5", cstr "s")]
            ++ [(cstr "7", cstr "other")], false⟩ emptyResult = some (RC.OK, r) ∧
        listBeakFiles exampleAbsent exampleStorage RC.OK
          ⟨[(cstr "12288", cstr "z"), (cstr "2048", cstr "s")]
            ++ [(cstr "7", cstr "other")], false⟩ emptyResult = some (RC.OK, r') ∧
        r.files = r'.files ∧ r.other_files = r'.other_files ∧ r.contents = r'.contents ∧
        ∃ b1 b2, r.bad_files
            = b1 ++ [⟨TarContents.SMALL_FILES_TAR, 2000, 7, 2048, cstr "s"⟩] ++ b2 ∧
          r'.bad_files = b1 ++ b2 :=
  (bad_line_is_skipped exampleAbsent exampleStorage emptyResult
    [(cstr "12288", cstr "z"), (cstr "2048", cstr "s")] [(cstr "7", cstr "other")]
    (cstr "5") (cstr "s") ⟨TarContents.SMALL_FILES_TAR, 2000, 7, 2048, cstr "s"⟩
    rfl (by decide) (by decide)).1

/-! ## The rclone invocation of a push -/

theorem foldl_includeList (fl : List TarFileName) (acc : List Byte) :
    fl.foldl (fun acc tfn => acc ++ tfn.path ++ cstr "\n") acc = acc ++ includeList fl := by
  induction fl generalizing acc with
  | nil => simp [includeList]
  | cons t ts ih =>
    rw [List.foldl_cons, ih, includeList]
    simp [List.append_assoc]

/-- C14: on an rclone storage `sendBeakFilesToStorage` invokes `rclone` with the
arguments `copy`, `--include-from`, the temporary file, the directory and the storage
location when a file list is given, the temporary file holding the path of each file of
the list followed by a newline, in list order; with the arguments `copy`, the directory
and the storage location when `files` is NULL; it returns what that invocation
returns. -/
theorem send_invocation (mkTempFile : List Byte → List Byte → Path)
    (sys_invoke : InvokeCall → RC) (dir : Path) (storage : Storage)
    (hs : storage.type = StorageType.RCloneStorage) :
    (∀ files : List TarFileName,
        sendBeakFilesToStorage mkTempFile sys_invoke dir storage (some files)
          = some ⟨includeList files,
              ⟨cstr "rclone", [cstr "copy", cstr "--include-from",
                mkTempFile (cstr "beak_fetching") (includeList files), dir,
                storage.storage_location]⟩,
              sys_invoke ⟨cstr "rclone", [cstr "copy", cstr "--include-from",
                mkTempFile (cstr "beak_fetching") (includeList files), dir,
                storage.storage_location]⟩⟩) ∧
      sendBeakFilesToStorage mkTempFile sys_invoke dir storage none
        = some ⟨[], ⟨cstr "rclone", [cstr "copy", dir, storage.storage_location]⟩,
            sys_invoke ⟨cstr "rclone", [cstr "copy", dir, storage.storage_location]⟩⟩ := by
  refine ⟨?_, ?_⟩
  · intro files
    unfold sendBeakFilesToStorage
    rw [if_neg (by simp [hs])]
    simp only [foldl_includeList, List.nil_append, Option.isSome_some, if_true,
      List.cons_append, List.singleton_append]
  · unfold sendBeakFilesToStorage
    rw [if_neg (by simp [hs])]
    simp

/-- Witness for C14: two files pushed from `/m` to the example storage. -/
theorem send_invocation_witness :
    sendBeakFilesToStorage (fun _ _ => cstr "/tmp/t") (fun _ => RC.ERR) (cstr "/m")
        exampleStorage
        (some [⟨TarContents.REG_FILE, 1000, 5, 0, cstr "z"⟩,
          ⟨TarContents.SMALL_FILES_TAR, 2000, 7, 2048, cstr "s"⟩])
      = some ⟨cstr "z\ns\n",
          ⟨cstr "rclone", [cstr "copy", cstr "--include-from", cstr "/tmp/t", cstr "/m",
            cstr "/r"]⟩, RC.ERR⟩ :=
  ((send_invocation (fun _ _ => cstr "/tmp/t") (fun _ => RC.ERR) (cstr "/m") exampleStorage
    rfl).1 _).trans (by decide)

/-! ## The path in a verbose line of rclone -/

theorem bufAt_append_left (l1 l2 : List Byte) (i : Nat) (h : i < l1.length) :
    bufAt (l1 ++ l2) i = bufAt l1 i := List.getD_append l1 l2 0 i h

theorem bufAt_append_right (l1 l2 : List Byte) (i : Nat) (h : l1.length ≤ i) :
    bufAt (l1 ++ l2) i = bufAt l2 (i - l1.length) := List.getD_append_right l1 l2 0 i h

theorem bufAt_append_add (l1 l2 : List Byte) (i : Nat) :
    bufAt (l1 ++ l2) (l1.length + i) = bufAt l2 i := by
  rw [bufAt_append_right _ _ _ (by omega), Nat.add_sub_cancel_left]

theorem noSpaceColon_spec (l : List Byte) (h : noSpaceColon l = true) (i : Nat)
    (hi : i + 1 < l.length) : ¬ (bufAt l i = ch ' ' ∧ bufAt l (i + 1) = ch ':') := by
  induction l generalizing i with
  | nil => simp at hi
  | cons a r ih =>
    cases r with
    | nil => simp at hi
    | cons b r =>
      simp only [noSpaceColon, Bool.and_eq_true, Bool.not_eq_true', Bool.and_eq_false_imp,
        beq_iff_eq] at h
      cases i with
      | zero =>
        intro hc
        simp only [bufAt, List.getD_cons_zero, List.getD_cons_succ] at hc
        have := h.1 hc.1
        simp [hc.2] at this
      | succ i =>
        have := ih h.2 i (by simpa using hi)
        simpa [bufAt, List.getD_cons_succ] using this

theorem noColonSpace_spec (l : List Byte) (h : noColonSpace l = true) (i : Nat)
    (hi : i + 1 < l.length) : ¬ (bufAt l i = ch ':' ∧ bufAt l (i + 1) = ch ' ') := by
  induction l generalizing i with
  | nil => simp at hi
  | cons a r ih =>
    cases r with
    | nil => simp at hi
    | cons b r =>
      simp only [noColonSpace, Bool.and_eq_true, Bool.not_eq_true', Bool.and_eq_false_imp,
        beq_iff_eq] at h
      cases i with
      | zero =>
        intro hc
        simp only [bufAt, List.getD_cons_zero, List.getD_cons_succ] at hc
        have := h.1 hc.1
        simp [hc.2] at this
      | succ i =>
        have := ih h.2 i (by simpa using hi)
        simpa [bufAt, List.getD_cons_succ] using this

theorem scanFromLoop_spec (buf : List Byte) (lim c0 : Nat) (hc0 : c0 < lim)
    (hmatch : bufAt buf (c0 - 1) = ch ' ' ∧ bufAt buf c0 = ch ':' ∧
      bufAt buf (c0 + 1) = ch ' ')
    (hno : ∀ c, 1 ≤ c → c < c0 → ¬ (bufAt buf (c - 1) = ch ' ' ∧ bufAt buf c = ch ':' ∧
      bufAt buf (c + 1) = ch ' ')) :
    ∀ fuel from_, 1 ≤ from_ → from_ ≤ c0 → c0 - from_ < fuel →
      scanFromLoop buf lim fuel from_ = c0 + 2 := by
  intro fuel
  induction fuel with
  | zero => intro from_ _ _ h; omega
  | succ fuel ih =>
    intro from_ h1 h2 h3
    unfold scanFromLoop
    rw [if_pos (by omega)]
    by_cases hm : bufAt buf (from_ - 1) = ch ' ' ∧ bufAt buf from_ = ch ':' ∧
        bufAt buf (from_ + 1) = ch ' '
    · rw [if_pos hm]
      have : ¬ from_ < c0 := fun hlt => hno from_ h1 hlt hm
      omega
    · rw [if_neg hm]
      have hne : from_ ≠ c0 := fun e => hm (e ▸ hmatch)
      exact ih (from_ + 1) (by omega) (by omega) (by omega)

theorem scanToLoop_spec (buf : List Byte) (from_ t0 : Nat) (hft : from_ ≤ t0)
    (hmatch : from_ < t0 → bufAt buf t0 = ch ':' ∧ bufAt buf (t0 + 1) = ch ' ') :
    ∀ t, t0 ≤ t →
      (∀ s, t0 < s → s ≤ t → ¬ (bufAt buf s = ch ':' ∧ bufAt buf (s + 1) = ch ' ')) →
      scanToLoop buf from_ t = t0 := by
  intro t
  induction t with
  | zero =>
    intro h _
    unfold scanToLoop
    omega
  | succ t ih =>
    intro h hno
    unfold scanToLoop
    by_cases he : t0 = t + 1
    · subst he
      by_cases hgt : t + 1 > from_
      · rw [if_pos hgt, if_pos (hmatch hgt)]
      · rw [if_neg hgt]
    · rw [if_pos (by omega), if_neg (hno (t + 1) (by omega) (by omega))]
      exact ih (by omega) (fun s hs1 hs2 => hno s hs1 (by omega))

theorem rcloneLine_eq (pre path status : List Byte) :
    rcloneLine pre path status
      = pre ++ ([ch ' ', ch ':', ch ' '] ++ (path ++ ([ch ':', ch ' '] ++ status))) := by
  have h1 : cstr " : " = [ch ' ', ch ':', ch ' '] := rfl
  have h2 : cstr ": " = [ch ':', ch ' '] := rfl
  unfold rcloneLine
  rw [h1, h2]
  simp only [List.append_assoc]

theorem rcloneLine_length (pre path status : List Byte) :
    (rcloneLine pre path status).length
      = pre.length + 3 + path.length + 2 + status.length := by
  rw [rcloneLine_eq]
  simp only [List.length_append, List.length_cons, List.length_nil]
  omega

theorem bufAt_line (pre path status : List Byte) :
    (∀ i, i < pre.length → bufAt (rcloneLine pre path status) i = bufAt pre i) ∧
      bufAt (rcloneLine pre path status) pre.length = ch ' ' ∧
      bufAt (rcloneLine pre path status) (pre.length + 1) = ch ':' ∧
      bufAt (rcloneLine pre path status) (pre.length + 2) = ch ' ' ∧
      bufAt (rcloneLine pre path status) (pre.length + 3 + path.length) = ch ':' ∧
      bufAt (rcloneLine pre path status) (pre.length + 3 + path.length + 1) = ch ' ' ∧
      ∀ n, bufAt (rcloneLine pre path status) (pre.length + 3 + path.length + 2 + n)
        = bufAt status n := by
  rw [rcloneLine_eq]
  have hsep : ∀ (l : List Byte) (j : Nat),
      bufAt (pre ++ ([ch ' ', ch ':', ch ' '] ++ l)) (pre.length + 3 + j) = bufAt l j := by
    intro l j
    rw [Nat.add_assoc, bufAt_append_add]
    exact bufAt_append_add [ch ' ', ch ':', ch ' '] l j
  have hpath : ∀ (j : Nat),
      bufAt (pre ++ ([ch ' ', ch ':', ch ' '] ++ (path ++ ([ch ':', ch ' '] ++ status))))
        (pre.length + 3 + path.length + j) = bufAt ([ch ':', ch ' '] ++ status) j := by
    intro j
    rw [Nat.add_assoc (pre.length + 3), hsep, bufAt_append_add]
  refine ⟨?_, ?_, ?_, ?_, ?_, ?_, ?_⟩
  · intro i hi
    exact bufAt_append_left _ _ i hi
  · exact bufAt_append_add pre _ 0
  · exact bufAt_append_add pre _ 1
  · exact bufAt_append_add pre _ 2
  · exact hpath 0
  · exact hpath 1
  · intro n
    rw [Nat.add_assoc (pre.length + 3 + path.length), hpath]
    exact bufAt_append_add [ch ':', ch ' '] status n

theorem scanFrom_line (pre path status : List Byte)
    (hpre : noSpaceColon pre = true)
    (hlen : (rcloneLine pre path status).length ≤ 4097) :
    scanFrom (rcloneLine pre path status) (rcloneLine pre path status).length
      = pre.length + 3 := by
  obtain ⟨hp, h0, h1, h2, _, _, _⟩ := bufAt_line pre path status
  have hl := rcloneLine_length pre path status
  have hlim : ((rcloneLine pre path status).length + 2 ^ 64 - 1) % 2 ^ 64
      = pre.length + path.length + status.length + 4 := by
    norm_num
    omega
  unfold scanFrom
  rw [hlim]
  refine scanFromLoop_spec _ _ (pre.length + 1) (by omega) ⟨h0, h1, h2⟩ ?_ _ 1
    (le_refl 1) (by omega) (by omega)
  intro c hc1 hc2 hm
  by_cases hc : c < pre.length
  · rw [hp (c - 1) (by omega), hp c hc] at hm
    have := noSpaceColon_spec pre hpre (c - 1) (by omega)
    rw [Nat.sub_add_cancel hc1] at this
    exact this ⟨hm.1, hm.2.1⟩
  · have hce : c = pre.length := by omega
    rw [hce, h0] at hm
    exact absurd hm.2.1 (by decide)

theorem scanTo_line (pre path status : List Byte)
    (hstatus : noColonSpace status = true)
    (hlen : (rcloneLine pre path status).length ≤ 4097) :
    scanTo (rcloneLine pre path status) (rcloneLine pre path status).length
        (pre.length + 3)
      = pre.length + 3 + path.length := by
  obtain ⟨_, _, _, _, h3, h4, hs⟩ := bufAt_line pre path status
  have hl := rcloneLine_length pre path status
  have hlim : ((rcloneLine pre path status).length + 2 ^ 64 - 2) % 2 ^ 64
      = pre.length + 3 + path.length + status.length := by
    norm_num
    omega
  unfold scanTo
  rw [hlim]
  refine scanToLoop_spec _ _ (pre.length + 3 + path.length) (by omega) (fun _ => ⟨h3, h4⟩)
    _ (by omega) ?_
  intro s hs1 hs2 hm
  by_cases hc : s = pre.length + 3 + path.length + 1
  · rw [hc, h4] at hm
    exact absurd hm.1 (by decide)
  · obtain ⟨n, hn⟩ : ∃ n, s = pre.length + 3 + path.length + 2 + n :=
      ⟨s - (pre.length + 3 + path.length + 2), by omega⟩
    rw [hn, hs n, Nat.add_assoc (pre.length + 3 + path.length + 2), hs (n + 1)] at hm
    exact noColonSpace_spec status hstatus n (by omega) hm

theorem copiedFile_line (storage : Storage) (pre path status : List Byte)
    (hpre : noSpaceColon pre = true) (hstatus : noColonSpace status = true)
    (hlen : (rcloneLine pre path status).length ≤ 4097) :
    copiedFile storage (rcloneLine pre path status) (rcloneLine pre path status).length
      = storage.storage_location ++ cstr "/" ++ path := by
  unfold copiedFile
  simp only []
  rw [scanFrom_line pre path status hpre hlen, scanTo_line pre path status hstatus hlen]
  have hsub : (pre.length + 3 + path.length + 2 ^ 64 - (pre.length + 3)) % 2 ^ 64
      = path.length := by
    have := rcloneLine_length pre path status
    norm_num
    omega
  rw [hsub, rcloneLine_eq]
  congr 1
  have hd : List.drop (pre.length + 3)
      (pre ++ ([ch ' ', ch ':', ch ' '] ++ (path ++ ([ch ':', ch ' '] ++ status))))
        = path ++ ([ch ':', ch ' '] ++ status) := by
    rw [List.drop_append]
    rfl
  rw [hd]
  exact List.take_left path _

/-- The callback on a buffer that is exactly one line: for a verbose line
`<timestamp> <level> : <path>: <status>` in which no colon of the timestamp and level
follows a space and no space of the status follows a colon, the output callback
extracts exactly `<path>`, also when the path holds ` : ` or `: `, and looks up
`storage_location + "/" + <path>` in the recorded file sizes. -/
theorem copied_path_extracted (A : Absent) (storage : Storage) (stats : Stats)
    (pre path status : List Byte) (hpre : noSpaceColon pre = true)
    (hstatus : noColonSpace status = true)
    (hlen : (rcloneLine pre path status).length ≤ 4097) :
    copiedFile storage (rcloneLine pre path status) (rcloneLine pre path status).length
        = storage.storage_location ++ cstr "/" ++ path ∧
      outputCallback A storage stats (rcloneLine pre path status)
          (rcloneLine pre path status).length
        = if stats.file_sizes.count (A.lookup (storage.storage_location ++ cstr "/" ++ path))
              ≠ 0 then
            { stats with
              size_files_stored := (stats.size_files_stored
                + (stats.file_sizes
                    (A.lookup (storage.storage_location ++ cstr "/" ++ path))).getD 0)
                  % 2 ^ 64
              num_files_stored := (stats.num_files_stored + 1) % 2 ^ 64 }
          else stats := by
  have h := copiedFile_line storage pre path status hpre hstatus hlen
  refine ⟨h, ?_⟩
  unfold outputCallback
  simp only [h]

/-- A buffer of one line whose path holds both ` : ` and `: `. -/
theorem copied_path_extracted_witness :
    copiedFile exampleStorage
        (rcloneLine (cstr "2018/01/29 20:05:36 INFO ") (cstr "code/a : b: c.tar")
          (cstr "Copied (new)\n"))
        (rcloneLine (cstr "2018/01/29 20:05:36 INFO ") (cstr "code/a : b: c.tar")
          (cstr "Copied (new)\n")).length
      = cstr "/r/code/a : b: c.tar" :=
  (copied_path_extracted exampleAbsent exampleStorage ⟨0, 0, 0, 0, 0, 0, 0, PathMap.empty⟩
    (cstr "2018/01/29 20:05:36 INFO ") (cstr "code/a : b: c.tar") (cstr "Copied (new)\n")
    (by decide) (by decide) (by decide)).1.trans (by decide)

/-- C19: the callback takes the whole buffer of a read for one line, and `invoke` hands
it whatever `read` returned.  When a buffer holds two verbose lines
`<pre1> : <path1>: <status1>` and `<pre2> : <path2>: <status2>`, the text extracted
starts at `<path1>` and ends with `<path2>`, with the status of the first line and the
timestamp and level of the second in between, so neither `<path1>` nor `<path2>` is
extracted or looked up. -/
theorem coalesced_lines_extracted (A : Absent) (storage : Storage) (stats : Stats)
    (pre1 path1 status1 pre2 path2 status2 : List Byte)
    (hpre : noSpaceColon pre1 = true) (hstatus : noColonSpace status2 = true)
    (hlen : (rcloneLine pre1 path1 status1 ++ rcloneLine pre2 path2 status2).length ≤ 4097) :
    copiedFile storage (rcloneLine pre1 path1 status1 ++ rcloneLine pre2 path2 status2)
        (rcloneLine pre1 path1 status1 ++ rcloneLine pre2 path2 status2).length
      = storage.storage_location ++ cstr "/"
          ++ (path1 ++ cstr ": " ++ status1 ++ pre2 ++ cstr " : " ++ path2) ∧
    outputCallback A storage stats
        (rcloneLine pre1 path1 status1 ++ rcloneLine pre2 path2 status2)
        (rcloneLine pre1 path1 status1 ++ rcloneLine pre2 path2 status2).length
      = if stats.file_sizes.count (A.lookup (storage.storage_location ++ cstr "/"
            ++ (path1 ++ cstr ": " ++ status1 ++ pre2 ++ cstr " : " ++ path2))) ≠ 0 then
          { stats with
            size_files_stored := (stats.size_files_stored
              + (stats.file_sizes (A.lookup (storage.storage_location ++ cstr "/"
                  ++ (path1 ++ cstr ": " ++ status1 ++ pre2 ++ cstr " : " ++ path2)))).getD 0)
                % 2 ^ 64
            num_files_stored := (stats.num_files_stored + 1) % 2 ^ 64 }
        else stats := by
  have e : rcloneLine pre1 path1 status1 ++ rcloneLine pre2 path2 status2
      = rcloneLine pre1 (path1 ++ cstr ": " ++ status1 ++ pre2 ++ cstr " : " ++ path2)
          status2 := by
    unfold rcloneLine
    simp only [List.append_assoc]
  rw [e] at hlen ⊢
  have h := copiedFile_line storage pre1
    (path1 ++ cstr ": " ++ status1 ++ pre2 ++ cstr " : " ++ path2) status2 hpre hstatus hlen
  refine ⟨h, ?_⟩
  unfold outputCallback
  simp only [h]

/-- Failing input for C19: two `Copied (new)` lines for the known files `/r/s.tar` and
`/r/t.tar` in one buffer: the file looked up is neither of them, and the statistics stay
as they are. -/
theorem coalesced_lines_extracted_witness :
    twoFileStats.file_sizes.count (cstr "/r/s.tar") = 1 ∧
      twoFileStats.file_sizes.count (cstr "/r/t.tar") = 1 ∧
      copiedFile exampleStorage
          (rcloneLine (cstr "2018/01/29 20:05:36 INFO ") (cstr "s.tar") (cstr "Copied (new)\n")
            ++ rcloneLine (cstr "2018/01/29 20:05:37 INFO ") (cstr "t.tar")
              (cstr "Copied (new)\n"))
          (rcloneLine (cstr "2018/01/29 20:05:36 INFO ") (cstr "s.tar") (cstr "Copied (new)\n")
            ++ rcloneLine (cstr "2018/01/29 20:05:37 INFO ") (cstr "t.tar")
              (cstr "Copied (new)\n")).length
        = cstr "/r/s.tar: Copied (new)\n2018/01/29 20:05:37 INFO  : t.tar" ∧
      outputCallback exampleAbsent exampleStorage twoFileStats
          (rcloneLine (cstr "2018/01/29 20:05:36 INFO ") (cstr "s.tar") (cstr "Copied (new)\n")
            ++ rcloneLine (cstr "2018/01/29 20:05:37 INFO ") (cstr "t.tar")
              (cstr "Copied (new)\n"))
          (rcloneLine (cstr "2018/01/29 20:05:36 INFO ") (cstr "s.tar") (cstr "Copied (new)\n")
            ++ rcloneLine (cstr "2018/01/29 20:05:37 INFO ") (cstr "t.tar")
              (cstr "Copied (new)\n")).length
        = twoFileStats :=
  have h := coalesced_lines_extracted exampleAbsent exampleStorage twoFileStats
    (cstr "2018/01/29 20:05:36 INFO ") (cstr "s.tar") (cstr "Copied (new)\n")
    (cstr "2018/01/29 20:05:37 INFO ") (cstr "t.tar") (cstr "Copied (new)\n")
    (by decide) (by decide) (by decide)
  ⟨by decide, by decide, h.1.trans (by decide), h.2.trans (if_neg (by decide))⟩

/-! ## The two-level tree of the cache -/

theorem loadLoop_append (A : Absent) (dir_stat : FileStat) (l1 l2 : List (Path × FileStat))
    (s : LoadState) :
    loadLoop A dir_stat (l1 ++ l2) s
      = (loadLoop A dir_stat l1 s).bind (loadLoop A dir_stat l2) := by
  induction l1 generalizing s with
  | nil => rfl
  | cons p ps ih =>
    simp only [List.cons_append, loadLoop]
    cases loadStep A dir_stat s p with
    | none => rfl
    | some s' => exact ih s'

theorem find_key_of_mem (l : List (Path × FileStat)) (x : Path × FileStat)
    (hnd : (l.map Prod.fst).Nodup) (hx : x ∈ l) :
    l.find? (fun y => decide (y.1 = x.1)) = some x := by
  induction l with
  | nil => simp at hx
  | cons a l ih =>
    rw [List.map_cons, List.nodup_cons] at hnd
    rcases List.mem_cons.mp hx with rfl | hx'
    · simp
    · have hne : a.1 ≠ x.1 := by
        intro e
        exact hnd.1 (e ▸ List.mem_map_of_mem Prod.fst hx')
      rw [List.find?_cons_of_neg _ (by simpa using hne)]
      exact ih hnd.2 hx'

theorem find_key_none (l : List (Path × FileStat)) (k : Path)
    (hk : ∀ x ∈ l, x.1 ≠ k) : l.find? (fun y => decide (y.1 = k)) = none := by
  rw [List.find?_eq_none]
  intro x hx
  simpa using hk x hx

theorem childrenOf_append (A : Absent) (l : List (Path × FileStat)) (x : Path × FileStat)
    (d : Path) :
    childrenOf A (l ++ [x]) d
      = childrenOf A l d ++ (if A.parent x.1 = some d then [x.1] else []) := by
  unfold childrenOf
  rw [List.filter_append, List.map_append]
  congr 1
  by_cases h : A.parent x.1 = some d <;> simp [List.filter_cons, h]

theorem treeOf_nil (A : Absent) (dir_stat : FileStat) :
    treeOf A dir_stat [] = PathMap.empty := by
  funext k
  simp [treeOf, childrenOf, PathMap.empty]

/-- One step of the loop takes the tree of `l` to the tree of `l ++ [x]`. -/
theorem loadStep_treeOf (A : Absent) (dir_stat : FileStat) (l : List (Path × FileStat))
    (x : Path × FileStat) (pe : Option Path) (d : Path)
    (hnd : ((l ++ [x]).map Prod.fst).Nodup) (hd : A.parent x.1 = some d)
    (hsep : ∀ y ∈ l ++ [x], y.1 ≠ d) :
    loadStep A dir_stat ⟨treeOf A dir_stat l, pe⟩ x
      = some ⟨treeOf A dir_stat (l ++ [x]), some d⟩ := by
  have hxd : x.1 ≠ d := hsep x (by simp)
  have hfd : l.find? (fun y => decide (y.1 = d)) = none :=
    find_key_none l d (fun y hy => hsep y (by simp [hy]))
  have hfd' : (l ++ [x]).find? (fun y => decide (y.1 = d)) = none :=
    find_key_none _ d hsep
  have hxl : ∀ y ∈ l, y.1 ≠ x.1 := by
    intro y hy e
    rw [List.map_append, List.nodup_append] at hnd
    exact hnd.2.2 (List.mem_map_of_mem Prod.fst hy) (by simp [e])
  -- the entry of the directory before the push
  have hde : (if (treeOf A dir_stat l).count d = 0
        then (treeOf A dir_stat l).assign d ⟨dir_stat, d, true, []⟩
        else treeOf A dir_stat l) d = some ⟨dir_stat, d, true, childrenOf A l d⟩ := by
    by_cases hc : childrenOf A l d = []
    · have : treeOf A dir_stat l d = none := by simp [treeOf, hfd, hc]
      simp [PathMap.count, this, PathMap.assign, hc]
    · have : treeOf A dir_stat l d = some ⟨dir_stat, d, true, childrenOf A l d⟩ := by
        simp [treeOf, hfd, hc]
      simp [PathMap.count, this]
  have hother : ∀ k, k ≠ d → (if (treeOf A dir_stat l).count d = 0
        then (treeOf A dir_stat l).assign d ⟨dir_stat, d, true, []⟩
        else treeOf A dir_stat l) k = treeOf A dir_stat l k := by
    intro k hk
    split_ifs
    · simp [PathMap.assign, hk]
    · rfl
  unfold loadStep
  simp only [hd]
  have hlook : (PathMap.assign (if (treeOf A dir_stat l).count d = 0
        then (treeOf A dir_stat l).assign d ⟨dir_stat, d, true, []⟩
        else treeOf A dir_stat l) x.1 ⟨x.2, x.1, false, []⟩) d
      = some ⟨dir_stat, d, true, childrenOf A l d⟩ := by
    rw [← hde]
    simp only [PathMap.assign]
    rw [if_neg (fun e => hxd e.symm)]
  rw [hlook]
  simp only [Option.some.injEq, LoadState.mk.injEq, and_true]
  funext k
  by_cases hkd : k = d
  · subst hkd
    have hch : childrenOf A (l ++ [x]) k = childrenOf A l k ++ [x.1] := by
      rw [childrenOf_append, if_pos hd]
    simp [PathMap.assign, treeOf, hfd', hch]
  · by_cases hkx : k = x.1
    · subst hkx
      have hf : (l ++ [x]).find? (fun y => decide (y.1 = x.1)) = some x :=
        find_key_of_mem _ x hnd (by simp)
      simp [PathMap.assign, hkd, treeOf, hf]
    · have hf : (l ++ [x]).find? (fun y => decide (y.1 = k))
          = l.find? (fun y => decide (y.1 = k)) := by
        rw [List.find?_append]
        have : [x].find? (fun y => decide (y.1 = k)) = none := by
          simp [List.find?_cons, Ne.symm hkx]
        rw [this]
        simp
      have hch : childrenOf A (l ++ [x]) k = childrenOf A l k := by
        rw [childrenOf_append, if_neg]
        · simp
        · rw [hd]
          intro e
          exact hkd (Option.some.inj e).symm
      simp only [PathMap.assign, if_neg hkd, if_neg hkx]
      rw [hother k hkd]
      simp only [treeOf, hf, hch]

theorem loadLoop_treeOf (A : Absent) (dir_stat : FileStat) (l : List (Path × FileStat))
    (hnd : (l.map Prod.fst).Nodup) (hparent : ∀ x ∈ l, (A.parent x.1).isSome = true)
    (hsep : ∀ x ∈ l, ∀ y ∈ l, A.parent y.1 ≠ some x.1) :
    ∃ pe, loadLoop A dir_stat l ⟨PathMap.empty, none⟩
      = some ⟨treeOf A dir_stat l, pe⟩ := by
  induction l using List.reverseRecOn with
  | nil => exact ⟨none, by rw [treeOf_nil]; rfl⟩
  | append_singleton l x ih =>
    have hnd' : (l.map Prod.fst).Nodup := by
      rw [List.map_append, List.nodup_append] at hnd
      exact hnd.1
    obtain ⟨pe, hpe⟩ := ih hnd' (fun y hy => hparent y (by simp [hy]))
      (fun a ha b hb => hsep a (by simp [ha]) b (by simp [hb]))
    obtain ⟨d, hd⟩ := Option.isSome_iff_exists.mp (hparent x (by simp))
    refine ⟨some d, ?_⟩
    have hstep := loadStep_treeOf A dir_stat l x pe d hnd hd
      (fun y hy e => hsep y hy x (by simp) (by rw [hd, e]))
    rw [loadLoop_append, hpe]
    show loadLoop A dir_stat [x] ⟨treeOf A dir_stat l, pe⟩ = _
    simp only [loadLoop, hstep]

theorem treeOf_file (A : Absent) (dir_stat : FileStat) (l : List (Path × FileStat))
    (x : Path × FileStat) (hnd : (l.map Prod.fst).Nodup) (hx : x ∈ l) :
    treeOf A dir_stat l x.1 = some ⟨x.2, x.1, false, []⟩ := by
  simp only [treeOf, find_key_of_mem l x hnd hx]

theorem treeOf_dir (A : Absent) (dir_stat : FileStat) (l : List (Path × FileStat))
    (x : Path × FileStat) (d : Path) (hx : x ∈ l) (hd : A.parent x.1 = some d)
    (hsep : ∀ y ∈ l, y.1 ≠ d) :
    treeOf A dir_stat l d = some ⟨dir_stat, d, true, childrenOf A l d⟩ ∧
      x.1 ∈ childrenOf A l d := by
  have hmem : x.1 ∈ childrenOf A l d := by
    unfold childrenOf
    exact List.mem_map_of_mem Prod.fst (List.mem_filter.mpr ⟨hx, by simpa using hd⟩)
  have hne : childrenOf A l d ≠ [] := List.ne_nil_of_mem hmem
  refine ⟨?_, hmem⟩
  simp only [treeOf, find_key_none l d hsep]
  rw [if_pos hne]

theorem childrenOf_nodup (A : Absent) (l : List (Path × FileStat)) (d : Path)
    (hnd : (l.map Prod.fst).Nodup) : (childrenOf A l d).Nodup := by
  unfold childrenOf
  exact hnd.sublist ((List.filter_sublist l).map Prod.fst)

theorem occurrences_eq_one (k : Path) (l : List Path) (hnd : l.Nodup) (hk : k ∈ l) :
    occurrences k l = 1 := by
  induction l with
  | nil => simp at hk
  | cons a l ih =>
    rw [List.nodup_cons] at hnd
    unfold occurrences
    rcases List.mem_cons.mp hk with rfl | hk'
    · have hnone : l.filter (fun y => decide (y = k)) = [] := by
        rw [List.filter_eq_nil_iff]
        intro y hy
        simp only [decide_eq_true_eq]
        intro e
        exact hnd.1 (e ▸ hy)
      simp [List.filter_cons, hnone]
    · have hne : a ≠ k := fun e => hnd.1 (e ▸ hk')
      have := ih hnd.2 hk'
      unfold occurrences at this
      simp [List.filter_cons, hne, this]

theorem treeOf_keys (A : Absent) (dir_stat : FileStat) (l : List (Path × FileStat))
    (k : Path) (hk : (treeOf A dir_stat l k).isSome = true) :
    (∃ x ∈ l, x.1 = k) ∨ (∃ x ∈ l, A.parent x.1 = some k) := by
  unfold treeOf at hk
  cases hf : l.find? (fun x => decide (x.1 = k)) with
  | some y =>
    left
    refine ⟨y, List.mem_of_find?_eq_some hf, ?_⟩
    have := List.find?_some hf
    simpa using this
  | none =>
    right
    rw [hf] at hk
    simp only [] at hk
    by_cases hc : childrenOf A l k = []
    · simp [hc] at hk
    · obtain ⟨c, hcm⟩ := List.exists_mem_of_ne_nil _ hc
      unfold childrenOf at hcm
      obtain ⟨x, hxm, _⟩ := List.mem_map.mp hcm
      obtain ⟨hxl, hxp⟩ := List.mem_filter.mp hxm
      exact ⟨x, hxl, by simpa using hxp⟩

/-- C20: starting from an empty `entries` map, `loadDirectoryStructure` over a listing
with contents map `C` leaves for every file `p` of `C` the entry built from `C`'s stat,
not cached and without directory entries, and for `parent(p)` a cached directory entry
whose `direntries` hold `p`'s entry exactly once; `entries` has no keys but these files
and their direct parents.  `C` is a map (its keys are distinct), every file has a
parent, and no file of `C` is the parent of a file of `C`: one entry cannot be both a
file entry and a directory entry.  The function returns `RC::ERR` also here. -/
theorem cache_tree (A : Absent) (storage : Storage) (contents : List (Path × FileStat))
    (hs : storage.type = StorageType.RCloneStorage ∨
      storage.type = StorageType.RSyncStorage)
    (hnd : (contents.map Prod.fst).Nodup)
    (hparent : ∀ x ∈ contents, (A.parent x.1).isSome = true)
    (hsep : ∀ x ∈ contents, ∀ y ∈ contents, A.parent y.1 ≠ some x.1) :
    ∃ entries, loadDirectoryStructure A storage (RC.OK, contents) PathMap.empty
        = some (RC.ERR, entries) ∧
      (∀ x ∈ contents, entries x.1 = some ⟨x.2, x.1, false, []⟩ ∧
        ∃ d de, A.parent x.1 = some d ∧ entries d = some de ∧
          de.fs.isDirectory = true ∧ de.cached = true ∧ de.path = d ∧
          occurrences x.1 de.direntries = 1) ∧
      (∀ k, (entries k).isSome = true →
        (∃ x ∈ contents, x.1 = k) ∨ (∃ x ∈ contents, A.parent x.1 = some k)) := by
  obtain ⟨pe, hpe⟩ := loadLoop_treeOf A FileStat.zero.setAsDirectory contents hnd hparent hsep
  refine ⟨treeOf A FileStat.zero.setAsDirectory contents, ?_, ?_, ?_⟩
  · unfold loadDirectoryStructure
    rcases hs with hs | hs <;> simp [hs, RC.isErr, hpe]
  · intro x hx
    refine ⟨treeOf_file A _ contents x hnd hx, ?_⟩
    obtain ⟨d, hd⟩ := Option.isSome_iff_exists.mp (hparent x hx)
    obtain ⟨hde, hmem⟩ := treeOf_dir A FileStat.zero.setAsDirectory contents x d hx hd
      (fun y hy e => hsep y hy x hx (by rw [hd, e]))
    have hdir : FileStat.zero.setAsDirectory.isDirectory = true := by decide
    exact ⟨d, _, hd, hde, hdir, rfl, rfl,
      occurrences_eq_one _ _ (childrenOf_nodup A contents d hnd) hmem⟩
  · intro k hk
    exact treeOf_keys A _ contents k hk

/-- Witness for C20: three files in the two directories `/r/a` and `/r/b`. -/
theorem cache_tree_witness :
    ∃ entries, loadDirectoryStructure exampleAbsent exampleStorage
        (RC.OK, [(cstr "/r/a/x", FileStat.zero), (cstr "/r/b/y", FileStat.zero),
          (cstr "/r/a/z", FileStat.zero)]) PathMap.empty = some (RC.ERR, entries) ∧
      entries (cstr "/r/a/z") = some ⟨FileStat.zero, cstr "/r/a/z", false, []⟩ ∧
      (entries (cstr "/r")).isSome = false := by
  obtain ⟨entries, h1, h2, h3⟩ := cache_tree exampleAbsent exampleStorage
    [(cstr "/r/a/x", FileStat.zero), (cstr "/r/b/y", FileStat.zero),
      (cstr "/r/a/z", FileStat.zero)] (Or.inl rfl) (by decide) (by decide) (by decide)
  refine ⟨entries, h1, (h2 (cstr "/r/a/z", FileStat.zero) (by simp)).1, ?_⟩
  cases hk : (entries (cstr "/r")).isSome with
  | false => rfl
  | true =>
    exfalso
    rcases h3 (cstr "/r") hk with ⟨x, hx, he⟩ | ⟨x, hx, he⟩
    · revert x
      decide
    · revert x
      decide

/-! ## What the header depends on -/

theorem land_of_land (m m' a b : Nat) (h : m &&& a = m' &&& a) (hb : a &&& b = b) :
    m &&& b = m' &&& b := by
  rw [← hb, ← Nat.land_assoc, ← Nat.land_assoc, h]

theorem calculate_header_size_stat (sb sb' : Stat) (p : Path) (l : Option Path)
    (ns ls : Option (List Byte)) :
    calculate_header_size_ sb p l ns ls = calculate_header_size_ sb' p l ns ls := by
  unfold calculate_header_size_
  rfl

/-- C24: two stats with the same permission and type bits of `st_mode`, the same mtime
seconds and, when the file is regular, the same `st_size` give the same result of the
constructor for the same path, link and hard-link flag: the same header block, byte for
byte, and the same block counts, or no header for both.  The other members of the stat
(uid, gid, mtime nanoseconds, other timestamps, inode and device, the `st_size` of a
file that is not regular) are not read. -/
theorem header_depends_on (sb sb' : Stat) (tarpath : Path) (link : Option Path)
    (is_hard_link : Bool)
    (hmode : sb.st_mode &&& 0o177777 = sb'.st_mode &&& 0o177777)
    (hsec : sb.st_mtim.tv_sec = sb'.st_mtim.tv_sec)
    (hsize : S_ISREG sb.st_mode = true → sb.st_size = sb'.st_size) :
    TarHeader.new sb tarpath link is_hard_link = TarHeader.new sb' tarpath link is_hard_link ∧
      ∀ h h', TarHeader.new sb tarpath link is_hard_link = some h →
        TarHeader.new sb' tarpath link is_hard_link = some h' →
        h.content.buf = h'.content.buf ∧ h.content.buf.length = 512 ∧
        h.num_header_blocks_ = h'.num_header_blocks_ ∧
        h.num_long_path_blocks_ = h'.num_long_path_blocks_ ∧
        h.num_long_link_blocks_ = h'.num_long_link_blocks_ := by
  have hfmt : sb.st_mode &&& S_IFMT = sb'.st_mode &&& S_IFMT :=
    land_of_land _ _ _ _ hmode (by decide)
  have hperm : sb.st_mode &&& 0o7777 = sb'.st_mode &&& 0o7777 :=
    land_of_land _ _ _ _ hmode (by decide)
  have hreg : S_ISREG sb.st_mode = S_ISREG sb'.st_mode := by
    unfold S_ISREG
    rw [hfmt]
  have htype : getTypeFlagFrom sb is_hard_link = getTypeFlagFrom sb' is_hard_link := by
    unfold getTypeFlagFrom S_ISLNK S_ISREG S_ISCHR S_ISBLK S_ISDIR S_ISFIFO
    rw [hfmt]
  have hmodef : writeModeFlagFrom sb (List.replicate 8 0)
      = writeModeFlagFrom sb' (List.replicate 8 0) := by
    unfold writeModeFlagFrom
    rw [modeBits_eq, modeBits_eq, hperm]
  have hsz : (if S_ISREG sb.st_mode = true then toSizeT sb.st_size else 0)
      = (if S_ISREG sb'.st_mode = true then toSizeT sb'.st_size else 0) := by
    by_cases hr : S_ISREG sb.st_mode = true
    · rw [if_pos hr, if_pos (hreg ▸ hr), hsize hr]
    · rw [if_neg hr, if_neg (hreg ▸ hr)]
  have hfill : ∀ t, filledContents sb tarpath link is_hard_link t
      = filledContents sb' tarpath link is_hard_link t := by
    intro t
    unfold filledContents
    rw [hmodef, hsz, hsec, calculate_header_size_stat sb sb']
  have hnew : TarHeader.new sb tarpath link is_hard_link
      = TarHeader.new sb' tarpath link is_hard_link := by
    rw [new_eq, new_eq, htype, calculate_header_size_stat sb sb']
    simp only [hfill]
  refine ⟨hnew, ?_⟩
  intro h h' h1 h2
  rw [hnew, h2] at h1
  have he : h' = h := Option.some.inj h1
  subst he
  obtain ⟨t, _, hc, _⟩ := new_some _ _ _ _ h' h2
  refine ⟨rfl, ?_, rfl, rfl, rfl⟩
  rw [hc]
  exact buf_length _ (calculateChecksum_spec _ (filledContents_wellSized _ _ _ _ t)).2

/-- Witness for C24: two stats of the same regular file that differ in everything the
constructor does not read. -/
theorem header_depends_on_witness :
    otherStat ≠ exampleStat ∧
      TarHeader.new otherStat (cstr "hello.txt") none false
        = TarHeader.new exampleStat (cstr "hello.txt") none false :=
  ⟨by decide,
    (header_depends_on otherStat exampleStat (cstr "hello.txt") none false (by decide)
      (by decide) (fun _ => by decide)).1⟩

/-! ## The checksum after the setters -/

theorem strcpy_length (dst src : List Byte)
    (h : (src.takeWhile (fun b => b ≠ 0)).length + 1 ≤ dst.length) :
    (strcpy dst src).length = dst.length := by
  unfold strcpy
  apply poke_length
  simpa using h

theorem wellSized_setLongPathType (self f : TarHeader) (hf : WellSized f.content) :
    WellSized (self.setLongPathType f).content := by
  obtain ⟨h1, h2, h3, h4, h5, h6, h7, h8⟩ := hf
  refine ⟨?_, h2, h3, h4, h5, ?_, h7, h8⟩
  · show (strcpy f.content.name_ (cstrz "././@LongLink")).length = 100
    rw [strcpy_length, h1]
    rw [h1]
    decide
  · show (snprintf f.content.mtime_ 12 (fmtOctal 64 11 0)).length = 12
    rw [snprintf_length _ _ _ (by decide) (by rw [h6]), h6]

theorem wellSized_setLongLinkType (self f : TarHeader) (hf : WellSized f.content) :
    WellSized (self.setLongLinkType f).content := by
  obtain ⟨h1, h2, h3, h4, h5, h6, h7, h8⟩ := hf
  refine ⟨?_, h2, h3, h4, h5, ?_, h7, h8⟩
  · show (strcpy f.content.name_ (cstrz "././@LongLink")).length = 100
    rw [strcpy_length, h1]
    rw [h1]
    decide
  · show (snprintf f.content.mtime_ 12 (fmtOctal 64 11 0)).length = 12
    rw [snprintf_length _ _ _ (by decide) (by rw [h6]), h6]

theorem wellSized_setSize (self : TarHeader) (s : Nat) (hs : WellSized self.content) :
    WellSized (self.setSize s).content := by
  obtain ⟨h1, h2, h3, h4, h5, h6⟩ := hs
  refine ⟨h1, h2, h3, h4, ?_, h6⟩
  show (snprintf self.content.size_ 12 (fmtOctal 64 11 s)).length = 12
  rw [snprintf_length _ _ _ (by decide) (by rw [h5]), h5]

set_option maxRecDepth 100000 in
/-- C22 as stated fails: the header built for `hello.txt` satisfies P3, and after
`setSize(3)`, after `setLongPathType` and after `setLongLinkType` (of that header) the
checksum member is not the sum of the bytes any more. -/
theorem setters_break_checksum :
    ∃ h, TarHeader.new exampleStat (cstr "hello.txt") none false = some h ∧
      P3 h.content ∧ ¬ P3 (h.setSize 3).content ∧ ¬ P3 (h.setLongPathType h).content ∧
      ¬ P3 (h.setLongLinkType h).content := by
  have hsome : (TarHeader.new exampleStat (cstr "hello.txt") none false).isSome = true := by
    decide
  obtain ⟨h, hq⟩ := Option.isSome_iff_exists.mp hsome
  have h0 : (TarHeader.new exampleStat (cstr "hello.txt") none false).map
      (fun x => (decide (x.content.checksum_ = octDigits 7 (specChecksum x.content) ++ [0]),
        decide ((x.setSize 3).content.checksum_
          = octDigits 7 (specChecksum (x.setSize 3).content) ++ [0]),
        decide ((x.setLongPathType x).content.checksum_
          = octDigits 7 (specChecksum (x.setLongPathType x).content) ++ [0]),
        decide ((x.setLongLinkType x).content.checksum_
          = octDigits 7 (specChecksum (x.setLongLinkType x).content) ++ [0])))
      = some (true, false, false, false) := by decide
  rw [hq] at h0
  simp only [Option.map_some', Option.some.injEq, Prod.mk.injEq, decide_eq_true_eq,
    decide_eq_false_iff_not] at h0
  exact ⟨h, hq, h0.1, h0.2.1, h0.2.2.1, h0.2.2.2⟩

/-- C22, amended: the setters leave the checksum member as it is (`setLongPathType(f)`
and `setLongLinkType(f)` take over that of `f`), so P3 is not kept by them; it holds
again after a following `calculateChecksum()`. -/
theorem checksum_after_setters (self f : TarHeader) (s : Nat)
    (hself : WellSized self.content) (hf : WellSized f.content) :
    (self.setLongPathType f).content.checksum_ = f.content.checksum_ ∧
      (self.setLongLinkType f).content.checksum_ = f.content.checksum_ ∧
      (self.setSize s).content.checksum_ = self.content.checksum_ ∧
      P3 (calculateChecksum (self.setLongPathType f).content) ∧
      P3 (calculateChecksum (self.setLongLinkType f).content) ∧
      P3 (calculateChecksum (self.setSize s).content) :=
  ⟨rfl, rfl, rfl,
    (calculateChecksum_spec _ (wellSized_setLongPathType self f hf)).1,
    (calculateChecksum_spec _ (wellSized_setLongLinkType self f hf)).1,
    (calculateChecksum_spec _ (wellSized_setSize self s hself)).1⟩

/-- Witness for the amended C22: the setters on a zeroed header. -/
theorem checksum_after_setters_witness :
    P3 (calculateChecksum
      ((TarHeader.mk TarHeaderContents.zero 0 0 0).setSize 14).content) ∧
    P3 (calculateChecksum
      ((TarHeader.mk TarHeaderContents.zero 0 0 0).setLongPathType
        (TarHeader.mk TarHeaderContents.zero 0 0 0)).content) :=
  have hz : WellSized TarHeaderContents.zero := by
    unfold WellSized TarHeaderContents.zero
    simp
  have h := checksum_after_setters (TarHeader.mk TarHeaderContents.zero 0 0 0)
    (TarHeader.mk TarHeaderContents.zero 0 0 0) 14 hz hz
  ⟨h.2.2.2.2.2, h.2.2.2.1⟩

/-! ## The bounds of the two scans -/

/-- C23: the scans do not keep `0 <= from <= to < len`.  For every buffer of length 1
the first loop is not entered and leaves `from = 1 = len`, and the second loop starts
at `to = len-2`, which is `2^64-1` in `size_t`, so no value of `to` satisfies
`from <= to < len`.  For the 12 bytes `hello world\n`, which hold no ` : `, the first
loop ends at `from = 11` and the second at `to = 10 < from`, and the length `to - from`
of the substring underflows to `2^64-1`. -/
theorem scan_bounds_fail :
    (∀ (buf : List Byte) (to_ : Nat), ¬ (scanFrom buf 1 ≤ to_ ∧ to_ < 1)) ∧
      (∀ buf : List Byte, scanFrom buf 1 = 1) ∧
      (1 + 2 ^ 64 - 2) % 2 ^ 64 = 2 ^ 64 - 1 ∧
      (cstr "hello world\n").length = 12 ∧
      hasInfix (cstr " : ") (cstr "hello world\n") = false ∧
      scanFrom (cstr "hello world\n") 12 = 11 ∧
      scanTo (cstr "hello world\n") 12 11 = 10 ∧
      (scanTo (cstr "hello world\n") 12 (scanFrom (cstr "hello world\n") 12) + 2 ^ 64
        - scanFrom (cstr "hello world\n") 12) % 2 ^ 64 = 2 ^ 64 - 1 := by
  have h1 : ∀ buf : List Byte, scanFrom buf 1 = 1 := by
    intro buf
    unfold scanFrom
    have : (1 + 2 ^ 64 - 1) % 2 ^ 64 = 0 := by norm_num
    rw [this]
    rfl
  refine ⟨?_, h1, by norm_num, by decide, by decide, by decide, by decide, ?_⟩
  · intro buf to_ h
    rw [h1] at h
    omega
  · have hf : scanFrom (cstr "hello world\n") 12 = 11 := by decide
    have ht : scanTo (cstr "hello world\n") 12 11 = 10 := by decide
    rw [hf, ht]
    norm_num

/-! ## Lines that the callback counts -/

/-- C21: the callback does not look at the status of the line.  For every verbose line
`<timestamp> <level> : <path>: <status>`, whatever the status, if
`storage_location + "/" + <path>` is a key of the recorded file sizes, the callback adds
1 to `num_files_stored` and the recorded size to `size_files_stored`: this is what the
claim has for a `Copied` line, and it also happens for a line without the word. -/
theorem callback_ignores_marker (A : Absent) (storage : Storage) (stats : Stats)
    (pre path status : List Byte) (hpre : noSpaceColon pre = true)
    (hstatus : noColonSpace status = true)
    (hlen : (rcloneLine pre path status).length ≤ 4097)
    (hknown : stats.file_sizes.count (A.lookup (storage.storage_location ++ cstr "/" ++ path))
      ≠ 0) :
    (outputCallback A storage stats (rcloneLine pre path status)
        (rcloneLine pre path status).length).num_files_stored
        = (stats.num_files_stored + 1) % 2 ^ 64 ∧
      (outputCallback A storage stats (rcloneLine pre path status)
        (rcloneLine pre path status).length).size_files_stored
        = (stats.size_files_stored
            + (stats.file_sizes
                (A.lookup (storage.storage_location ++ cstr "/" ++ path))).getD 0) % 2 ^ 64 := by
  have h := copiedFile_line storage pre path status hpre hstatus hlen
  unfold outputCallback
  simp only [h]
  rw [if_pos hknown]
  exact ⟨rfl, rfl⟩

/-- Failing input for C21: the line `2018/01/29 20:05:36 INFO  : s.tar: Deleted` does
not hold the word `Copied`, and the callback counts the known file `/r/s.tar` of 2048
bytes as stored. -/
theorem callback_ignores_marker_witness :
    hasInfix (cstr "Copied")
        (rcloneLine (cstr "2018/01/29 20:05:36 INFO ") (cstr "s.tar") (cstr "Deleted\n"))
        = false ∧
      exampleStats.num_files_stored = 0 ∧ exampleStats.size_files_stored = 0 ∧
      (outputCallback exampleAbsent exampleStorage exampleStats
        (rcloneLine (cstr "2018/01/29 20:05:36 INFO ") (cstr "s.tar") (cstr "Deleted\n"))
        (rcloneLine (cstr "2018/01/29 20:05:36 INFO ") (cstr "s.tar") (cstr "Deleted\n")).length
        ).num_files_stored = 1 ∧
      (outputCallback exampleAbsent exampleStorage exampleStats
        (rcloneLine (cstr "2018/01/29 20:05:36 INFO ") (cstr "s.tar") (cstr "Deleted\n"))
        (rcloneLine (cstr "2018/01/29 20:05:36 INFO ") (cstr "s.tar") (cstr "Deleted\n")).length
        ).size_files_stored = 2048 :=
  have h := callback_ignores_marker exampleAbsent exampleStorage exampleStats
    (cstr "2018/01/29 20:05:36 INFO ") (cstr "s.tar") (cstr "Deleted\n")
    (by decide) (by decide) (by decide) (by decide)
  ⟨by decide, rfl, rfl, h.1.trans (by decide), h.2.trans (by decide)⟩

/-! ## The statistics of the work to do -/

/-- C25: when the counters do not wrap and the file has no recorded size yet,
`add_backup_work` returns and keeps `num_files_to_store <= num_files` and
`size_files_to_store <= size_files`.  For a regular file it adds 1 to `num_files` and
`st_size` (as a `size_t`) to `size_files`, records that size under
`storage_location/path`, and adds the same amounts to the to-store counters exactly when
`disk_update` is `Store` after `checkStat`; for a directory it only adds 1 to `num_dirs`;
for any other type the statistics stay as they are. -/
theorem add_backup_work_spec (A : Absent) (checkStat : FileStat → Path → UpdateDisk)
    (stats : Stats) (path : Path) (stat : FileStat) (storage : Storage)
    (hassert : stat.isRegularFile = true →
      stats.file_sizes.count (A.prepend path storage.storage_location) = 0)
    (hnum : stats.num_files + 1 < 2 ^ 64)
    (hsize : stats.size_files + toSizeT stat.st_size < 2 ^ 64)
    (hinv : stats.num_files_to_store ≤ stats.num_files ∧
      stats.size_files_to_store ≤ stats.size_files) :
    ∃ stats', add_backup_work A checkStat stats path stat storage = some stats' ∧
      (stats'.num_files_to_store ≤ stats'.num_files ∧
        stats'.size_files_to_store ≤ stats'.size_files) ∧
      (stat.isRegularFile = true →
        stats'.num_files = stats.num_files + 1 ∧
        stats'.size_files = stats.size_files + toSizeT stat.st_size ∧
        stats'.file_sizes = stats.file_sizes.assign (A.prepend path storage.storage_location)
          (toSizeT stat.st_size) ∧
        stats'.file_sizes (A.prepend path storage.storage_location)
          = some (toSizeT stat.st_size) ∧
        stats'.num_dirs = stats.num_dirs ∧
        stats'.num_files_stored = stats.num_files_stored ∧
        stats'.size_files_stored = stats.size_files_stored ∧
        (checkStat stat (A.prepend path storage.storage_location) = UpdateDisk.Store →
          stats'.num_files_to_store = stats.num_files_to_store + 1 ∧
          stats'.size_files_to_store = stats.size_files_to_store + toSizeT stat.st_size) ∧
        (checkStat stat (A.prepend path storage.storage_location) ≠ UpdateDisk.Store →
          stats'.num_files_to_store = stats.num_files_to_store ∧
          stats'.size_files_to_store = stats.size_files_to_store)) ∧
      (stat.isRegularFile = false → stat.isDirectory = true →
        stats' = { stats with num_dirs := (stats.num_dirs + 1) % 2 ^ 64 }) ∧
      (stat.isRegularFile = false → stat.isDirectory = false → stats' = stats) := by
  obtain ⟨hi1, hi2⟩ := hinv
  cases hreg : stat.isRegularFile with
  | true =>
    have hc := hassert hreg
    have e1 : (stats.num_files + 1) % 2 ^ 64 = stats.num_files + 1 := Nat.mod_eq_of_lt hnum
    have e2 : (stats.size_files + toSizeT stat.st_size) % 2 ^ 64
        = stats.size_files + toSizeT stat.st_size := Nat.mod_eq_of_lt hsize
    have e3 : (stats.num_files_to_store + 1) % 2 ^ 64 = stats.num_files_to_store + 1 :=
      Nat.mod_eq_of_lt (by omega)
    have e4 : (stats.size_files_to_store + toSizeT stat.st_size) % 2 ^ 64
        = stats.size_files_to_store + toSizeT stat.st_size := Nat.mod_eq_of_lt (by omega)
    have hlook : stats.file_sizes.assign (A.prepend path storage.storage_location)
        (toSizeT stat.st_size) (A.prepend path storage.storage_location)
          = some (toSizeT stat.st_size) := by
      simp [PathMap.assign]
    by_cases hst : checkStat stat (A.prepend path storage.storage_location) = UpdateDisk.Store
    · refine ⟨⟨stats.num_files + 1, stats.size_files + toSizeT stat.st_size, stats.num_dirs,
          stats.num_files_to_store + 1, stats.size_files_to_store + toSizeT stat.st_size,
          stats.num_files_stored, stats.size_files_stored,
          stats.file_sizes.assign (A.prepend path storage.storage_location)
            (toSizeT stat.st_size)⟩, ?_, ?_⟩
      · unfold add_backup_work
        simp only [hreg, if_true, hc, ne_eq, not_true_eq_false, if_false, hst, e1, e2, e3, e4]
      · refine ⟨⟨by simp only; omega, by simp only; omega⟩, ?_, ?_, ?_⟩
        · intro _
          exact ⟨rfl, rfl, rfl, hlook, rfl, rfl, rfl, fun _ => ⟨rfl, rfl⟩,
            fun h => absurd hst h⟩
        · intro h
          exact absurd h (by simp)
        · intro h
          exact absurd h (by simp)
    · refine ⟨⟨stats.num_files + 1, stats.size_files + toSizeT stat.st_size, stats.num_dirs,
          stats.num_files_to_store, stats.size_files_to_store,
          stats.num_files_stored, stats.size_files_stored,
          stats.file_sizes.assign (A.prepend path storage.storage_location)
            (toSizeT stat.st_size)⟩, ?_, ?_⟩
      · unfold add_backup_work
        simp only [hreg, if_true, hc, ne_eq, not_true_eq_false, if_false, hst, e1, e2]
      · refine ⟨⟨by simp only; omega, by simp only; omega⟩, ?_, ?_, ?_⟩
        · intro _
          exact ⟨rfl, rfl, rfl, hlook, rfl, rfl, rfl, fun h => absurd h hst,
            fun _ => ⟨rfl, rfl⟩⟩
        · intro h
          exact absurd h (by simp)
        · intro h
          exact absurd h (by simp)
  | false =>
    cases hdir : stat.isDirectory with
    | true =>
      refine ⟨{ stats with num_dirs := (stats.num_dirs + 1) % 2 ^ 64 }, ?_, ⟨hi1, hi2⟩, ?_,
        fun _ _ => rfl, ?_⟩
      · unfold add_backup_work
        simp [hreg, hdir]
      · intro h
        exact absurd h (by simp)
      · intro _ h
        exact absurd h (by simp)
    | false =>
      refine ⟨stats, ?_, ⟨hi1, hi2⟩, ?_, ?_, fun _ _ => rfl⟩
      · unfold add_backup_work
        simp [hreg, hdir]
      · intro h
        exact absurd h (by simp)
      · intro _ h
        exact absurd h (by simp)

/-- Witness for C25: a second regular file of 2048 bytes that has to be stored. -/
theorem add_backup_work_spec_witness :
    ∃ stats', add_backup_work exampleAbsent (fun _ _ => UpdateDisk.Store) exampleStats
        (cstr "t.tar") exampleFileStat exampleStorage = some stats' ∧
      stats'.num_files = 2 ∧ stats'.size_files = 4096 ∧
      stats'.num_files_to_store = 2 ∧ stats'.size_files_to_store = 4096 ∧
      stats'.file_sizes (cstr "/r/t.tar") = some 2048 := by
  obtain ⟨stats', h, _, hr, _⟩ := add_backup_work_spec exampleAbsent
    (fun _ _ => UpdateDisk.Store) exampleStats (cstr "t.tar") exampleFileStat exampleStorage
    (fun _ => by decide) (by decide) (by decide) ⟨by decide, by decide⟩
  obtain ⟨a, b, _, d, _, _, _, f, _⟩ := hr (by decide)
  obtain ⟨f1, f2⟩ := f rfl
  exact ⟨stats', h, a.trans (by decide), b.trans (by decide), f1.trans (by decide),
    f2.trans (by decide), d.trans (by decide)⟩

/-! ## Storing one file of the backup -/

theorem foldl_written (written : List Nat) (stats : Stats)
    (h : stats.size_files_stored < 2 ^ 64) :
    written.foldl
        (fun st n => { st with size_files_stored := (st.size_files_stored + n) % 2 ^ 64 }) stats
      = { stats with
          size_files_stored := (stats.size_files_stored + totalWritten written) % 2 ^ 64 } := by
  induction written generalizing stats with
  | nil =>
    simp only [List.foldl_nil, totalWritten, List.sum_nil, Nat.add_zero, Nat.mod_eq_of_lt h]
  | cons n ns ih =>
    rw [List.foldl_cons, ih _ (Nat.mod_lt _ (by norm_num))]
    simp only [totalWritten, List.sum_cons]
    congr 1
    rw [Nat.mod_add_mod, Nat.add_assoc]

/-- C26: for a non-regular entry `store_local_backup_file` makes no call on the storage
and leaves the statistics as they are.  For a regular file whose tar is found it makes
the parent directory and then skips the writing exactly when the stat of the storage
succeeds and permissions, size and mtime are the same; otherwise it deletes the file if
the stat succeeded, creates the file, sets its mtime and adds exactly 1 to
`num_files_stored`, the bytes written being added to `size_files_stored`. -/
theorem store_local_backup_file_spec (A : Absent) (C : StatCompare)
    (storage_stat : RC × FileStat) (written : List Nat) (storage : Storage) (stats : Stats)
    (path : Path) (stat : FileStat) (hrange : stats.size_files_stored < 2 ^ 64) :
    (stat.isRegularFile = false → ∀ tar_found,
      store_local_backup_file A C tar_found storage_stat written storage stats path stat
        = some ([], stats)) ∧
    (stat.isRegularFile = true →
      ∃ ops stats',
        store_local_backup_file A C true storage_stat written storage stats path stat
          = some (ops, stats') ∧
        (alreadyStored C storage_stat stat = true →
          ops = [FsOp.mkDirpWriteable (A.parent (A.prepend path storage.storage_location))] ∧
          stats' = stats) ∧
        (alreadyStored C storage_stat stat = false →
          ops = [FsOp.mkDirpWriteable (A.parent (A.prepend path storage.storage_location))]
              ++ (if storage_stat.1.isOk then
                    [FsOp.deleteFile (A.prepend path storage.storage_location)] else [])
              ++ [FsOp.createFile (A.prepend path storage.storage_location),
                  FsOp.utime (A.prepend path storage.storage_location)] ∧
          stats' = { stats with
            size_files_stored := (stats.size_files_stored + totalWritten written) % 2 ^ 64
            num_files_stored := (stats.num_files_stored + 1) % 2 ^ 64 }) ∧
        (FsOp.createFile (A.prepend path storage.storage_location) ∈ ops
          ↔ alreadyStored C storage_stat stat = false)) := by
  constructor
  · intro hreg tar_found
    unfold store_local_backup_file
    simp [hreg]
  · intro hreg
    cases hal : alreadyStored C storage_stat stat with
    | true =>
      have hal' : (storage_stat.1.isOk && C.samePermissions stat storage_stat.2 &&
          C.sameSize stat storage_stat.2 && C.sameMTime stat storage_stat.2) = true := hal
      refine ⟨[FsOp.mkDirpWriteable (A.parent (A.prepend path storage.storage_location))],
        stats, ?_, fun _ => ⟨rfl, rfl⟩, fun h => absurd h (by simp), ?_⟩
      · unfold store_local_backup_file
        simp only [hreg, Bool.not_true, Bool.false_eq_true, if_false, hal', if_true]
      · simp
    | false =>
      have hal' : (storage_stat.1.isOk && C.samePermissions stat storage_stat.2 &&
          C.sameSize stat storage_stat.2 && C.sameMTime stat storage_stat.2) = false := hal
      refine ⟨[FsOp.mkDirpWriteable (A.parent (A.prepend path storage.storage_location))]
              ++ (if storage_stat.1.isOk then
                    [FsOp.deleteFile (A.prepend path storage.storage_location)] else [])
              ++ [FsOp.createFile (A.prepend path storage.storage_location),
                  FsOp.utime (A.prepend path storage.storage_location)],
        { stats with
            size_files_stored := (stats.size_files_stored + totalWritten written) % 2 ^ 64
            num_files_stored := (stats.num_files_stored + 1) % 2 ^ 64 }, ?_,
        fun h => absurd h (by simp), fun _ => ⟨rfl, rfl⟩, ?_⟩
      · unfold store_local_backup_file
        simp only [hreg, Bool.not_true, Bool.false_eq_true, if_false, hal',
          foldl_written written stats hrange]
        cases storage_stat.1.isOk <;> simp
      · simp

/-- Witness for C26: the storage has no file of that name, so the segment is written
(64 and 1984 bytes), without a deletion; and with the same file in the storage nothing is
written. -/
theorem store_local_backup_file_spec_witness :
    store_local_backup_file exampleAbsent exampleCompare true (RC.ERR, FileStat.zero)
        [64, 1984] exampleStorage exampleStats (cstr "s.tar") exampleFileStat
      = some ([FsOp.mkDirpWriteable (some (cstr "/r")), FsOp.createFile (cstr "/r/s.tar"),
          FsOp.utime (cstr "/r/s.tar")],
        { exampleStats with size_files_stored := 2048, num_files_stored := 1 }) ∧
    store_local_backup_file exampleAbsent exampleCompare true (RC.OK, exampleFileStat)
        [64, 1984] exampleStorage exampleStats (cstr "s.tar") exampleFileStat
      = some ([FsOp.mkDirpWriteable (some (cstr "/r"))], exampleStats) := by
  obtain ⟨ops, stats', h, _, hw, _⟩ :=
    (store_local_backup_file_spec exampleAbsent exampleCompare (RC.ERR, FileStat.zero)
      [64, 1984] exampleStorage exampleStats (cstr "s.tar") exampleFileStat (by decide)).2
      (by decide)
  obtain ⟨ho, hs⟩ := hw (by decide)
  obtain ⟨ops2, stats2, h2, hk, _, _⟩ :=
    (store_local_backup_file_spec exampleAbsent exampleCompare (RC.OK, exampleFileStat)
      [64, 1984] exampleStorage exampleStats (cstr "s.tar") exampleFileStat (by decide)).2
      (by decide)
  obtain ⟨ho2, hs2⟩ := hk (by decide)
  refine ⟨?_, ?_⟩
  · rw [h, ho, hs]
    have e : (exampleStats.size_files_stored + totalWritten [64, 1984]) % 2 ^ 64 = 2048 := by
      decide
    have e1 : (exampleStats.num_files_stored + 1) % 2 ^ 64 = 1 := by decide
    have e2 : exampleAbsent.parent (exampleAbsent.prepend (cstr "s.tar")
        exampleStorage.storage_location) = some (cstr "/r") := by decide
    have e3 : exampleAbsent.prepend (cstr "s.tar") exampleStorage.storage_location
        = cstr "/r/s.tar" := by decide
    rw [e, e1, e2, e3]
    rfl
  · rw [h2, ho2, hs2]
    have e2 : exampleAbsent.parent (exampleAbsent.prepend (cstr "s.tar")
        exampleStorage.storage_location) = some (cstr "/r") := by decide
    rw [e2]

end Tarredfs
